import Mathlib

/-!
# Renesas V850ES/Jx3-L flash programming helpers: framing and command protocol

A shallow embedding of `v850jx3l_flash.c` and a verification of its framing
layer.

* Bytes (`uint8_t`) are `Fin 256`; every 8-bit operation is written with an
  explicit `% 256`.
* A C array is a function from indices to bytes (`Mem`).  A local array starts
  with unspecified contents, which each function receives as `stack`.
* `libusb` is the environment.  The device is a `Transport`: the answer given
  to the `i`-th call of `libusb_bulk_transfer`.  The code is sequential and
  deterministic, so every device, however it reacts to the requests, is
  covered by the sequence of its answers.  Every function receives the number
  of calls made so far, and returns the new count together with the list of
  actions it performed (`Event`).
* The payload loop of `receive_data_frame` has no bound of its own; it takes
  a number of iterations `fuel`, and `none` stands for a loop that has not
  ended within it.
* The marker, status and command bytes come from `v850j.h`; they are the
  fields of `Header`, and every definition is parametrised by them.
* The `printf`/`fprintf` diagnostics are left out of the functions; the three
  lines that `v850j_reset` writes to `stderr` are given by `v850j_reset_stderr`.
* The delays of `v850j_reset` are parameters of the function.  The values that
  the source computes for them (lines 141-146) are `tCOM`, `t12` and `t2C`,
  where `double` is IEEE 754 binary64 and every operation is rounded to
  nearest, ties to even.
-/

namespace V850J

/-! ## Bytes and memory -/

/-- A `uint8_t`. -/
abbrev Byte := Fin 256

/-- Conversion of an `int` to `uint8_t`. -/
def u8 (n : Nat) : Byte := ⟨n % 256, Nat.mod_lt _ (by decide)⟩

/-- The statement `a -= b` on `uint8_t`. -/
def sub8 (a b : Byte) : Byte := u8 (a.val + 256 - b.val)

/-- A C array of bytes, seen through its indices. -/
abbrev Mem := Nat → Byte

/-- The assignment `buf[i] = v`. -/
def store (buf : Mem) (i : Nat) (v : Byte) : Mem :=
  fun j => if j = i then v else buf j

/-- Writing the bytes `data` at `buf + off`: `memcpy(buf + off, data, data.length)`,
and what a bulk read does to its buffer. -/
def memcpy (buf : Mem) (off : Nat) (data : List Byte) : Mem :=
  fun j => if off ≤ j ∧ j < off + data.length then data.getD (j - off) (buf j) else buf j

/-- The `n` bytes found at `buf + off`. -/
def load (buf : Mem) (off n : Nat) : List Byte :=
  (List.range n).map (fun i => buf (off + i))

/-! ## Constants -/

/-- The constants of `v850j.h` used by the source. -/
structure Header where
  V850ESJx3L_SOH : Byte
  V850ESJx3L_STX : Byte
  V850ESJx3L_ETX : Byte
  V850ESJx3L_STATUS_ACK : Byte
  V850ESJx3L_RESET : Byte
  V850ESJx3L_SILICON_SIGNATURE : Byte

/-- `#define V850J_TIMEOUT_MS (3000 + 1000)`. -/
def V850J_TIMEOUT_MS : Nat := 3000 + 1000

/-- `#define RETRY_MAX 5`. -/
def RETRY_MAX : Nat := 5

/-- `#define ENDPOINT_OUT 0x02`. -/
def ENDPOINT_OUT : Byte := 0x02

/-- `#define ENDPOINT_IN  0x81`. -/
def ENDPOINT_IN : Byte := 0x81

/-- `LIBUSB_SUCCESS` of `libusb.h`. -/
def LIBUSB_SUCCESS : Int := 0

/-- `LIBUSB_ERROR_TIMEOUT` of `libusb.h`. -/
def LIBUSB_ERROR_TIMEOUT : Int := -7

/-- `LIBUSB_ERROR_PIPE` of `libusb.h`: the endpoint halted (stall). -/
def LIBUSB_ERROR_PIPE : Int := -9

/-! ## The transport -/

/-- The outcome of one `libusb_bulk_transfer`: its return code and the bytes
that were transferred.  For a read, `data` is what the device delivered; for a
write only the length of `data` matters (the count reported in `transferred`). -/
structure Resp where
  ret : Int
  data : List Byte
deriving DecidableEq, Repr

/-- The device: its answer to the `i`-th bulk transfer. -/
abbrev Transport := Nat → Resp

/-- The actions performed on the outside world. -/
inductive Event where
  /-- A call of `libusb_bulk_transfer` on `endpoint`, asking for `length`
  bytes with `timeout`; `out` holds the bytes offered by a write (empty for a
  read), `ret` and `data` are the answer. -/
  | bulk (endpoint : Byte) (out : List Byte) (length timeout : Nat) (ret : Int)
      (data : List Byte)
  /-- A call of `libusb_clear_halt` on `endpoint`. -/
  | clear_halt (endpoint : Byte)
  /-- A call of `usleep`. -/
  | usleep (usec : Nat)
deriving DecidableEq, Repr

/-- The state after a transfer: return code, `transferred`, the buffer, the
number of bulk transfers issued so far and the actions performed. -/
structure Xfer where
  ret : Int
  transferred : Nat
  buf : Mem
  calls : Nat
  events : List Event

/-- One call `libusb_bulk_transfer(handle, endpoint, buf + off, length,
&transferred, V850J_TIMEOUT_MS)`, the `calls`-th of the run.  Bit 7 of the
endpoint address gives the direction: a read stores what was delivered at
`buf + off`, a write offers the `length` bytes found there.  As in `libusb`,
the bytes that arrived are stored and `transferred` is set whatever the return
code is. -/
def libusb_bulk_transfer (t : Transport) (endpoint : Byte) (buf : Mem) (off length : Nat)
    (calls : Nat) : Xfer :=
  let r := t calls
  if 128 ≤ endpoint.val then
    { ret := r.ret, transferred := r.data.length, buf := memcpy buf off r.data,
      calls := calls + 1,
      events := [Event.bulk endpoint [] length V850J_TIMEOUT_MS r.ret r.data] }
  else
    { ret := r.ret, transferred := r.data.length, buf := buf,
      calls := calls + 1,
      events := [Event.bulk endpoint (load buf off length) length V850J_TIMEOUT_MS r.ret r.data] }

/-- The retry loop that surrounds every transfer of the source:
```
do {
    ret = libusb_bulk_transfer(handle, endpoint, buf + off, length, &transferred, V850J_TIMEOUT_MS);
    if (ret == LIBUSB_ERROR_PIPE) libusb_clear_halt(handle, endpoint);
    try++;
} while ((ret == LIBUSB_ERROR_PIPE) && (try < RETRY_MAX));
```
The first argument bounds the number of further iterations, for the recursion
only: started with `RETRY_MAX` and `try_ = 0` it is never what ends the loop
(`bulk_retry_fuel`). -/
def bulk_retry (t : Transport) (endpoint : Byte) (off length : Nat) :
    Nat → Nat → Mem → Nat → Xfer
  | fuel, try_, buf, calls =>
    let x := libusb_bulk_transfer t endpoint buf off length calls
    let ev := if x.ret = LIBUSB_ERROR_PIPE then x.events ++ [Event.clear_halt endpoint]
              else x.events
    let try1 := try_ + 1
    if x.ret = LIBUSB_ERROR_PIPE ∧ try1 < RETRY_MAX then
      match fuel with
      | 0 => { x with events := ev }
      | fuel + 1 =>
        let y := bulk_retry t endpoint off length fuel try1 x.buf x.calls
        { y with events := ev ++ y.events }
    else { x with events := ev }

/-! ## The frame codec -/

/-- The function `checksum`: the bytes are subtracted one after the other from
an 8-bit accumulator that starts at zero. -/
def checksum (data : List Byte) : Byte :=
  data.foldl sub8 0

/-- The frame buffer `buf` of `send_command_frame` after lines 36-42. -/
def command_frame_buf (k : Header) (stack : Mem) (command : Byte) (buffer : List Byte) : Mem :=
  let buffer_length := buffer.length
  let buf := store stack 0 k.V850ESJx3L_SOH
  let buf := store buf 1 (if buffer_length = 255 then 0 else u8 (buffer_length + 1))
  let buf := store buf 2 command
  let buf := if buffer_length > 0 then memcpy buf 3 buffer else buf
  let buf := store buf (3 + buffer_length) (checksum (load buf 1 (buffer_length + 2)))
  store buf (3 + buffer_length + 1) k.V850ESJx3L_ETX

/-- The frame of `send_command_frame`: the `buffer_length + 5` bytes of `buf`
that it hands to `libusb_bulk_transfer` (line 55). -/
def command_frame (k : Header) (stack : Mem) (command : Byte) (buffer : List Byte) : List Byte :=
  load (command_frame_buf k stack command buffer) 0 (buffer.length + 5)

/-- The result of a function returning `int` after some transfers. -/
structure Sent where
  ret : Int
  calls : Nat
  events : List Event
deriving DecidableEq, Repr

/-- The function `send_command_frame`; `buffer` holds the `buffer_length`
payload bytes (`buffer_length` is a `uint8_t`, so at most 255 of them). -/
def send_command_frame (k : Header) (t : Transport) (stack : Mem) (command : Byte)
    (buffer : List Byte) (calls : Nat) : Sent :=
  let buffer_length := buffer.length
  let buf := command_frame_buf k stack command buffer
  let x := bulk_retry t ENDPOINT_OUT 0 (buffer_length + 5) RETRY_MAX 0 buf calls
  if x.ret ≠ LIBUSB_SUCCESS then ⟨-1, x.calls, x.events⟩
  else ⟨0, x.calls, x.events⟩

/-- The result of `receive_data_frame`: its return value, the caller's
`buffer` and `*length` as it leaves them, the number of bulk transfers issued
so far and the actions performed. -/
structure Recv where
  ret : Int
  buffer : List Byte
  length : Nat
  calls : Nat
  events : List Event
deriving DecidableEq, Repr

/-- The payload loop of `receive_data_frame` (lines 110-126), which has no
bound of its own: `none` means that `fuel` iterations did not end it. -/
def payload_loop (t : Transport) (len : Nat) :
    Nat → Nat → Mem → Nat → Option Xfer
  | 0, _, _, _ => none
  | fuel + 1, received, buf, calls =>
    let x := bulk_retry t ENDPOINT_IN (2 + received) (len + 2 - received) RETRY_MAX 0 buf calls
    if x.ret ≠ LIBUSB_SUCCESS then some { x with ret := -1, transferred := received }
    else
      let received := if x.ret = 0 then received + x.transferred else received
      if received < len + 2 then
        match payload_loop t len fuel received x.buf x.calls with
        | none => none
        | some y => some { y with events := x.events ++ y.events }
      else some { x with ret := 0, transferred := received }

/-- Lines 107-136 of `receive_data_frame`: the length is decoded from `buf[1]`,
the payload, checksum and end marker are read, and the payload is copied to the
caller.  `ev` are the actions performed so far. -/
def receive_payload (t : Transport) (fuel : Nat) (buffer : List Byte) (length : Nat)
    (buf : Mem) (calls : Nat) (ev : List Event) : Option Recv :=
  let len := if (buf 1).val = 0 then 256 else (buf 1).val
  match payload_loop t len fuel 0 buf calls with
  | none => none
  | some y =>
    if y.ret ≠ 0 then some ⟨-1, buffer, length, y.calls, ev ++ y.events⟩
    else some ⟨0, load y.buf 2 len ++ buffer.drop len, len, y.calls, ev ++ y.events⟩

/-- The function `receive_data_frame`.  `buffer` and `length` are the caller's
buffer and `*length` on entry. -/
def receive_data_frame (k : Header) (t : Transport) (stack : Mem) (fuel : Nat)
    (buffer : List Byte) (length : Nat) (calls : Nat) : Option Recv :=
  let x := bulk_retry t ENDPOINT_IN 0 2 RETRY_MAX 0 stack calls
  if x.ret ≠ LIBUSB_SUCCESS then some ⟨-1, buffer, length, x.calls, x.events⟩
  else if x.buf 0 ≠ k.V850ESJx3L_STX then some ⟨-1, buffer, length, x.calls, x.events⟩
  else if x.transferred < 2 then
    let y := bulk_retry t ENDPOINT_IN 1 1 RETRY_MAX 0 x.buf x.calls
    if y.ret ≠ LIBUSB_SUCCESS then
      some ⟨-1, buffer, length, y.calls, x.events ++ y.events⟩
    else receive_payload t fuel buffer length y.buf y.calls (x.events ++ y.events)
  else receive_payload t fuel buffer length x.buf x.calls x.events

/-! ## The commands -/

/-- The function `v850j_reset`.  The three delays `tCOM`, `t12` and `t2C`,
which the source computes in floating point (lines 141-146), are parameters;
the values computed are given in the section on the reset delays.
`stack_send` and `stack_recv` are the unspecified initial contents of the
frame buffers of the two callees, `buf` and `len` those of the local `buf` and
`len`. -/
def v850j_reset (k : Header) (t : Transport) (tCOM t12 t2C : Nat) (stack_send stack_recv : Mem)
    (buf : List Byte) (len : Nat) (fuel : Nat) (calls : Nat) : Option Sent :=
  let ev := [Event.usleep tCOM]
  let x : Mem := fun _ => 0x00
  let a := bulk_retry t ENDPOINT_OUT 0 1 RETRY_MAX 0 x calls
  if a.ret ≠ LIBUSB_SUCCESS then some ⟨-1, a.calls, ev ++ a.events⟩
  else
    let ev := ev ++ a.events ++ [Event.usleep t12]
    let x : Mem := fun _ => 0x00
    let b := bulk_retry t ENDPOINT_OUT 0 1 RETRY_MAX 0 x a.calls
    if b.ret ≠ LIBUSB_SUCCESS then some ⟨-1, b.calls, ev ++ b.events⟩
    else
      let ev := ev ++ b.events ++ [Event.usleep t2C]
      let s := send_command_frame k t stack_send k.V850ESJx3L_RESET [] b.calls
      if s.ret ≠ 0 then some ⟨s.ret, s.calls, ev ++ s.events⟩
      else
        match receive_data_frame k t stack_recv fuel buf len s.calls with
        | none => none
        | some r =>
          if r.ret ≠ 0 then some ⟨r.ret, r.calls, ev ++ s.events ++ r.events⟩
          else if r.buffer.getD 0 0 ≠ k.V850ESJx3L_STATUS_ACK then
            some ⟨-1, r.calls, ev ++ s.events ++ r.events⟩
          else some ⟨0, r.calls, ev ++ s.events ++ r.events⟩

/-- The function `v850j_get_silicon_signature`, with the same conventions as
`v850j_reset`; `stack_recv2` is the frame buffer of the second call of
`receive_data_frame`. -/
def v850j_get_silicon_signature (k : Header) (t : Transport) (stack_send stack_recv
    stack_recv2 : Mem) (buf : List Byte) (len : Nat) (fuel : Nat) (calls : Nat) : Option Sent :=
  let s := send_command_frame k t stack_send k.V850ESJx3L_SILICON_SIGNATURE [] calls
  if s.ret ≠ 0 then some ⟨s.ret, s.calls, s.events⟩
  else
    match receive_data_frame k t stack_recv fuel buf len s.calls with
    | none => none
    | some r =>
      if r.ret ≠ 0 then some ⟨r.ret, r.calls, s.events ++ r.events⟩
      else if r.buffer.getD 0 0 ≠ k.V850ESJx3L_STATUS_ACK then
        some ⟨-1, r.calls, s.events ++ r.events⟩
      else
        match receive_data_frame k t stack_recv2 fuel r.buffer r.length r.calls with
        | none => none
        | some r2 =>
          if r2.ret ≠ 0 then some ⟨r2.ret, r2.calls, s.events ++ r.events ++ r2.events⟩
          else some ⟨0, r2.calls, s.events ++ r.events ++ r2.events⟩

/-! ## The actions of a retry loop -/

/-- The bytes a transfer offers to the device: those of the buffer for a
write, none for a read. -/
def offered (endpoint : Byte) (buf : Mem) (off length : Nat) : List Byte :=
  if 128 ≤ endpoint.val then [] else load buf off length

/-- The actions of one iteration of the retry loop that got the answer `r`. -/
def attempt_events (endpoint : Byte) (out : List Byte) (length : Nat) (r : Resp) : List Event :=
  Event.bulk endpoint out length V850J_TIMEOUT_MS r.ret r.data ::
    (if r.ret = LIBUSB_ERROR_PIPE then [Event.clear_halt endpoint] else [])

/-- The actions of a retry loop that makes `j + 1` attempts, the first of
which is transfer number `calls`. -/
def retry_events (t : Transport) (endpoint : Byte) (out : List Byte) (length : Nat) :
    Nat → Nat → List Event
  | calls, 0 => attempt_events endpoint out length (t calls)
  | calls, j + 1 =>
    attempt_events endpoint out length (t calls) ++
      retry_events t endpoint out length (calls + 1) j

/-! ## The stall discipline -/

/-- Where a run of actions stands with respect to stall handling: nothing
pending, a stall on an endpoint that has not been cleared yet, or an attempt
that failed with another error. -/
inductive Phase where
  | idle
  | stalled (endpoint : Byte)
  | failed
deriving DecidableEq, Repr

/-- One action under the stall discipline of the transport contract: every
attempt has the 4000 ms timeout; a stalled attempt must be followed at once by
a clear-halt on its endpoint; a clear-halt is allowed nowhere else; nothing may
follow an attempt that failed with another error.  `none`: the action breaks
the discipline. -/
def discipline_step : Phase → Event → Option Phase
  | Phase.idle, Event.bulk ep _ _ tmo ret _ =>
    if tmo ≠ 4000 then none
    else if ret = LIBUSB_ERROR_PIPE then some (Phase.stalled ep)
    else if ret = LIBUSB_SUCCESS then some Phase.idle
    else some Phase.failed
  | Phase.idle, Event.usleep _ => some Phase.idle
  | Phase.idle, Event.clear_halt _ => none
  | Phase.stalled ep, Event.clear_halt ep' => if ep' = ep then some Phase.idle else none
  | Phase.stalled _, _ => none
  | Phase.failed, _ => none

/-- A sequence of actions under the stall discipline. -/
def discipline_run : Phase → List Event → Option Phase
  | p, [] => some p
  | p, e :: es =>
    match discipline_step p e with
    | none => none
    | some q => discipline_run q es

/-- The actions `events` of an operation that returned `ret` follow the stall
discipline, and the operation failed if an attempt failed with an error other
than a stall. -/
def disciplined (events : List Event) (ret : Int) : Prop :=
  discipline_run Phase.idle events = some Phase.idle ∨
    (discipline_run Phase.idle events = some Phase.failed ∧ ret = -1)

/-! ## The byte stream seen by a read -/

/-- The bytes delivered by the successful reads among `events`, in order. -/
def delivered : List Event → List Byte
  | [] => []
  | Event.bulk ep _ _ _ ret data :: es =>
    (if 128 ≤ ep.val ∧ ret = LIBUSB_SUCCESS then data else []) ++ delivered es
  | _ :: es => delivered es

/-- A successful read delivers at least one byte and at most the number of
bytes that were asked for. -/
def well_behaved : Event → Prop
  | Event.bulk ep _ length _ ret data =>
    128 ≤ ep.val → ret = LIBUSB_SUCCESS → 1 ≤ data.length ∧ data.length ≤ length
  | _ => True

instance well_behaved_decidable (e : Event) : Decidable (well_behaved e) := by
  cases e <;> unfold well_behaved <;> infer_instance

/-- The payload length announced by the length code of a data frame (line 107). -/
def data_length (L : Byte) : Nat := if L.val = 0 then 256 else L.val

/-! ## Stub transports -/

/-- A transport that answers the successive transfers with the given
responses, and reports a timeout once they are used up. -/
def script (rs : List Resp) : Transport :=
  fun i => rs.getD i ⟨LIBUSB_ERROR_TIMEOUT, []⟩

/-- A transport that delivers the given chunks, one per transfer, each with
success. -/
def deliver (chunks : List (List Byte)) : Transport :=
  script (chunks.map (fun c => ⟨LIBUSB_SUCCESS, c⟩))

/-- Unspecified initial contents of a local array, for concrete runs. -/
def stack0 : Mem := fun _ => 0

/-- Sample values of the constants of `v850j.h`, for concrete runs: the ASCII
control characters the markers are named after. -/
def hdr : Header :=
  { V850ESJx3L_SOH := 0x01, V850ESJx3L_STX := 0x02, V850ESJx3L_ETX := 0x03,
    V850ESJx3L_STATUS_ACK := 0x06, V850ESJx3L_RESET := 0x00,
    V850ESJx3L_SILICON_SIGNATURE := 0xC0 }

/-- A stub device for a command exchange: it accepts the first `writes`
transfers, delivering nothing, and then delivers the given chunks, one per
transfer. -/
def stub (writes : Nat) (chunks : List (List Byte)) : Transport :=
  fun i => if i < writes then ⟨LIBUSB_SUCCESS, []⟩ else deliver chunks (i - writes)

/-- A device that accepts the command frame, delivers the header `STX, 1` of
a data frame, and from then on answers every read with success and no byte. -/
def silent_after_header : Transport :=
  fun i => if i = 0 then ⟨LIBUSB_SUCCESS, [0, 0, 0, 0, 0]⟩
    else if i = 1 then ⟨LIBUSB_SUCCESS, [0x02, 1]⟩
    else ⟨LIBUSB_SUCCESS, []⟩

/-! ## The diagnostics of the reset -/

/-- The diagnostics that `v850j_reset` itself writes to `stderr`:
`sending (i) failed: ret` (line 165), `sending (ii) failed: ret` (line 181)
and `no ACK: status` (line 195). -/
inductive Diag where
  | sending_i (ret : Int)
  | sending_ii (ret : Int)
  | no_ack (status : Byte)
deriving DecidableEq, Repr

/-- What `v850j_reset` itself writes to `stderr` during a run: the function
`v850j_reset` again, followed along its three `fprintf` calls (the messages of
`send_command_frame` and `receive_data_frame` are not included). -/
def v850j_reset_stderr (k : Header) (t : Transport) (stack_send stack_recv : Mem)
    (buf : List Byte) (len : Nat) (fuel : Nat) (calls : Nat) : Option (List Diag) :=
  let x : Mem := fun _ => 0x00
  let a := bulk_retry t ENDPOINT_OUT 0 1 RETRY_MAX 0 x calls
  if a.ret ≠ LIBUSB_SUCCESS then some [Diag.sending_i a.ret]
  else
    let x : Mem := fun _ => 0x00
    let b := bulk_retry t ENDPOINT_OUT 0 1 RETRY_MAX 0 x a.calls
    if b.ret ≠ LIBUSB_SUCCESS then some [Diag.sending_ii b.ret]
    else
      let s := send_command_frame k t stack_send k.V850ESJx3L_RESET [] b.calls
      if s.ret ≠ 0 then some []
      else
        match receive_data_frame k t stack_recv fuel buf len s.calls with
        | none => none
        | some r =>
          if r.ret ≠ 0 then some []
          else if r.buffer.getD 0 0 ≠ k.V850ESJx3L_STATUS_ACK then
            some [Diag.no_ack (r.buffer.getD 0 0)]
          else some []

/-! ## The reset sequence -/

/-- The actions of `v850j_reset` up to the end of the first pulse write, when
that write makes `j1 + 1` attempts. -/
def reset_stage1 (t : Transport) (tCOM : Nat) (c j1 : Nat) : List Event :=
  [Event.usleep tCOM] ++ retry_events t ENDPOINT_OUT [0x00] 1 c j1

/-- The actions of `v850j_reset` up to the end of the second pulse write. -/
def reset_stage2 (t : Transport) (tCOM t12 : Nat) (c j1 j2 : Nat) : List Event :=
  reset_stage1 t tCOM c j1 ++ [Event.usleep t12] ++
    retry_events t ENDPOINT_OUT [0x00] 1 (c + j1 + 1) j2

/-- The actions of `v850j_reset` up to the end of the write of the RESET
command frame. -/
def reset_stage3 (k : Header) (t : Transport) (tCOM t12 t2C : Nat) (stack_send : Mem)
    (c j1 j2 j3 : Nat) : List Event :=
  reset_stage2 t tCOM t12 c j1 j2 ++ [Event.usleep t2C] ++
    retry_events t ENDPOINT_OUT (command_frame k stack_send k.V850ESJx3L_RESET []) 5
      (c + j1 + 1 + j2 + 1) j3

/-- An action of a read: an attempt on the in endpoint, or a clear-halt of it. -/
def is_read (e : Event) : Prop :=
  e = Event.clear_halt ENDPOINT_IN ∨
    ∃ (n : Nat) (x : Resp), e = Event.bulk ENDPOINT_IN [] n V850J_TIMEOUT_MS x.ret x.data

/-! ## Stream positions and buffer bounds -/

/-- No read among `events` asks for bytes beyond the first `total` bytes of
the stream, when `pos` bytes of it have been delivered before: each read asks
for at most `total - pos` bytes, and `pos` advances by what a successful read
delivers. -/
def stays_within (total : Nat) : Nat → List Event → Prop
  | _, [] => True
  | pos, Event.bulk ep _ length _ ret data :: es =>
    (128 ≤ ep.val → pos + length ≤ total) ∧
      stays_within total
        (if 128 ≤ ep.val ∧ ret = LIBUSB_SUCCESS then pos + data.length else pos) es
  | pos, _ :: es => stays_within total pos es

/-- A read does not report more bytes than it was asked for, whatever its
return code. -/
def within_request : Event → Prop
  | Event.bulk ep _ length _ _ data => 128 ≤ ep.val → data.length ≤ length
  | _ => True

instance within_request_decidable (e : Event) : Decidable (within_request e) := by
  cases e <;> unfold within_request <;> infer_instance

/-- The frame buffer `buf` of `receive_data_frame` as the function leaves it:
the function `receive_data_frame` again, keeping its local array instead of
its results. -/
def receive_frame_buf (k : Header) (t : Transport) (stack : Mem) (fuel : Nat) (calls : Nat) :
    Option Mem :=
  let x := bulk_retry t ENDPOINT_IN 0 2 RETRY_MAX 0 stack calls
  if x.ret ≠ LIBUSB_SUCCESS then some x.buf
  else if x.buf 0 ≠ k.V850ESJx3L_STX then some x.buf
  else if x.transferred < 2 then
    let y := bulk_retry t ENDPOINT_IN 1 1 RETRY_MAX 0 x.buf x.calls
    if y.ret ≠ LIBUSB_SUCCESS then some y.buf
    else
      (payload_loop t (if (y.buf 1).val = 0 then 256 else (y.buf 1).val) fuel 0 y.buf
        y.calls).map Xfer.buf
  else
    (payload_loop t (if (x.buf 1).val = 0 then 256 else (x.buf 1).val) fuel 0 x.buf
      x.calls).map Xfer.buf

/-! ## The reset delays -/

/-- A finite, non-negative value of the C type `double`, kept as the exact
fraction `num / den`. -/
structure Double where
  num : Nat
  den : Nat
deriving DecidableEq, Repr

/-- The largest `k` below 4096 with `2 ^ k ≤ n`, found by bisection (0 when
`n` is 0). -/
def log2_floor (n : Nat) : Nat :=
  [2048, 1024, 512, 256, 128, 64, 32, 16, 8, 4, 2, 1].foldl
    (fun k b => if n >>> (k + b) = 0 then k else k + b) 0

/-- The fraction `p / q` rounded to binary64, the format of `double`: the
nearest value with a significand of 53 bits, a tie going to the even
significand.  The range of the exponent is not modelled (no overflow, no
subnormal numbers). -/
def round_binary64 (p q : Nat) : Double :=
  if p = 0 then ⟨0, 1⟩
  else
    -- `p / q` lies strictly between `2 ^ (d - 1)` and `2 ^ (d + 1)`
    let d : Int := (log2_floor p : Int) - (log2_floor q : Int)
    let up (s : Int) : Nat := 2 ^ s.toNat
    let down (s : Int) : Nat := 2 ^ (-s).toNat
    -- the scale `s` for which `p / q * 2 ^ s` lies in `[2 ^ 52, 2 ^ 53)`
    let s : Int := if 2 ^ 53 ≤ (p * up (53 - d)) / (q * down (53 - d)) then 52 - d else 53 - d
    let n := p * up s
    let m := q * down s
    let quot := n / m
    let rem := n % m
    let sig := if m < 2 * rem ∨ (2 * rem = m ∧ quot % 2 = 1) then quot + 1 else quot
    ⟨sig * down s, up s⟩

/-- Conversion of an unsigned integer to `double`. -/
def Double.ofNat (n : Nat) : Double := round_binary64 n 1

/-- Division of two `double`s. -/
def Double.div (a b : Double) : Double := round_binary64 (a.num * b.den) (a.den * b.num)

/-- Product of two `double`s. -/
def Double.mul (a b : Double) : Double := round_binary64 (a.num * b.num) (a.den * b.den)

/-- Sum of two `double`s. -/
def Double.add (a b : Double) : Double :=
  round_binary64 (a.num * b.den + b.num * a.den) (a.den * b.den)

/-- Conversion of a `double` to a 32-bit unsigned integer such as
`useconds_t`: the fractional part is dropped. -/
def Double.toUInt32 (a : Double) : Nat := (a.num / a.den) % 2 ^ 32

/-- The local `fx` of `v850j_reset` (line 141). -/
def fx : Nat := 5000000

/-- The local `fxx` of `v850j_reset` (line 142), a `uint32_t` product. -/
def fxx : Nat := (4 * fx) % 2 ^ 32

/-- The local `tCOM` of `v850j_reset` (line 143):
`(620.0 / fxx) * 1000000 + 15`, converted to `useconds_t`. -/
def tCOM : Nat :=
  Double.toUInt32
    (Double.add (Double.mul (Double.div (Double.ofNat 620) (Double.ofNat fxx))
      (Double.ofNat 1000000)) (Double.ofNat 15))

/-- The local `t12` of `v850j_reset` (line 144): `(30000.0 / fxx) * 1000000`,
converted to `useconds_t`. -/
def t12 : Nat :=
  Double.toUInt32
    (Double.mul (Double.div (Double.ofNat 30000) (Double.ofNat fxx)) (Double.ofNat 1000000))

/-- The local `t2C` of `v850j_reset` (line 146): `(30000.0 / fxx) * 1000000`,
converted to `useconds_t`. -/
def t2C : Nat :=
  Double.toUInt32
    (Double.mul (Double.div (Double.ofNat 30000) (Double.ofNat fxx)) (Double.ofNat 1000000))

/-- Modelled from the spec: `(cycles / (4 * base_frequency)) * 1_000_000`
microseconds plus a margin of whole microseconds, evaluated exactly and
truncated to a whole number of microseconds. -/
def delay_formula (cycles base_frequency margin : Nat) : Nat :=
  (cycles * 1000000 + margin * (4 * base_frequency)) / (4 * base_frequency)

/-! ## Checksum and memory lemmas -/

theorem foldl_sub8_sum (l : List Byte) (acc : Byte) :
    ((l.map Fin.val).sum + (l.foldl sub8 acc).val) % 256 = acc.val := by
  induction l generalizing acc with
  | nil => simp [Nat.mod_eq_of_lt acc.isLt]
  | cons x xs ih =>
    simp only [List.map_cons, List.sum_cons, List.foldl_cons]
    have h1 := ih (sub8 acc x)
    have hx := x.isLt
    have ha := acc.isLt
    have h2 : (sub8 acc x).val = (acc.val + 256 - x.val) % 256 := rfl
    omega

theorem checksum_sum (l : List Byte) :
    ((l.map Fin.val).sum + (checksum l).val) % 256 = 0 := by
  unfold checksum
  exact foldl_sub8_sum l 0

theorem length_load (buf : Mem) (off n : Nat) : (load buf off n).length = n := by
  simp [load]

theorem load_congr {buf buf' : Mem} {off n : Nat}
    (h : ∀ i, i < n → buf (off + i) = buf' (off + i)) : load buf off n = load buf' off n := by
  unfold load
  apply List.map_congr_left
  intro i hi
  exact h i (List.mem_range.mp hi)

theorem load_append (buf : Mem) (off m n : Nat) :
    load buf off (m + n) = load buf off m ++ load buf (off + m) n := by
  induction n with
  | zero => simp [load]
  | succ n ih =>
    have : m + (n + 1) = (m + n) + 1 := by omega
    rw [this]
    unfold load at *
    rw [List.range_succ, List.map_append, ih, List.range_succ, List.map_append]
    simp [Nat.add_assoc]

theorem load_zero (buf : Mem) (off : Nat) : load buf off 0 = [] := rfl

theorem load_one (buf : Mem) (off : Nat) : load buf off 1 = [buf off] := by
  simp [load, List.range_succ]

theorem load_memcpy (buf : Mem) (off : Nat) (data : List Byte) :
    load (memcpy buf off data) off data.length = data := by
  apply List.ext_getElem
  · simp [length_load]
  · intro i h1 h2
    simp only [load, List.getElem_map, List.getElem_range, memcpy]
    have : off ≤ off + i ∧ off + i < off + data.length := by omega
    rw [if_pos this]
    simp [List.getD_eq_getElem?_getD, h2]

/-- The length code of a command frame with `n` payload bytes (line 37). -/
theorem store_same (buf : Mem) (i : Nat) (v : Byte) : store buf i v i = v := by
  simp [store]

theorem store_other (buf : Mem) (i j : Nat) (v : Byte) (h : j ≠ i) : store buf i v j = buf j := by
  simp [store, h]

theorem memcpy_below (buf : Mem) (off j : Nat) (data : List Byte) (h : j < off) :
    memcpy buf off data j = buf j := by
  unfold memcpy
  rw [if_neg]
  omega

theorem memcpy_above (buf : Mem) (off j : Nat) (data : List Byte) (h : off + data.length ≤ j) :
    memcpy buf off data j = buf j := by
  unfold memcpy
  rw [if_neg]
  omega

theorem memcpy_at (buf : Mem) (off i : Nat) (data : List Byte) (h : i < data.length) :
    memcpy buf off data (off + i) = data[i] := by
  unfold memcpy
  have : off ≤ off + i ∧ off + i < off + data.length := by omega
  rw [if_pos this]
  simp [List.getD_eq_getElem?_getD, h]

theorem load_cons (buf : Mem) (off n : Nat) :
    load buf off (n + 1) = buf off :: load buf (off + 1) n := by
  have := load_append buf off 1 n
  rw [Nat.add_comm 1 n] at this
  rw [this, load_one]
  rfl

theorem command_frame_buf_load (k : Header) (stack : Mem) (command : Byte) (buffer : List Byte) :
    load (command_frame_buf k stack command buffer) 0 (buffer.length + 5) =
      [k.V850ESJx3L_SOH, if buffer.length = 255 then 0 else u8 (buffer.length + 1), command]
        ++ buffer
        ++ [checksum ([if buffer.length = 255 then 0 else u8 (buffer.length + 1), command]
              ++ buffer), k.V850ESJx3L_ETX] := by
  generalize hlc : (if buffer.length = 255 then (0 : Byte) else u8 (buffer.length + 1)) = lc
  -- the buffer after the copy of the payload
  have hcopy : (if buffer.length > 0
        then memcpy (store (store (store stack 0 k.V850ESJx3L_SOH) 1 lc) 2 command) 3 buffer
        else store (store (store stack 0 k.V850ESJx3L_SOH) 1 lc) 2 command)
      = memcpy (store (store (store stack 0 k.V850ESJx3L_SOH) 1 lc) 2 command) 3 buffer := by
    split
    · rfl
    · rename_i h
      have h0 : buffer = [] := List.length_eq_zero.mp (by omega)
      subst h0
      funext j
      simp [memcpy]
  have hbuf : command_frame_buf k stack command buffer =
      store (store (memcpy (store (store (store stack 0 k.V850ESJx3L_SOH) 1 lc) 2 command) 3 buffer)
        (3 + buffer.length)
        (checksum (load (memcpy (store (store (store stack 0 k.V850ESJx3L_SOH) 1 lc) 2 command)
          3 buffer) 1 (buffer.length + 2))))
        (3 + buffer.length + 1) k.V850ESJx3L_ETX := by
    unfold command_frame_buf
    simp only [hlc, hcopy]
  rw [hbuf]
  generalize hm : memcpy (store (store (store stack 0 k.V850ESJx3L_SOH) 1 lc) 2 command) 3 buffer
    = m
  have hm0 : m 0 = k.V850ESJx3L_SOH := by
    rw [← hm, memcpy_below _ _ _ _ (by omega), store_other _ _ _ _ (by omega),
      store_other _ _ _ _ (by omega), store_same]
  have hm1 : m 1 = lc := by
    rw [← hm, memcpy_below _ _ _ _ (by omega), store_other _ _ _ _ (by omega), store_same]
  have hm2 : m 2 = command := by
    rw [← hm, memcpy_below _ _ _ _ (by omega), store_same]
  have hm3 : load m 3 buffer.length = buffer := by
    rw [← hm]; exact load_memcpy _ _ _
  have hck : load m 1 (buffer.length + 2) = [lc, command] ++ buffer := by
    rw [Nat.add_comm, load_append, ← hm3]
    simp [load_cons, load_one, hm1, hm2, hm3]
    simp [load]
  rw [hck]
  generalize checksum ([lc, command] ++ buffer) = c
  have e5 : buffer.length + 5 = 3 + (buffer.length + 2) := by omega
  generalize hB : store (store m (3 + buffer.length) c) (3 + buffer.length + 1) k.V850ESJx3L_ETX = B
  have hlow : ∀ j, j < 3 + buffer.length → B j = m j := by
    intro j hj
    rw [← hB, store_other _ _ _ _ (by omega), store_other _ _ _ _ (by omega)]
  have h0 : load B 0 3 = [k.V850ESJx3L_SOH, lc, command] := by
    simp only [load_cons, load_zero]
    rw [hlow 0 (by omega), hlow (0 + 1) (by omega), hlow (0 + 1 + 1) (by omega)]
    simp [hm0, hm1, hm2]
  have h3 : load B 3 buffer.length = buffer := by
    have : load B 3 buffer.length = load m 3 buffer.length :=
      load_congr (fun i hi => hlow _ (by omega))
    rw [this, hm3]
  have h5 : load B (3 + buffer.length) 2 = [c, k.V850ESJx3L_ETX] := by
    simp only [load_cons, load_zero]
    rw [← hB, store_other _ _ _ _ (by omega), store_same, store_same]
  rw [e5, load_append, load_append, h0, h3, Nat.zero_add, h5]
  simp

theorem transfer_ret (t : Transport) (ep : Byte) (buf : Mem) (off length calls : Nat) :
    (libusb_bulk_transfer t ep buf off length calls).ret = (t calls).ret := by
  unfold libusb_bulk_transfer; split <;> rfl

theorem transfer_calls (t : Transport) (ep : Byte) (buf : Mem) (off length calls : Nat) :
    (libusb_bulk_transfer t ep buf off length calls).calls = calls + 1 := by
  unfold libusb_bulk_transfer; split <;> rfl

theorem transfer_transferred (t : Transport) (ep : Byte) (buf : Mem) (off length calls : Nat) :
    (libusb_bulk_transfer t ep buf off length calls).transferred = (t calls).data.length := by
  unfold libusb_bulk_transfer; split <;> rfl

theorem transfer_buf (t : Transport) (ep : Byte) (buf : Mem) (off length calls : Nat) :
    (libusb_bulk_transfer t ep buf off length calls).buf =
      if 128 ≤ ep.val then memcpy buf off (t calls).data else buf := by
  unfold libusb_bulk_transfer; split <;> rfl

theorem transfer_events (t : Transport) (ep : Byte) (buf : Mem) (off length calls : Nat) :
    (libusb_bulk_transfer t ep buf off length calls).events =
      [Event.bulk ep (offered ep buf off length) length V850J_TIMEOUT_MS (t calls).ret
        (t calls).data] := by
  unfold libusb_bulk_transfer offered; split <;> rfl

/-- The loop ends after an attempt that did not stall, or that was the last one allowed. -/
theorem bulk_retry_stop (t : Transport) (ep : Byte) (off length fuel try_ : Nat) (buf : Mem)
    (calls : Nat) (h : ¬ ((t calls).ret = LIBUSB_ERROR_PIPE ∧ try_ + 1 < RETRY_MAX)) :
    bulk_retry t ep off length fuel try_ buf calls =
      { libusb_bulk_transfer t ep buf off length calls with
        events := attempt_events ep (offered ep buf off length) length (t calls) } := by
  unfold bulk_retry
  simp only [transfer_ret, transfer_events, attempt_events]
  rw [if_neg h]
  split <;> simp

/-- The loop goes on after a stalled attempt that was not the last one allowed. -/
theorem bulk_retry_step (t : Transport) (ep : Byte) (off length fuel try_ : Nat) (buf : Mem)
    (calls : Nat) (h1 : (t calls).ret = LIBUSB_ERROR_PIPE) (h2 : try_ + 1 < RETRY_MAX) :
    bulk_retry t ep off length (fuel + 1) try_ buf calls =
      { bulk_retry t ep off length fuel (try_ + 1)
          (libusb_bulk_transfer t ep buf off length calls).buf (calls + 1) with
        events := attempt_events ep (offered ep buf off length) length (t calls) ++
          (bulk_retry t ep off length fuel (try_ + 1)
            (libusb_bulk_transfer t ep buf off length calls).buf (calls + 1)).events } := by
  rw [bulk_retry]
  simp only [transfer_ret, transfer_events, transfer_calls, attempt_events]
  rw [if_pos ⟨h1, h2⟩]
  simp [h1]

/-- The bound on the recursion of `bulk_retry` is never what ends the loop:
any two bounds that leave room for the attempts still allowed give the same
result. -/
theorem bulk_retry_fuel (t : Transport) (ep : Byte) (off length : Nat) :
    ∀ (fuel fuel1 try_ : Nat) (buf : Mem) (calls : Nat),
      RETRY_MAX ≤ try_ + 1 + fuel → RETRY_MAX ≤ try_ + 1 + fuel1 →
      bulk_retry t ep off length fuel try_ buf calls =
        bulk_retry t ep off length fuel1 try_ buf calls := by
  intro fuel
  induction fuel with
  | zero =>
    intro fuel1 try_ buf calls hf _
    have hstop : ¬ ((t calls).ret = LIBUSB_ERROR_PIPE ∧ try_ + 1 < RETRY_MAX) := by
      intro h; omega
    rw [bulk_retry_stop _ _ _ _ _ _ _ _ hstop, bulk_retry_stop _ _ _ _ _ _ _ _ hstop]
  | succ fuel ih =>
    intro fuel1 try_ buf calls hf hf1
    by_cases h : (t calls).ret = LIBUSB_ERROR_PIPE ∧ try_ + 1 < RETRY_MAX
    · obtain ⟨fuel1, rfl⟩ : ∃ f, fuel1 = f + 1 := ⟨fuel1 - 1, by omega⟩
      rw [bulk_retry_step _ _ _ _ _ _ _ _ h.1 h.2, bulk_retry_step _ _ _ _ _ _ _ _ h.1 h.2,
        ih fuel1 (try_ + 1) _ _ (by omega) (by omega)]
    · rw [bulk_retry_stop _ _ _ _ _ _ _ _ h, bulk_retry_stop _ _ _ _ _ _ _ _ h]

theorem offered_transfer (t : Transport) (ep : Byte) (buf : Mem) (off length calls : Nat) :
    offered ep (libusb_bulk_transfer t ep buf off length calls).buf off length =
      offered ep buf off length := by
  rw [transfer_buf]
  unfold offered
  split <;> rfl

/-- What the retry loop does: it makes `j + 1` attempts, where the first `j`
stalled, and stops either because attempt `j` did not stall or because it was
attempt number `RETRY_MAX`.  A read leaves the bytes below `off` alone and
ends with the bytes of the last attempt at `off`. -/
theorem bulk_retry_spec (t : Transport) (ep : Byte) (off length : Nat) :
    ∀ (fuel try_ : Nat) (buf : Mem) (calls : Nat),
      RETRY_MAX ≤ try_ + 1 + fuel → try_ < RETRY_MAX →
      ∃ (j : Nat) (B : Mem), try_ + j < RETRY_MAX ∧
        (∀ i, i < j → (t (calls + i)).ret = LIBUSB_ERROR_PIPE) ∧
        ((t (calls + j)).ret = LIBUSB_ERROR_PIPE → try_ + j + 1 = RETRY_MAX) ∧
        (∀ p, p < off → B p = buf p) ∧ (j = 0 → B = buf) ∧
        bulk_retry t ep off length fuel try_ buf calls =
          { ret := (t (calls + j)).ret,
            transferred := (t (calls + j)).data.length,
            buf := if 128 ≤ ep.val then memcpy B off (t (calls + j)).data else buf,
            calls := calls + j + 1,
            events := retry_events t ep (offered ep buf off length) length calls j } := by
  intro fuel
  induction fuel with
  | zero =>
    intro try_ buf calls hf ht
    have hstop : ¬ ((t calls).ret = LIBUSB_ERROR_PIPE ∧ try_ + 1 < RETRY_MAX) := by
      intro h; omega
    refine ⟨0, buf, by omega, by intro i hi; omega, ?_, fun _ _ => rfl, fun _ => rfl, ?_⟩
    · intro _; omega
    · rw [bulk_retry_stop _ _ _ _ _ _ _ _ hstop]
      simp [transfer_ret, transfer_calls, transfer_transferred, transfer_buf, retry_events]
  | succ fuel ih =>
    intro try_ buf calls hf ht
    by_cases h : (t calls).ret = LIBUSB_ERROR_PIPE ∧ try_ + 1 < RETRY_MAX
    · obtain ⟨j, B, hj, hst, hlast, hB, _, heq⟩ :=
        ih (try_ + 1) (libusb_bulk_transfer t ep buf off length calls).buf (calls + 1)
          (by omega) h.2
      refine ⟨j + 1, B, by omega, ?_, ?_, ?_, by omega, ?_⟩
      · intro i hi
        cases i with
        | zero => exact h.1
        | succ i =>
          have := hst i (by omega)
          rwa [show calls + 1 + i = calls + (i + 1) by omega] at this
      · intro hp
        rw [show calls + (j + 1) = calls + 1 + j by omega] at hp
        have := hlast hp
        omega
      · intro p hp
        rw [hB p hp, transfer_buf]
        split
        · exact memcpy_below _ _ _ _ hp
        · rfl
      · rw [bulk_retry_step _ _ _ _ _ _ _ _ h.1 h.2, heq]
        simp only [offered_transfer, retry_events]
        rw [show calls + (j + 1) = calls + 1 + j by omega]
        congr 1
        rw [transfer_buf]
        split <;> rfl
    · refine ⟨0, buf, by omega, by intro i hi; omega, ?_, fun _ _ => rfl, fun _ => rfl, ?_⟩
      · intro hp
        simp only [Nat.add_zero] at hp
        have : ¬ (try_ + 1 < RETRY_MAX) := fun h2 => h ⟨hp, h2⟩
        omega
      · rw [bulk_retry_stop _ _ _ _ _ _ _ _ h]
        simp [transfer_ret, transfer_calls, transfer_transferred, transfer_buf, retry_events]

theorem mem_attempt_events {ep : Byte} {out : List Byte} {length : Nat} {r : Resp} {e : Event}
    (h : e ∈ attempt_events ep out length r) :
    (e = Event.clear_halt ep ∧ r.ret = LIBUSB_ERROR_PIPE) ∨
      e = Event.bulk ep out length V850J_TIMEOUT_MS r.ret r.data := by
  unfold attempt_events at h
  rcases List.mem_cons.mp h with h | h
  · exact Or.inr h
  · split at h
    · rename_i hp
      exact Or.inl ⟨by simpa using h, hp⟩
    · simp at h

theorem mem_retry_events {t : Transport} {ep : Byte} {out : List Byte} {length : Nat} {e : Event} :
    ∀ {j calls : Nat}, e ∈ retry_events t ep out length calls j →
      e = Event.clear_halt ep ∨
        ∃ i, i ≤ j ∧ e = Event.bulk ep out length V850J_TIMEOUT_MS (t (calls + i)).ret
          (t (calls + i)).data := by
  intro j
  induction j with
  | zero =>
    intro calls h
    rcases mem_attempt_events h with h | h
    · exact Or.inl h.1
    · exact Or.inr ⟨0, Nat.le_refl _, h⟩
  | succ j ih =>
    intro calls h
    rw [retry_events] at h
    rcases List.mem_append.mp h with h | h
    · rcases mem_attempt_events h with h | h
      · exact Or.inl h.1
      · exact Or.inr ⟨0, Nat.zero_le _, h⟩
    · rcases ih h with h | ⟨i, hi, h⟩
      · exact Or.inl h
      · refine Or.inr ⟨i + 1, by omega, ?_⟩
        rw [h, show calls + 1 + i = calls + (i + 1) by omega]

theorem head_retry_events (t : Transport) (ep : Byte) (out : List Byte) (length calls j : Nat) :
    (retry_events t ep out length calls j).head? =
      some (Event.bulk ep out length V850J_TIMEOUT_MS (t calls).ret (t calls).data) := by
  cases j <;> simp [retry_events, attempt_events]

/-- The retry loop of the source, started as the source starts it. -/
theorem bulk_retry_run (t : Transport) (ep : Byte) (off length : Nat) (buf : Mem) (calls : Nat) :
    ∃ (j : Nat) (B : Mem), j < RETRY_MAX ∧
      (∀ i, i < j → (t (calls + i)).ret = LIBUSB_ERROR_PIPE) ∧
      ((t (calls + j)).ret = LIBUSB_ERROR_PIPE → j + 1 = RETRY_MAX) ∧
      (∀ p, p < off → B p = buf p) ∧ (j = 0 → B = buf) ∧
      bulk_retry t ep off length RETRY_MAX 0 buf calls =
        { ret := (t (calls + j)).ret,
          transferred := (t (calls + j)).data.length,
          buf := if 128 ≤ ep.val then memcpy B off (t (calls + j)).data else buf,
          calls := calls + j + 1,
          events := retry_events t ep (offered ep buf off length) length calls j } := by
  obtain ⟨j, B, h1, h2, h3, h4, h5, h6⟩ :=
    bulk_retry_spec t ep off length RETRY_MAX 0 buf calls (by omega) (by decide)
  exact ⟨j, B, by omega, h2, fun h => by have := h3 h; omega, h4, h5, h6⟩

theorem send_command_frame_events (k : Header) (t : Transport) (stack : Mem) (command : Byte)
    (buffer : List Byte) (calls : Nat) :
    ∃ j, j < RETRY_MAX ∧
      (send_command_frame k t stack command buffer calls).calls = calls + j + 1 ∧
      (send_command_frame k t stack command buffer calls).events =
        retry_events t ENDPOINT_OUT
          (load (command_frame_buf k stack command buffer) 0 (buffer.length + 5))
          (buffer.length + 5) calls j := by
  obtain ⟨j, B, h1, _, _, _, _, h6⟩ := bulk_retry_run t ENDPOINT_OUT 0 (buffer.length + 5)
    (command_frame_buf k stack command buffer) calls
  refine ⟨j, h1, ?_, ?_⟩
  · unfold send_command_frame
    simp only [h6]
    split <;> rfl
  · unfold send_command_frame
    simp only [h6]
    have : offered ENDPOINT_OUT (command_frame_buf k stack command buffer) 0 (buffer.length + 5)
        = load (command_frame_buf k stack command buffer) 0 (buffer.length + 5) := by
      unfold offered
      rw [if_neg (by decide)]
    rw [this]
    split <;> rfl

/-- C1. For every byte sequence `b`, empty or not, `checksum b` is the byte
obtained by subtracting the bytes of `b` one after the other, modulo 256, from
an accumulator that starts at zero, and the sum of the bytes of `b` plus
`checksum b` is zero modulo 256. -/
theorem checksum_round_trip (b : List Byte) :
    checksum [] = 0 ∧
    (∀ x : Byte, checksum (b ++ [x]) = sub8 (checksum b) x) ∧
    (∀ a c : Byte, (sub8 a c).val = (a.val + 256 - c.val) % 256) ∧
    ((b.map Fin.val).sum + (checksum b).val) % 256 = 0 := by
  refine ⟨rfl, ?_, fun _ _ => rfl, checksum_sum b⟩
  intro x
  simp [checksum, List.foldl_append]

/-- C2. For every command code and every payload of `n ≤ 255` bytes,
`send_command_frame` offers the transport, at its first attempt and at every
later one, exactly the `n + 5` bytes `SOH, length code, command, payload...,
checksum, ETX` on the out endpoint, where the checksum is `checksum` of the
`n + 2` bytes `length code, command, payload...`; the bytes at positions
`1 .. n + 3` of the frame sum to zero modulo 256. -/
theorem send_command_frame_layout (k : Header) (t : Transport) (stack : Mem) (command : Byte)
    (buffer : List Byte) (calls : Nat) (h : buffer.length ≤ 255) :
    let lc : Byte := if buffer.length = 255 then 0 else u8 (buffer.length + 1)
    let frame : List Byte :=
      [k.V850ESJx3L_SOH, lc, command] ++ buffer ++
        [checksum ([lc, command] ++ buffer), k.V850ESJx3L_ETX]
    frame.length = buffer.length + 5 ∧ frame.length ≤ 260 ∧
    (send_command_frame k t stack command buffer calls).events.head? =
      some (Event.bulk ENDPOINT_OUT frame (buffer.length + 5) V850J_TIMEOUT_MS
        (t calls).ret (t calls).data) ∧
    (∀ e ∈ (send_command_frame k t stack command buffer calls).events,
      e = Event.clear_halt ENDPOINT_OUT ∨
      ∃ r : Resp, e = Event.bulk ENDPOINT_OUT frame (buffer.length + 5) V850J_TIMEOUT_MS
        r.ret r.data) ∧
    ((((frame.drop 1).take (buffer.length + 3)).map Fin.val).sum) % 256 = 0 := by
  intro lc frame
  obtain ⟨j, _, _, hev⟩ := send_command_frame_events k t stack command buffer calls
  have hframe : load (command_frame_buf k stack command buffer) 0 (buffer.length + 5) = frame :=
    command_frame_buf_load k stack command buffer
  rw [hframe] at hev
  have hlen : frame.length = buffer.length + 5 := by simp [frame]
  refine ⟨hlen, by omega, ?_, ?_, ?_⟩
  · rw [hev]; exact head_retry_events _ _ _ _ _ _
  · intro e he
    rw [hev] at he
    rcases mem_retry_events he with he | ⟨i, _, he⟩
    · exact Or.inl he
    · exact Or.inr ⟨t (calls + i), he⟩
  · have hsum := checksum_sum ([lc, command] ++ buffer)
    have hbody : (frame.drop 1).take (buffer.length + 3) =
        ([lc, command] ++ buffer) ++ [checksum ([lc, command] ++ buffer)] := by
      have : frame.drop 1 = (([lc, command] ++ buffer) ++ [checksum ([lc, command] ++ buffer)])
          ++ [k.V850ESJx3L_ETX] := by simp [frame]
      rw [this, List.take_append_of_le_length (by simp)]
      apply List.take_of_length_le
      simp
    rw [hbody, List.map_append, List.sum_append]
    simpa using hsum

/-- C2 at a three-byte payload. -/
theorem send_command_frame_layout_witness :
    (send_command_frame hdr (script [⟨LIBUSB_SUCCESS, []⟩]) stack0 0x10 [5, 6, 7] 0).events.head? =
      some (Event.bulk ENDPOINT_OUT [0x01, 4, 0x10, 5, 6, 7, 218, 0x03] 8 4000 0 []) :=
  (send_command_frame_layout hdr (script [⟨LIBUSB_SUCCESS, []⟩]) stack0 0x10 [5, 6, 7] 0
    (by decide)).2.2.1

/-- C3. For a payload of `n ≤ 255` bytes the length code that
`send_command_frame` writes at `buf[1]`, and that every attempt sends as the
second byte, is `n + 1` when `n < 255` and `0` when `n = 255`; it is zero for
a payload of exactly 255 bytes and for no shorter one. -/
theorem length_code_rule (k : Header) (t : Transport) (stack : Mem) (command : Byte)
    (buffer : List Byte) (calls : Nat) (h : buffer.length ≤ 255) :
    (command_frame_buf k stack command buffer 1).val =
      (if buffer.length < 255 then buffer.length + 1 else 0) ∧
    ((command_frame_buf k stack command buffer 1).val = 0 ↔ buffer.length = 255) ∧
    (∀ (ep : Byte) (out : List Byte) (len tmo : Nat) (ret : Int) (data : List Byte),
      Event.bulk ep out len tmo ret data ∈
        (send_command_frame k t stack command buffer calls).events →
      out[1]? = some (command_frame_buf k stack command buffer 1)) := by
  have hb : command_frame_buf k stack command buffer 1 =
      (if buffer.length = 255 then 0 else u8 (buffer.length + 1)) := by
    unfold command_frame_buf
    rw [store_other _ _ _ _ (by omega), store_other _ _ _ _ (by omega)]
    have hm : ∀ m : Mem, (if buffer.length > 0 then memcpy m 3 buffer else m) 1 = m 1 := by
      intro m
      split
      · exact memcpy_below _ _ _ _ (by omega)
      · rfl
    rw [hm, store_other _ _ _ _ (by omega), store_same]
  have hv : (command_frame_buf k stack command buffer 1).val =
      (if buffer.length < 255 then buffer.length + 1 else 0) := by
    rw [hb]
    by_cases h255 : buffer.length = 255
    · simp [h255]
    · have hlt : buffer.length < 255 := by omega
      rw [if_neg h255, if_pos hlt]
      show (buffer.length + 1) % 256 = buffer.length + 1
      omega
  refine ⟨hv, ?_, ?_⟩
  · rw [hv]
    constructor
    · intro h0
      split at h0 <;> omega
    · intro h255
      simp [h255]
  · intro ep out len tmo ret data he
    obtain ⟨j, _, _, hev⟩ := send_command_frame_events k t stack command buffer calls
    rw [hev] at he
    rcases mem_retry_events he with he | ⟨i, _, he⟩
    · cases he
    · injection he with _ hout
      rw [hout, command_frame_buf_load]
      simp [hb]

/-- C3 at a full payload of 255 bytes. -/
theorem length_code_rule_witness :
    (List.replicate 255 (7 : Byte)).length ≤ 255 ∧
      (command_frame_buf hdr stack0 0x10 (List.replicate 255 7) 1).val = 0 :=
  ⟨Nat.le_of_eq (List.length_replicate _ _),
    ((length_code_rule hdr (script []) stack0 0x10 (List.replicate 255 7) 0
      (Nat.le_of_eq (List.length_replicate _ _))).2.1).mpr (List.length_replicate _ _)⟩

/-- The retry loop when the first `n` attempts stall and attempt `n` either
does not stall or is the last one allowed. -/
theorem bulk_retry_after_stalls (t : Transport) (ep : Byte) (off length : Nat) (buf : Mem)
    (calls n : Nat) (hn : n < RETRY_MAX)
    (hst : ∀ i, i < n → (t (calls + i)).ret = LIBUSB_ERROR_PIPE)
    (hend : (t (calls + n)).ret ≠ LIBUSB_ERROR_PIPE ∨ n + 1 = RETRY_MAX) :
    ∃ B : Mem, (∀ p, p < off → B p = buf p) ∧ (n = 0 → B = buf) ∧
      bulk_retry t ep off length RETRY_MAX 0 buf calls =
        { ret := (t (calls + n)).ret,
          transferred := (t (calls + n)).data.length,
          buf := if 128 ≤ ep.val then memcpy B off (t (calls + n)).data else buf,
          calls := calls + n + 1,
          events := retry_events t ep (offered ep buf off length) length calls n } := by
  obtain ⟨j, B, h1, h2, h3, h4, h5, h6⟩ := bulk_retry_run t ep off length buf calls
  have hjn : j = n := by
    rcases Nat.lt_trichotomy j n with h | h | h
    · have := h3 (hst j h); omega
    · exact h
    · have hp := h2 n h
      rcases hend with hend | hend
      · exact absurd hp hend
      · omega
  subst hjn
  exact ⟨B, h4, h5, h6⟩

theorem pipe_ne_success : LIBUSB_ERROR_PIPE ≠ LIBUSB_SUCCESS := by decide

/-- Attempts and result of a retry loop whose first `n ≤ 5` attempts stall and
whose next attempt, if there is one, succeeds. -/
theorem retry_outcome (t : Transport) (c n : Nat) (hn : n ≤ 5)
    (hst : ∀ i, i < n → (t (c + i)).ret = LIBUSB_ERROR_PIPE)
    (hok : n < 5 → (t (c + n)).ret = LIBUSB_SUCCESS)
    (ep : Byte) (off length : Nat) (buf : Mem) :
    (bulk_retry t ep off length RETRY_MAX 0 buf c).calls = c + min (n + 1) 5 ∧
    (bulk_retry t ep off length RETRY_MAX 0 buf c).ret =
      if n < 5 then LIBUSB_SUCCESS else LIBUSB_ERROR_PIPE := by
  by_cases h5 : n < 5
  · obtain ⟨B, _, _, heq⟩ := bulk_retry_after_stalls t ep off length buf c n
      (by unfold RETRY_MAX; omega) hst
      (Or.inl (by rw [hok h5]; exact fun h => pipe_ne_success h.symm))
    rw [heq, if_pos h5]
    exact ⟨by simp only []; omega, hok h5⟩
  · have h4 : n = 5 := by omega
    subst h4
    obtain ⟨B, _, _, heq⟩ := bulk_retry_after_stalls t ep off length buf c 4
      (by decide) (fun i hi => hst i (by omega)) (Or.inr rfl)
    rw [heq, if_neg h5]
    exact ⟨rfl, hst 4 (by omega)⟩

theorem endpoint_in_reads : 128 ≤ ENDPOINT_IN.val := by decide

theorem endpoint_out_writes : ¬ 128 ≤ ENDPOINT_OUT.val := by decide

/-- A retry loop whose first attempt does not stall makes that attempt only. -/
theorem bulk_retry_once (t : Transport) (ep : Byte) (off length : Nat) (buf : Mem) (c : Nat)
    (h : (t c).ret ≠ LIBUSB_ERROR_PIPE) :
    bulk_retry t ep off length RETRY_MAX 0 buf c =
      { ret := (t c).ret, transferred := (t c).data.length,
        buf := if 128 ≤ ep.val then memcpy buf off (t c).data else buf,
        calls := c + 1,
        events := [Event.bulk ep (offered ep buf off length) length V850J_TIMEOUT_MS (t c).ret
          (t c).data] } := by
  rw [bulk_retry_stop _ _ _ _ _ _ _ _ (fun hp => h hp.1)]
  simp [transfer_ret, transfer_calls, transfer_transferred, transfer_buf, attempt_events, h]

/-- C6. Suppose that, from transfer number `c` on, the transport reports a
stall on `n ≤ 5` consecutive attempts and, when `n < 5`, success on the next
one.  Then every retry loop started at `c` makes exactly `n + 1` attempts and
succeeds when `n ≤ 4`, and makes exactly 5 attempts, no sixth, and ends with the
stall when `n = 5`.  Accordingly `send_command_frame` returns 0 after `n + 1`
attempts or -1 after 5; and after 5 stalls of the header read, of the
length-byte read, of a payload read, or of a reset pulse write, the enclosing
function returns -1 having made exactly these 5 attempts. -/
theorem retry_bound (k : Header) (t : Transport) (c n : Nat) (hn : n ≤ 5)
    (hst : ∀ i, i < n → (t (c + i)).ret = LIBUSB_ERROR_PIPE)
    (hok : n < 5 → (t (c + n)).ret = LIBUSB_SUCCESS) :
    (∀ (ep : Byte) (off length : Nat) (buf : Mem),
      (bulk_retry t ep off length RETRY_MAX 0 buf c).calls = c + min (n + 1) 5 ∧
      (bulk_retry t ep off length RETRY_MAX 0 buf c).ret =
        if n < 5 then LIBUSB_SUCCESS else LIBUSB_ERROR_PIPE) ∧
    (∀ (stack : Mem) (command : Byte) (buffer : List Byte),
      (send_command_frame k t stack command buffer c).calls = c + min (n + 1) 5 ∧
      (send_command_frame k t stack command buffer c).ret = if n < 5 then 0 else -1) ∧
    (n = 5 → ∀ (stack : Mem) (fuel : Nat) (buffer : List Byte) (length : Nat),
      ∃ ev, receive_data_frame k t stack fuel buffer length c =
        some ⟨-1, buffer, length, c + 5, ev⟩) ∧
    (n = 5 → ∀ (c0 : Nat) (stack : Mem) (fuel : Nat) (buffer : List Byte) (length : Nat),
      c0 + 1 = c → t c0 = ⟨LIBUSB_SUCCESS, [k.V850ESJx3L_STX]⟩ →
      ∃ ev, receive_data_frame k t stack fuel buffer length c0 =
        some ⟨-1, buffer, length, c + 5, ev⟩) ∧
    (n = 5 → ∀ (c0 : Nat) (L : Byte) (stack : Mem) (fuel : Nat) (buffer : List Byte)
        (length : Nat),
      c0 + 1 = c → t c0 = ⟨LIBUSB_SUCCESS, [k.V850ESJx3L_STX, L]⟩ →
      ∃ ev, receive_data_frame k t stack (fuel + 1) buffer length c0 =
        some ⟨-1, buffer, length, c + 5, ev⟩) ∧
    (n = 5 → ∀ (len fuel received : Nat) (buf : Mem),
      ∃ y, payload_loop t len (fuel + 1) received buf c = some y ∧
        y.ret = -1 ∧ y.calls = c + 5) ∧
    (n = 5 → ∀ (tCOM t12 t2C : Nat) (ss sr : Mem) (buf : List Byte) (len fuel : Nat),
      ∃ ev, v850j_reset k t tCOM t12 t2C ss sr buf len fuel c = some ⟨-1, c + 5, ev⟩) ∧
    (n = 5 → ∀ (c0 tCOM t12 t2C : Nat) (ss sr : Mem) (buf : List Byte) (len fuel : Nat),
      c0 + 1 = c → (t c0).ret = LIBUSB_SUCCESS →
      ∃ ev, v850j_reset k t tCOM t12 t2C ss sr buf len fuel c0 = some ⟨-1, c + 5, ev⟩) := by
  have hloop := retry_outcome t c n hn hst hok
  have hfail : n = 5 → ∀ (ep : Byte) (off length : Nat) (buf : Mem),
      (bulk_retry t ep off length RETRY_MAX 0 buf c).calls = c + 5 ∧
      (bulk_retry t ep off length RETRY_MAX 0 buf c).ret ≠ LIBUSB_SUCCESS := by
    intro h5 ep off length buf
    obtain ⟨h1, h2⟩ := hloop ep off length buf
    subst h5
    exact ⟨h1, by rw [h2]; exact pipe_ne_success⟩
  refine ⟨hloop, ?_, ?_, ?_, ?_, ?_, ?_, ?_⟩
  · intro stack command buffer
    obtain ⟨h1, h2⟩ := hloop ENDPOINT_OUT 0 (buffer.length + 5)
      (command_frame_buf k stack command buffer)
    unfold send_command_frame
    simp only [h1, h2]
    by_cases h5 : n < 5
    · simp [h5]
    · simp [h5, pipe_ne_success]
  · intro h5 stack fuel buffer length
    obtain ⟨h1, h2⟩ := hfail h5 ENDPOINT_IN 0 2 stack
    unfold receive_data_frame
    simp only [h1]
    rw [if_pos h2]
    exact ⟨_, rfl⟩
  · intro h5 c0 stack fuel buffer length hc ht
    have hr : (t c0).ret ≠ LIBUSB_ERROR_PIPE := by
      rw [ht]; exact fun h => pipe_ne_success h.symm
    unfold receive_data_frame
    simp only [bulk_retry_once t ENDPOINT_IN 0 2 stack c0 hr, ht, hc, if_pos endpoint_in_reads]
    obtain ⟨h1, h2⟩ := hfail h5 ENDPOINT_IN 1 1 (memcpy stack 0 [k.V850ESJx3L_STX])
    simp only [h1]
    rw [if_neg (by simp), if_neg (by simp [memcpy]), if_pos (by simp), if_pos h2]
    exact ⟨_, rfl⟩
  · intro h5 c0 L stack fuel buffer length hc ht
    have hr : (t c0).ret ≠ LIBUSB_ERROR_PIPE := by
      rw [ht]; exact fun h => pipe_ne_success h.symm
    unfold receive_data_frame
    simp only [bulk_retry_once t ENDPOINT_IN 0 2 stack c0 hr, ht, hc, if_pos endpoint_in_reads]
    rw [if_neg (by simp), if_neg (by simp [memcpy]), if_neg (by simp)]
    unfold receive_payload payload_loop
    generalize memcpy stack 0 [k.V850ESJx3L_STX, L] = m
    generalize (if (m 1).val = 0 then 256 else (m 1).val) = len
    obtain ⟨h1, h2⟩ := hfail h5 ENDPOINT_IN (2 + 0) (len + 2 - 0) m
    simp only [h1]
    rw [if_pos h2]
    exact ⟨_, rfl⟩
  · intro h5 len fuel received buf
    obtain ⟨h1, h2⟩ := hfail h5 ENDPOINT_IN (2 + received) (len + 2 - received) buf
    unfold payload_loop
    rw [if_pos h2]
    exact ⟨_, rfl, rfl, h1⟩
  · intro h5 tCOM t12 t2C ss sr buf len fuel
    obtain ⟨h1, h2⟩ := hfail h5 ENDPOINT_OUT 0 1 (fun _ => 0x00)
    unfold v850j_reset
    simp only [h1]
    rw [if_pos h2]
    exact ⟨_, rfl⟩
  · intro h5 c0 tCOM t12 t2C ss sr buf len fuel hc ht
    have hr : (t c0).ret ≠ LIBUSB_ERROR_PIPE := by
      rw [ht]; exact fun h => pipe_ne_success h.symm
    unfold v850j_reset
    simp only [bulk_retry_once t ENDPOINT_OUT 0 1 (fun _ => 0x00) c0 hr, ht, hc]
    obtain ⟨h1, h2⟩ := hfail h5 ENDPOINT_OUT 0 1 (fun _ => 0x00)
    simp only [h1]
    rw [if_neg (by simp), if_pos h2]
    exact ⟨_, rfl⟩

/-- C6 at four stalls followed by success: the command frame is sent at the
fifth attempt. -/
theorem retry_bound_witness :
    (send_command_frame hdr
      (script [⟨LIBUSB_ERROR_PIPE, []⟩, ⟨LIBUSB_ERROR_PIPE, []⟩, ⟨LIBUSB_ERROR_PIPE, []⟩,
        ⟨LIBUSB_ERROR_PIPE, []⟩, ⟨LIBUSB_SUCCESS, []⟩]) stack0 0x10 [] 0).calls = 5 ∧
    (send_command_frame hdr
      (script [⟨LIBUSB_ERROR_PIPE, []⟩, ⟨LIBUSB_ERROR_PIPE, []⟩, ⟨LIBUSB_ERROR_PIPE, []⟩,
        ⟨LIBUSB_ERROR_PIPE, []⟩, ⟨LIBUSB_SUCCESS, []⟩]) stack0 0x10 [] 0).ret = 0 :=
  (retry_bound hdr
    (script [⟨LIBUSB_ERROR_PIPE, []⟩, ⟨LIBUSB_ERROR_PIPE, []⟩, ⟨LIBUSB_ERROR_PIPE, []⟩,
      ⟨LIBUSB_ERROR_PIPE, []⟩, ⟨LIBUSB_SUCCESS, []⟩]) 0 4 (by decide) (by decide)
    (fun _ => rfl)).2.1 stack0 0x10 []

theorem discipline_run_append (a b : List Event) :
    ∀ p : Phase, discipline_run p (a ++ b) =
      (discipline_run p a).bind (fun q => discipline_run q b) := by
  induction a with
  | nil => intro p; rfl
  | cons e es ih =>
    intro p
    simp only [List.cons_append, discipline_run]
    cases discipline_step p e with
    | none => rfl
    | some q => exact ih q

/-- The phase in which a retry loop that ended with `ret` leaves the run. -/
theorem discipline_run_attempt (ep : Byte) (out : List Byte) (length : Nat) (r : Resp) :
    discipline_run Phase.idle (attempt_events ep out length r) =
      some (if r.ret = LIBUSB_ERROR_PIPE ∨ r.ret = LIBUSB_SUCCESS then Phase.idle
        else Phase.failed) := by
  unfold attempt_events
  by_cases hp : r.ret = LIBUSB_ERROR_PIPE
  · simp [discipline_run, discipline_step, hp, V850J_TIMEOUT_MS]
  · by_cases hs : r.ret = LIBUSB_SUCCESS
    · simp [discipline_run, discipline_step, hs, V850J_TIMEOUT_MS, pipe_ne_success.symm]
    · simp [discipline_run, discipline_step, hp, hs, V850J_TIMEOUT_MS]

theorem discipline_run_retry (t : Transport) (ep : Byte) (out : List Byte) (length : Nat) :
    ∀ (j calls : Nat), (∀ i, i < j → (t (calls + i)).ret = LIBUSB_ERROR_PIPE) →
      discipline_run Phase.idle (retry_events t ep out length calls j) =
        some (if (t (calls + j)).ret = LIBUSB_ERROR_PIPE ∨ (t (calls + j)).ret = LIBUSB_SUCCESS
          then Phase.idle else Phase.failed) := by
  intro j
  induction j with
  | zero =>
    intro calls _
    exact discipline_run_attempt ep out length (t calls)
  | succ j ih =>
    intro calls hst
    rw [retry_events, discipline_run_append, discipline_run_attempt]
    have h0 : (t calls).ret = LIBUSB_ERROR_PIPE := hst 0 (by omega)
    rw [if_pos (Or.inl h0)]
    have := ih (calls + 1) (fun i hi => by
      have := hst (i + 1) (by omega)
      rwa [show calls + (i + 1) = calls + 1 + i by omega] at this)
    rw [show calls + (j + 1) = calls + 1 + j by omega]
    exact this

/-- The actions of a retry loop follow the stall discipline. -/
theorem discipline_bulk_retry (t : Transport) (ep : Byte) (off length : Nat) (buf : Mem)
    (c : Nat) :
    discipline_run Phase.idle (bulk_retry t ep off length RETRY_MAX 0 buf c).events =
      some (if (bulk_retry t ep off length RETRY_MAX 0 buf c).ret = LIBUSB_ERROR_PIPE ∨
          (bulk_retry t ep off length RETRY_MAX 0 buf c).ret = LIBUSB_SUCCESS
        then Phase.idle else Phase.failed) := by
  obtain ⟨j, B, _, hst, _, _, _, heq⟩ := bulk_retry_run t ep off length buf c
  rw [heq]
  exact discipline_run_retry t ep _ length j c hst

theorem disciplined_append {a b : List Event} {ret : Int}
    (ha : discipline_run Phase.idle a = some Phase.idle) (hb : disciplined b ret) :
    disciplined (a ++ b) ret := by
  unfold disciplined at *
  rw [discipline_run_append, ha]
  exact hb

theorem disciplined_zero {a : List Event} (h : disciplined a 0) :
    discipline_run Phase.idle a = some Phase.idle := by
  rcases h with h | ⟨_, h⟩
  · exact h
  · exact absurd h (by decide)

/-- A retry loop that failed, or whose success is turned into a failure. -/
theorem disciplined_retry_fail (t : Transport) (ep : Byte) (off length : Nat) (buf : Mem)
    (c : Nat) :
    disciplined (bulk_retry t ep off length RETRY_MAX 0 buf c).events (-1) := by
  unfold disciplined
  rw [discipline_bulk_retry]
  split
  · exact Or.inl rfl
  · exact Or.inr ⟨rfl, rfl⟩

theorem discipline_retry_ok (t : Transport) (ep : Byte) (off length : Nat) (buf : Mem)
    (c : Nat) (h : (bulk_retry t ep off length RETRY_MAX 0 buf c).ret = LIBUSB_SUCCESS) :
    discipline_run Phase.idle (bulk_retry t ep off length RETRY_MAX 0 buf c).events =
      some Phase.idle := by
  rw [discipline_bulk_retry, if_pos (Or.inr h)]

theorem disciplined_send (k : Header) (t : Transport) (stack : Mem) (command : Byte)
    (buffer : List Byte) (c : Nat) :
    disciplined (send_command_frame k t stack command buffer c).events
      (send_command_frame k t stack command buffer c).ret := by
  unfold send_command_frame
  dsimp only
  split
  · exact disciplined_retry_fail _ _ _ _ _ _
  · rename_i h
    exact Or.inl (discipline_retry_ok _ _ _ _ _ _ (by simpa using h))

theorem payload_loop_fail (t : Transport) (len fuel received : Nat) (buf : Mem) (c : Nat)
    (h : (bulk_retry t ENDPOINT_IN (2 + received) (len + 2 - received) RETRY_MAX 0 buf c).ret ≠
      LIBUSB_SUCCESS) :
    payload_loop t len (fuel + 1) received buf c =
      some { bulk_retry t ENDPOINT_IN (2 + received) (len + 2 - received) RETRY_MAX 0 buf c with
        ret := -1, transferred := received } := by
  rw [payload_loop]
  dsimp only
  rw [if_pos h]

theorem payload_loop_more (t : Transport) (len fuel received : Nat) (buf : Mem) (c : Nat)
    (h : (bulk_retry t ENDPOINT_IN (2 + received) (len + 2 - received) RETRY_MAX 0 buf c).ret =
      LIBUSB_SUCCESS)
    (hlt : received +
      (bulk_retry t ENDPOINT_IN (2 + received) (len + 2 - received) RETRY_MAX 0 buf c).transferred
        < len + 2) :
    payload_loop t len (fuel + 1) received buf c =
      match payload_loop t len fuel
        (received +
          (bulk_retry t ENDPOINT_IN (2 + received) (len + 2 - received) RETRY_MAX 0 buf
            c).transferred)
        (bulk_retry t ENDPOINT_IN (2 + received) (len + 2 - received) RETRY_MAX 0 buf c).buf
        (bulk_retry t ENDPOINT_IN (2 + received) (len + 2 - received) RETRY_MAX 0 buf c).calls
      with
      | none => none
      | some y => some { y with
          events :=
            (bulk_retry t ENDPOINT_IN (2 + received) (len + 2 - received) RETRY_MAX 0 buf
              c).events ++ y.events } := by
  rw [payload_loop]
  dsimp only
  have h0 : (bulk_retry t ENDPOINT_IN (2 + received) (len + 2 - received) RETRY_MAX 0 buf c).ret
      = 0 := h
  rw [if_neg (not_not.mpr h), if_pos h0, if_pos hlt]

theorem payload_loop_done (t : Transport) (len fuel received : Nat) (buf : Mem) (c : Nat)
    (h : (bulk_retry t ENDPOINT_IN (2 + received) (len + 2 - received) RETRY_MAX 0 buf c).ret =
      LIBUSB_SUCCESS)
    (hge : ¬ received +
      (bulk_retry t ENDPOINT_IN (2 + received) (len + 2 - received) RETRY_MAX 0 buf c).transferred
        < len + 2) :
    payload_loop t len (fuel + 1) received buf c =
      some { bulk_retry t ENDPOINT_IN (2 + received) (len + 2 - received) RETRY_MAX 0 buf c with
        ret := 0,
        transferred := received +
          (bulk_retry t ENDPOINT_IN (2 + received) (len + 2 - received) RETRY_MAX 0 buf
            c).transferred } := by
  rw [payload_loop]
  dsimp only
  have h0 : (bulk_retry t ENDPOINT_IN (2 + received) (len + 2 - received) RETRY_MAX 0 buf c).ret
      = 0 := h
  rw [if_neg (not_not.mpr h), if_pos h0, if_neg hge]

theorem disciplined_payload_loop (t : Transport) (len : Nat) :
    ∀ (fuel received : Nat) (buf : Mem) (c : Nat) (y : Xfer),
      payload_loop t len fuel received buf c = some y →
      disciplined y.events y.ret ∧ (y.ret = 0 ∨ y.ret = -1) := by
  intro fuel
  induction fuel with
  | zero => intro received buf c y h; simp [payload_loop] at h
  | succ fuel ih =>
    intro received buf c y h
    by_cases hok : (bulk_retry t ENDPOINT_IN (2 + received) (len + 2 - received) RETRY_MAX 0 buf
        c).ret = LIBUSB_SUCCESS
    · have hok' := discipline_retry_ok t ENDPOINT_IN _ _ buf c hok
      by_cases hlt : received + (bulk_retry t ENDPOINT_IN (2 + received) (len + 2 - received)
          RETRY_MAX 0 buf c).transferred < len + 2
      · rw [payload_loop_more t len fuel received buf c hok hlt] at h
        split at h
        · exact absurd h (by simp)
        · rename_i z hz
          injection h with h
          subst h
          obtain ⟨h1, h2⟩ := ih _ _ _ _ hz
          exact ⟨disciplined_append hok' h1, h2⟩
      · rw [payload_loop_done t len fuel received buf c hok hlt] at h
        injection h with h
        subst h
        exact ⟨Or.inl hok', Or.inl rfl⟩
    · rw [payload_loop_fail t len fuel received buf c hok] at h
      injection h with h
      subst h
      exact ⟨disciplined_retry_fail _ _ _ _ _ _, Or.inr rfl⟩

theorem disciplined_receive_payload (t : Transport) (fuel : Nat) (buffer : List Byte)
    (length : Nat) (buf : Mem) (c : Nat) (ev : List Event) (r : Recv)
    (hev : discipline_run Phase.idle ev = some Phase.idle)
    (h : receive_payload t fuel buffer length buf c ev = some r) :
    disciplined r.events r.ret ∧ (r.ret = 0 ∨ r.ret = -1) := by
  unfold receive_payload at h
  dsimp only at h
  split at h
  · exact absurd h (by simp)
  · rename_i y hy
    obtain ⟨h1, h2⟩ := disciplined_payload_loop t _ _ _ _ _ _ hy
    split at h
    · injection h with h
      subst h
      rcases h2 with h2 | h2
      · rename_i hne; exact absurd h2 hne
      · rw [h2] at h1
        exact ⟨disciplined_append hev h1, Or.inr rfl⟩
    · rename_i h0
      injection h with h
      subst h
      have h0' : y.ret = 0 := by simpa using h0
      rw [h0'] at h1
      exact ⟨disciplined_append hev h1, Or.inl rfl⟩

theorem disciplined_receive (k : Header) (t : Transport) (stack : Mem) (fuel : Nat)
    (buffer : List Byte) (length c : Nat) (r : Recv)
    (h : receive_data_frame k t stack fuel buffer length c = some r) :
    disciplined r.events r.ret ∧ (r.ret = 0 ∨ r.ret = -1) := by
  unfold receive_data_frame at h
  dsimp only at h
  split at h
  · injection h with h
    subst h
    exact ⟨disciplined_retry_fail _ _ _ _ _ _, Or.inr rfl⟩
  · rename_i hx
    have hx' := discipline_retry_ok t ENDPOINT_IN 0 2 stack c (by simpa using hx)
    split at h
    · injection h with h
      subst h
      exact ⟨Or.inl hx', Or.inr rfl⟩
    · split at h
      · split at h
        · injection h with h
          subst h
          exact ⟨disciplined_append hx' (disciplined_retry_fail _ _ _ _ _ _), Or.inr rfl⟩
        · rename_i hy
          have hy' := discipline_retry_ok t ENDPOINT_IN 1 1 _ _ (by simpa using hy)
          refine disciplined_receive_payload t fuel buffer length _ _ _ r ?_ h
          rw [discipline_run_append, hx']
          exact hy'
      · exact disciplined_receive_payload t fuel buffer length _ _ _ r hx' h

theorem discipline_run_usleep (n : Nat) :
    discipline_run Phase.idle [Event.usleep n] = some Phase.idle := rfl

theorem discipline_run_idle_append {a b : List Event}
    (ha : discipline_run Phase.idle a = some Phase.idle)
    (hb : discipline_run Phase.idle b = some Phase.idle) :
    discipline_run Phase.idle (a ++ b) = some Phase.idle := by
  rw [discipline_run_append, ha]
  exact hb

theorem disciplined_of_neg_one {a : List Event} {ret : Int} (h : disciplined a ret) :
    disciplined a (-1) := by
  rcases h with h | ⟨h, _⟩
  · exact Or.inl h
  · exact Or.inr ⟨h, rfl⟩

theorem disciplined_reset (k : Header) (t : Transport) (tCOM t12 t2C : Nat) (ss sr : Mem)
    (buf : List Byte) (len fuel c : Nat) (r : Sent)
    (h : v850j_reset k t tCOM t12 t2C ss sr buf len fuel c = some r) :
    disciplined r.events r.ret := by
  unfold v850j_reset at h
  dsimp only at h
  split at h
  · injection h with h
    subst h
    exact disciplined_append (discipline_run_usleep _) (disciplined_retry_fail _ _ _ _ _ _)
  · rename_i ha
    have ha' := discipline_retry_ok t ENDPOINT_OUT 0 1 _ c (by simpa using ha)
    have e1 := discipline_run_idle_append
      (discipline_run_idle_append (discipline_run_usleep tCOM) ha') (discipline_run_usleep t12)
    split at h
    · injection h with h
      subst h
      exact disciplined_append e1 (disciplined_retry_fail _ _ _ _ _ _)
    · rename_i hb
      have hb' := discipline_retry_ok t ENDPOINT_OUT 0 1 _ _ (by simpa using hb)
      have e2 := discipline_run_idle_append (discipline_run_idle_append e1 hb')
        (discipline_run_usleep t2C)
      have hs := disciplined_send k t ss k.V850ESJx3L_RESET [] 
        (bulk_retry t ENDPOINT_OUT 0 1 RETRY_MAX 0 (fun _ => 0x00)
          (bulk_retry t ENDPOINT_OUT 0 1 RETRY_MAX 0 (fun _ => 0x00) c).calls).calls
      split at h
      · injection h with h
        subst h
        exact disciplined_append e2 hs
      · rename_i hs0
        have hs0' := not_not.mp hs0
        rw [hs0'] at hs
        have e3 := discipline_run_idle_append e2 (disciplined_zero hs)
        split at h
        · exact absurd h (by simp)
        · rename_i z hz
          obtain ⟨hz1, hz2⟩ := disciplined_receive _ _ _ _ _ _ _ _ hz
          split at h
          · injection h with h
            subst h
            exact disciplined_append e3 hz1
          · rename_i hz0
            have hz0' := not_not.mp hz0
            rw [hz0'] at hz1
            split at h
            · injection h with h
              subst h
              exact disciplined_append e3 (disciplined_of_neg_one hz1)
            · injection h with h
              subst h
              exact disciplined_append e3 hz1

theorem disciplined_silicon (k : Header) (t : Transport) (ss sr sr2 : Mem)
    (buf : List Byte) (len fuel c : Nat) (r : Sent)
    (h : v850j_get_silicon_signature k t ss sr sr2 buf len fuel c = some r) :
    disciplined r.events r.ret := by
  unfold v850j_get_silicon_signature at h
  dsimp only at h
  have hs := disciplined_send k t ss k.V850ESJx3L_SILICON_SIGNATURE [] c
  split at h
  · injection h with h
    subst h
    exact hs
  · rename_i hs0
    have hs0' := not_not.mp hs0
    rw [hs0'] at hs
    have e1 := disciplined_zero hs
    split at h
    · exact absurd h (by simp)
    · rename_i z hz
      obtain ⟨hz1, hz2⟩ := disciplined_receive _ _ _ _ _ _ _ _ hz
      split at h
      · injection h with h
        subst h
        exact disciplined_append e1 hz1
      · rename_i hz0
        have hz0' := not_not.mp hz0
        rw [hz0'] at hz1
        have e2 := discipline_run_idle_append e1 (disciplined_zero hz1)
        split at h
        · injection h with h
          subst h
          exact disciplined_append e1 (disciplined_of_neg_one hz1)
        · split at h
          · exact absurd h (by simp)
          · rename_i z2 hz2
            obtain ⟨hw1, _⟩ := disciplined_receive _ _ _ _ _ _ _ _ hz2
            split at h
            · injection h with h
              subst h
              exact disciplined_append e2 hw1
            · rename_i hw0
              have hw0' := not_not.mp hw0
              rw [hw0'] at hw1
              injection h with h
              subst h
              exact disciplined_append e2 hw1

/-- C7. The actions of every operation follow the stall discipline
(`discipline_step`): every attempt is issued with the timeout of 4000 ms; an
attempt that stalls is followed, before anything else, by exactly one
clear-halt on the same endpoint; an attempt that fails with any other error is
followed by no action at all, and the operation returns -1.  This holds for a
single retry loop and for `send_command_frame`, `receive_data_frame`,
`v850j_reset` and `v850j_get_silicon_signature`. -/
theorem stall_handling (k : Header) (t : Transport) (c : Nat) :
    V850J_TIMEOUT_MS = 4000 ∧
    (∀ (ep : Byte) (off length : Nat) (buf : Mem),
      disciplined (bulk_retry t ep off length RETRY_MAX 0 buf c).events (-1)) ∧
    (∀ (stack : Mem) (command : Byte) (buffer : List Byte),
      disciplined (send_command_frame k t stack command buffer c).events
        (send_command_frame k t stack command buffer c).ret) ∧
    (∀ (stack : Mem) (fuel : Nat) (buffer : List Byte) (length : Nat) (r : Recv),
      receive_data_frame k t stack fuel buffer length c = some r →
      disciplined r.events r.ret) ∧
    (∀ (tCOM t12 t2C : Nat) (ss sr : Mem) (buf : List Byte) (len fuel : Nat) (r : Sent),
      v850j_reset k t tCOM t12 t2C ss sr buf len fuel c = some r →
      disciplined r.events r.ret) ∧
    (∀ (ss sr sr2 : Mem) (buf : List Byte) (len fuel : Nat) (r : Sent),
      v850j_get_silicon_signature k t ss sr sr2 buf len fuel c = some r →
      disciplined r.events r.ret) :=
  ⟨rfl, fun ep off length buf => disciplined_retry_fail t ep off length buf c,
    fun stack command buffer => disciplined_send k t stack command buffer c,
    fun stack fuel buffer length r h =>
      (disciplined_receive k t stack fuel buffer length c r h).1,
    fun tCOM t12 t2C ss sr buf len fuel r h =>
      disciplined_reset k t tCOM t12 t2C ss sr buf len fuel c r h,
    fun ss sr sr2 buf len fuel r h => disciplined_silicon k t ss sr sr2 buf len fuel c r h⟩

/-- C7 on a header read that stalls once and then times out: one clear-halt
after the stall, nothing after the timeout, and the call fails. -/
theorem stall_handling_witness :
    disciplined
      [Event.bulk ENDPOINT_IN [] 2 4000 LIBUSB_ERROR_PIPE [], Event.clear_halt ENDPOINT_IN,
        Event.bulk ENDPOINT_IN [] 2 4000 LIBUSB_ERROR_TIMEOUT []] (-1) :=
  (stall_handling hdr (script [⟨LIBUSB_ERROR_PIPE, []⟩, ⟨LIBUSB_ERROR_TIMEOUT, []⟩]) 0).2.2.2.1
    stack0 3 [] 0
    ⟨-1, [], 0, 2,
      [Event.bulk ENDPOINT_IN [] 2 4000 LIBUSB_ERROR_PIPE [], Event.clear_halt ENDPOINT_IN,
        Event.bulk ENDPOINT_IN [] 2 4000 LIBUSB_ERROR_TIMEOUT []]⟩ (by decide)

theorem delivered_append (a b : List Event) : delivered (a ++ b) = delivered a ++ delivered b := by
  induction a with
  | nil => rfl
  | cons e es ih =>
    cases e <;> simp [delivered, ih]

theorem delivered_attempt (ep : Byte) (out : List Byte) (length : Nat) (r : Resp) :
    delivered (attempt_events ep out length r) =
      if 128 ≤ ep.val ∧ r.ret = LIBUSB_SUCCESS then r.data else [] := by
  unfold attempt_events
  split <;> simp [delivered]

theorem delivered_retry (t : Transport) (ep : Byte) (out : List Byte) (length : Nat) :
    ∀ (j c : Nat), (∀ i, i < j → (t (c + i)).ret = LIBUSB_ERROR_PIPE) →
      delivered (retry_events t ep out length c j) =
        if 128 ≤ ep.val ∧ (t (c + j)).ret = LIBUSB_SUCCESS then (t (c + j)).data else [] := by
  intro j
  induction j with
  | zero => intro c _; exact delivered_attempt _ _ _ _
  | succ j ih =>
    intro c hst
    rw [retry_events, delivered_append, delivered_attempt]
    have h0 : (t c).ret = LIBUSB_ERROR_PIPE := hst 0 (by omega)
    have hne : ¬ (128 ≤ ep.val ∧ (t c).ret = LIBUSB_SUCCESS) := by
      rw [h0]; exact fun h => pipe_ne_success h.2
    rw [if_neg hne, List.nil_append, ih (c + 1) (fun i hi => by
      have := hst (i + 1) (by omega)
      rwa [show c + (i + 1) = c + 1 + i by omega] at this)]
    rw [show c + (j + 1) = c + 1 + j by omega]

theorem last_mem_retry_events (t : Transport) (ep : Byte) (out : List Byte) (length : Nat) :
    ∀ (j c : Nat), Event.bulk ep out length V850J_TIMEOUT_MS (t (c + j)).ret (t (c + j)).data ∈
      retry_events t ep out length c j := by
  intro j
  induction j with
  | zero => intro c; simp [retry_events, attempt_events]
  | succ j ih =>
    intro c
    rw [retry_events]
    apply List.mem_append_right
    rw [show c + (j + 1) = c + 1 + j by omega]
    exact ih (c + 1)

/-- A read loop that succeeds: the bytes `d` delivered by its last attempt are
what it delivers, they lie at `off`, and the bytes below `off` are untouched. -/
theorem read_loop_ok (t : Transport) (off length : Nat) (buf : Mem) (c : Nat)
    (hok : (bulk_retry t ENDPOINT_IN off length RETRY_MAX 0 buf c).ret = LIBUSB_SUCCESS) :
    delivered (bulk_retry t ENDPOINT_IN off length RETRY_MAX 0 buf c).events =
        load (bulk_retry t ENDPOINT_IN off length RETRY_MAX 0 buf c).buf off
          (bulk_retry t ENDPOINT_IN off length RETRY_MAX 0 buf c).transferred ∧
    (∀ p, p < off → (bulk_retry t ENDPOINT_IN off length RETRY_MAX 0 buf c).buf p = buf p) ∧
    ((∀ e ∈ (bulk_retry t ENDPOINT_IN off length RETRY_MAX 0 buf c).events, well_behaved e) →
      1 ≤ (bulk_retry t ENDPOINT_IN off length RETRY_MAX 0 buf c).transferred ∧
      (bulk_retry t ENDPOINT_IN off length RETRY_MAX 0 buf c).transferred ≤ length) := by
  obtain ⟨j, B, _, hst, _, hB, _, heq⟩ := bulk_retry_run t ENDPOINT_IN off length buf c
  rw [heq] at hok ⊢
  dsimp only at hok ⊢
  rw [if_pos endpoint_in_reads]
  refine ⟨?_, ?_, ?_⟩
  · rw [delivered_retry t ENDPOINT_IN _ length j c hst, if_pos ⟨endpoint_in_reads, hok⟩,
      load_memcpy]
  · intro p hp
    rw [memcpy_below _ _ _ _ hp]
    exact hB p hp
  · intro hwb
    have := hwb _ (last_mem_retry_events t ENDPOINT_IN (offered ENDPOINT_IN buf off length)
      length j c)
    exact this endpoint_in_reads hok

theorem load_take (buf : Mem) (off m n : Nat) :
    (load buf off (m + n)).take m = load buf off m := by
  rw [load_append, List.take_left' (length_load _ _ _)]

/-- The payload loop, when it ends with success on a well-behaved transport:
it has received exactly what was missing, stored it in order behind what was
there, and left the bytes before it alone. -/
theorem payload_loop_sound (t : Transport) (len : Nat) :
    ∀ (fuel received : Nat) (buf : Mem) (c : Nat) (y : Xfer),
      payload_loop t len fuel received buf c = some y → y.ret = 0 →
      (∀ e ∈ y.events, well_behaved e) → received < len + 2 →
      (∀ p, p < 2 + received → y.buf p = buf p) ∧
      received + (delivered y.events).length = len + 2 ∧
      load y.buf (2 + received) (delivered y.events).length = delivered y.events := by
  intro fuel
  induction fuel with
  | zero => intro received buf c y h; simp [payload_loop] at h
  | succ fuel ih =>
    intro received buf c y h hret hwb hrec
    by_cases hok : (bulk_retry t ENDPOINT_IN (2 + received) (len + 2 - received) RETRY_MAX 0 buf
        c).ret = LIBUSB_SUCCESS
    · obtain ⟨hd, hbelow, hsize⟩ := read_loop_ok t (2 + received) (len + 2 - received) buf c hok
      by_cases hlt : received + (bulk_retry t ENDPOINT_IN (2 + received) (len + 2 - received)
          RETRY_MAX 0 buf c).transferred < len + 2
      · rw [payload_loop_more t len fuel received buf c hok hlt] at h
        split at h
        · exact absurd h (by simp)
        · rename_i z hz
          injection h with h
          subst h
          dsimp only at hret hwb ⊢
          obtain ⟨h1, h2, h3⟩ := ih _ _ _ _ hz hret
            (fun e he => hwb e (List.mem_append_right _ he)) hlt
          generalize hx : bulk_retry t ENDPOINT_IN (2 + received) (len + 2 - received)
            RETRY_MAX 0 buf c = x at *
          have hdl : (delivered x.events).length = x.transferred := by
            rw [hd, length_load]
          refine ⟨?_, ?_, ?_⟩
          · intro p hp
            rw [h1 p (by omega)]
            exact hbelow p hp
          · rw [delivered_append, List.length_append, hdl]
            omega
          · rw [delivered_append, List.length_append, load_append, hdl]
            congr 1
            · rw [hd]
              apply load_congr
              intro i hi
              exact h1 _ (by omega)
            · rw [show 2 + received + x.transferred = 2 + (received + x.transferred) by omega]
              exact h3
      · rw [payload_loop_done t len fuel received buf c hok hlt] at h
        injection h with h
        subst h
        dsimp only at hret hwb ⊢
        obtain ⟨_, hle⟩ := hsize hwb
        generalize hx : bulk_retry t ENDPOINT_IN (2 + received) (len + 2 - received)
          RETRY_MAX 0 buf c = x at *
        have hdl : (delivered x.events).length = x.transferred := by
          rw [hd, length_load]
        refine ⟨hbelow, by rw [hdl]; omega, ?_⟩
        rw [hdl]
        exact hd.symm
    · rw [payload_loop_fail t len fuel received buf c hok] at h
      injection h with h
      subst h
      dsimp only at hret
      exact absurd hret (by decide)

theorem data_length_bounds (L : Byte) : 1 ≤ data_length L ∧ data_length L ≤ 256 := by
  unfold data_length
  have := L.isLt
  split <;> omega

theorem receive_payload_sound (t : Transport) (fuel : Nat) (buffer : List Byte) (length : Nat)
    (buf : Mem) (c : Nat) (ev : List Event) (r : Recv)
    (h : receive_payload t fuel buffer length buf c ev = some r) (hret : r.ret = 0)
    (hwb : ∀ e ∈ r.events, well_behaved e) :
    ∃ rest : List Byte, delivered r.events = delivered ev ++ rest ∧
      r.length = data_length (buf 1) ∧ rest.length = r.length + 2 ∧
      r.buffer = rest.take r.length ++ buffer.drop r.length := by
  unfold receive_payload at h
  dsimp only at h
  split at h
  · exact absurd h (by simp)
  · rename_i y hy
    split at h
    · injection h with h
      subst h
      exact absurd hret (by dsimp only; decide)
    · rename_i h0
      injection h with h
      subst h
      dsimp only at hwb ⊢
      have h0' : y.ret = 0 := not_not.mp h0
      obtain ⟨_, h2, h3⟩ := payload_loop_sound t _ fuel 0 buf c y hy h0'
        (fun e he => hwb e (List.mem_append_right _ he)) (by omega)
      refine ⟨delivered y.events, delivered_append _ _, rfl, by show _ = data_length (buf 1) + 2; unfold data_length; omega, ?_⟩
      congr 1
      have hl : (delivered y.events).length = (if (buf 1).val = 0 then 256 else (buf 1).val) + 2 := by
        omega
      rw [← h3, hl]
      exact (load_take _ _ _ _).symm

/-- C4. Take any run of `receive_data_frame` that returns 0 on a transport
whose successful reads deliver at least one byte and no more than was asked
for.  Then the bytes delivered are a data frame: the start marker STX, a length
code `L` and `length + 2` further bytes, where the returned length is 256 when
`L = 0` and `L` otherwise, hence between 1 and 256; and the caller's buffer
begins with exactly the `length` bytes that follow the two header bytes, in
order (all 256 of them when `L = 0`), the rest of the buffer being untouched. -/
theorem receive_data_frame_decodes (k : Header) (t : Transport) (stack : Mem) (fuel : Nat)
    (buffer : List Byte) (length c : Nat) (r : Recv)
    (h : receive_data_frame k t stack fuel buffer length c = some r) (hret : r.ret = 0)
    (hwb : ∀ e ∈ r.events, well_behaved e) :
    ∃ (L : Byte) (rest : List Byte),
      delivered r.events = k.V850ESJx3L_STX :: L :: rest ∧
      r.length = (if L.val = 0 then 256 else L.val) ∧
      1 ≤ r.length ∧ r.length ≤ 256 ∧
      rest.length = r.length + 2 ∧
      r.buffer = rest.take r.length ++ buffer.drop r.length := by
  unfold receive_data_frame at h
  dsimp only at h
  split at h
  · injection h with h
    subst h
    exact absurd hret (by dsimp only; decide)
  · rename_i hx
    have hx' : (bulk_retry t ENDPOINT_IN 0 2 RETRY_MAX 0 stack c).ret = LIBUSB_SUCCESS :=
      not_not.mp hx
    obtain ⟨hd, _, hsize⟩ := read_loop_ok t 0 2 stack c hx'
    generalize bulk_retry t ENDPOINT_IN 0 2 RETRY_MAX 0 stack c = x at *
    split at h
    · injection h with h
      subst h
      exact absurd hret (by dsimp only; decide)
    · rename_i hstx
      have hstx' : x.buf 0 = k.V850ESJx3L_STX := not_not.mp hstx
      split at h
      · rename_i hshort
        split at h
        · injection h with h
          subst h
          exact absurd hret (by dsimp only; decide)
        · rename_i hy
          have hy' : (bulk_retry t ENDPOINT_IN 1 1 RETRY_MAX 0 x.buf x.calls).ret =
              LIBUSB_SUCCESS := not_not.mp hy
          obtain ⟨hd2, hbelow2, hsize2⟩ := read_loop_ok t 1 1 x.buf x.calls hy'
          generalize bulk_retry t ENDPOINT_IN 1 1 RETRY_MAX 0 x.buf x.calls = y at *
          obtain ⟨rest, h1, h2, h3, h4⟩ := receive_payload_sound t fuel buffer length _ _ _ r h
            hret hwb
          have hsub : ∀ e ∈ x.events ++ y.events, well_behaved e := by
            intro e he
            apply hwb
            have : delivered r.events = delivered (x.events ++ y.events) ++ rest := h1
            clear this
            revert he
            unfold receive_payload at h
            dsimp only at h
            split at h
            · exact absurd h (by simp)
            · split at h <;> (injection h with h; subst h; exact List.mem_append_left _)
          obtain ⟨hx1, hx2⟩ := hsize (fun e he => hsub e (List.mem_append_left _ he))
          obtain ⟨hy1, hy2⟩ := hsize2 (fun e he => hsub e (List.mem_append_right _ he))
          have hxt : x.transferred = 1 := by omega
          have hyt : y.transferred = 1 := by omega
          rw [hxt, load_one] at hd
          rw [hyt, load_one] at hd2
          refine ⟨y.buf 1, rest, ?_, h2, ?_, ?_, h3, h4⟩
          · rw [h1, delivered_append, hd, hd2, hstx']
            rfl
          · rw [h2]; exact (data_length_bounds _).1
          · rw [h2]; exact (data_length_bounds _).2
      · rename_i hfull
        obtain ⟨rest, h1, h2, h3, h4⟩ := receive_payload_sound t fuel buffer length _ _ _ r h
          hret hwb
        have hsub : ∀ e ∈ x.events, well_behaved e := by
          intro e he
          apply hwb
          revert he
          unfold receive_payload at h
          dsimp only at h
          split at h
          · exact absurd h (by simp)
          · split at h <;> (injection h with h; subst h; exact List.mem_append_left _)
        obtain ⟨hx1, hx2⟩ := hsize hsub
        have hxt : x.transferred = 2 := by omega
        rw [hxt] at hd
        have hd' : delivered x.events = [x.buf 0, x.buf 1] := by
          rw [hd]; simp [load_cons, load_zero]
        refine ⟨x.buf 1, rest, ?_, h2, ?_, ?_, h3, h4⟩
        · rw [h1, hd', hstx']
          rfl
        · rw [h2]; exact (data_length_bounds _).1
        · rw [h2]; exact (data_length_bounds _).2

/-- The payload loop on a transport that delivers, without any error, the
non-empty chunks `chunks` that make up what is still missing. -/
theorem payload_loop_chunks (t : Transport) (len : Nat) :
    ∀ (chunks : List (List Byte)) (fuel received : Nat) (buf : Mem) (c : Nat),
      (∀ i, i < chunks.length → t (c + i) = ⟨LIBUSB_SUCCESS, chunks.getD i []⟩) →
      (∀ ch ∈ chunks, ch ≠ []) → received + chunks.flatten.length = len + 2 →
      received < len + 2 → chunks.length ≤ fuel →
      ∃ y, payload_loop t len fuel received buf c = some y ∧ y.ret = 0 ∧
        y.calls = c + chunks.length ∧ (∀ p, p < 2 + received → y.buf p = buf p) ∧
        load y.buf (2 + received) chunks.flatten.length = chunks.flatten := by
  intro chunks
  induction chunks with
  | nil =>
    intro fuel received buf c _ _ hsum hrec _
    simp at hsum
    omega
  | cons ch rest ih =>
    intro fuel received buf c ht hne hsum hrec hfuel
    obtain ⟨fuel, rfl⟩ : ∃ f, fuel = f + 1 := ⟨fuel - 1, by simp at hfuel; omega⟩
    have ht0 : t c = ⟨LIBUSB_SUCCESS, ch⟩ := by
      have := ht 0 (by simp)
      simpa using this
    have hnp : (t c).ret ≠ LIBUSB_ERROR_PIPE := by
      rw [ht0]; exact fun h => pipe_ne_success h.symm
    have hx := bulk_retry_once t ENDPOINT_IN (2 + received) (len + 2 - received) buf c hnp
    rw [ht0, if_pos endpoint_in_reads] at hx
    dsimp only at hx
    have hok : (bulk_retry t ENDPOINT_IN (2 + received) (len + 2 - received) RETRY_MAX 0 buf
        c).ret = LIBUSB_SUCCESS := by rw [hx]
    have hsum' : received + (ch.length + rest.flatten.length) = len + 2 := by
      simpa using hsum
    by_cases hlt : received + ch.length < len + 2
    · have hlt' : received + (bulk_retry t ENDPOINT_IN (2 + received) (len + 2 - received)
          RETRY_MAX 0 buf c).transferred < len + 2 := by rw [hx]; exact hlt
      rw [payload_loop_more t len fuel received buf c hok hlt', hx]
      dsimp only
      obtain ⟨y, hy, hy0, hyc, hyb, hyl⟩ := ih fuel (received + ch.length)
        (memcpy buf (2 + received) ch) (c + 1)
        (fun i hi => by
          have := ht (i + 1) (by simp; omega)
          rw [show c + 1 + i = c + (i + 1) by omega, this]
          simp)
        (fun x hx => hne x (List.mem_cons_of_mem _ hx)) (by omega) hlt
        (by simp at hfuel; omega)
      rw [hy]
      refine ⟨_, rfl, hy0, by simp [hyc]; omega, ?_, ?_⟩
      · intro p hp
        show y.buf p = buf p
        rw [hyb p (by omega)]
        exact memcpy_below _ _ _ _ hp
      · show load y.buf (2 + received) (ch :: rest).flatten.length = (ch :: rest).flatten
        rw [List.flatten_cons, List.length_append, load_append]
        congr 1
        · have : load y.buf (2 + received) ch.length =
              load (memcpy buf (2 + received) ch) (2 + received) ch.length :=
            load_congr (fun i hi => hyb _ (by omega))
          rw [this, load_memcpy]
        · rw [show 2 + received + ch.length = 2 + (received + ch.length) by omega]
          exact hyl
    · have hlt' : ¬ received + (bulk_retry t ENDPOINT_IN (2 + received) (len + 2 - received)
          RETRY_MAX 0 buf c).transferred < len + 2 := by rw [hx]; exact hlt
      rw [payload_loop_done t len fuel received buf c hok hlt', hx]
      have hrest : rest = [] := by
        cases rest with
        | nil => rfl
        | cons r rs =>
          have hr : r ≠ [] := hne r (by simp)
          have : 0 < r.length := List.length_pos.mpr hr
          simp at hsum'
          omega
      subst hrest
      refine ⟨_, rfl, rfl, rfl, ?_, ?_⟩
      · intro p hp
        exact memcpy_below _ _ _ _ hp
      · simp only [List.flatten_cons, List.flatten_nil, List.append_nil]
        exact load_memcpy _ _ _

/-- Decoding after the header has been read, on a transport that delivers the
rest of the frame in non-empty chunks. -/
theorem receive_payload_chunks (t : Transport) (fuel : Nat) (buffer : List Byte) (length : Nat)
    (buf : Mem) (c : Nat) (ev : List Event) (chunks : List (List Byte))
    (ht : ∀ i, i < chunks.length → t (c + i) = ⟨LIBUSB_SUCCESS, chunks.getD i []⟩)
    (hne : ∀ ch ∈ chunks, ch ≠ [])
    (hsum : chunks.flatten.length = data_length (buf 1) + 2) (hfuel : chunks.length ≤ fuel) :
    ∃ ev', receive_payload t fuel buffer length buf c ev =
      some ⟨0, chunks.flatten.take (data_length (buf 1)) ++ buffer.drop (data_length (buf 1)),
        data_length (buf 1), c + chunks.length, ev'⟩ := by
  obtain ⟨y, hy, hy0, hyc, _, hyl⟩ := payload_loop_chunks t (data_length (buf 1)) chunks fuel 0
    buf c ht hne (by omega) (by omega) hfuel
  unfold receive_payload
  dsimp only
  have hy' : payload_loop t (if (buf 1).val = 0 then 256 else (buf 1).val) fuel 0 buf c = some y :=
    hy
  rw [hy']
  dsimp only
  rw [if_neg (not_not.mpr hy0)]
  have hl : load y.buf 2 (data_length (buf 1)) = chunks.flatten.take (data_length (buf 1)) := by
    rw [← hyl, hsum]
    exact (load_take _ _ _ _).symm
  have hl' : load y.buf 2 (if (buf 1).val = 0 then 256 else (buf 1).val) =
      chunks.flatten.take (data_length (buf 1)) := hl
  rw [hl', hyc]
  exact ⟨_, rfl⟩

theorem deliver_zero (a : List Byte) (rest : List (List Byte)) :
    deliver (a :: rest) 0 = ⟨LIBUSB_SUCCESS, a⟩ := rfl

theorem deliver_succ (a : List Byte) (rest : List (List Byte)) (i : Nat) :
    deliver (a :: rest) (i + 1) = deliver rest i := rfl

theorem deliver_lt (chunks : List (List Byte)) :
    ∀ i, i < chunks.length → deliver chunks i = ⟨LIBUSB_SUCCESS, chunks.getD i []⟩ := by
  induction chunks with
  | nil => intro i hi; simp at hi
  | cons a rest ih =>
    intro i hi
    cases i with
    | zero => rfl
    | succ i =>
      rw [deliver_succ, ih i (by simpa using hi)]
      simp

/-- A header read that succeeds with a first byte other than STX ends the
call: failure, no further transfer, caller's buffer and length untouched. -/
theorem receive_bad_start (k : Header) (t : Transport) (stack : Mem) (fuel : Nat)
    (buffer : List Byte) (length c n : Nat) (hn : n < 5)
    (hst : ∀ i, i < n → (t (c + i)).ret = LIBUSB_ERROR_PIPE)
    (hok : (t (c + n)).ret = LIBUSB_SUCCESS)
    (b : Byte) (rest : List Byte) (hdata : (t (c + n)).data = b :: rest)
    (hb : b ≠ k.V850ESJx3L_STX) :
    receive_data_frame k t stack fuel buffer length c =
      some ⟨-1, buffer, length, c + n + 1, retry_events t ENDPOINT_IN [] 2 c n⟩ := by
  obtain ⟨B, _, _, heq⟩ := bulk_retry_after_stalls t ENDPOINT_IN 0 2 stack c n hn hst
    (Or.inl (by rw [hok]; exact fun h => pipe_ne_success h.symm))
  unfold receive_data_frame
  simp only [heq, hok, hdata, if_pos endpoint_in_reads]
  have h0 : memcpy B 0 (b :: rest) 0 = b := by simp [memcpy]
  rw [if_neg (by simp), h0, if_pos hb]
  rfl

/-- Decoding when the two header bytes arrive in one read and the rest of
the frame in non-empty chunks. -/
theorem receive_whole_header (k : Header) (t : Transport) (stack : Mem) (fuel : Nat)
    (buffer : List Byte) (length c : Nat) (L : Byte) (chunks : List (List Byte))
    (h0 : t c = ⟨LIBUSB_SUCCESS, [k.V850ESJx3L_STX, L]⟩)
    (ht : ∀ i, i < chunks.length → t (c + 1 + i) = ⟨LIBUSB_SUCCESS, chunks.getD i []⟩)
    (hne : ∀ ch ∈ chunks, ch ≠ [])
    (hsum : chunks.flatten.length = data_length L + 2) (hfuel : chunks.length ≤ fuel) :
    ∃ ev, receive_data_frame k t stack fuel buffer length c =
      some ⟨0, chunks.flatten.take (data_length L) ++ buffer.drop (data_length L),
        data_length L, c + 1 + chunks.length, ev⟩ := by
  have hnp : (t c).ret ≠ LIBUSB_ERROR_PIPE := by
    rw [h0]; exact fun h => pipe_ne_success h.symm
  unfold receive_data_frame
  simp only [bulk_retry_once t ENDPOINT_IN 0 2 stack c hnp, h0, if_pos endpoint_in_reads]
  have hb0 : memcpy stack 0 [k.V850ESJx3L_STX, L] 0 = k.V850ESJx3L_STX := by simp [memcpy]
  have hb1 : memcpy stack 0 [k.V850ESJx3L_STX, L] 1 = L := by simp [memcpy]
  rw [if_neg (by simp), if_neg (by simp [hb0]), if_neg (by simp)]
  have := receive_payload_chunks t fuel buffer length (memcpy stack 0 [k.V850ESJx3L_STX, L])
    (c + 1) [Event.bulk ENDPOINT_IN (offered ENDPOINT_IN stack 0 2) 2 V850J_TIMEOUT_MS
      LIBUSB_SUCCESS [k.V850ESJx3L_STX, L]] chunks ht hne (by rw [hb1]; exact hsum) hfuel
  rw [hb1] at this
  exact this

/-- Decoding when the two header bytes arrive in two reads of one byte and
the rest of the frame in non-empty chunks. -/
theorem receive_split_header (k : Header) (t : Transport) (stack : Mem) (fuel : Nat)
    (buffer : List Byte) (length c : Nat) (L : Byte) (chunks : List (List Byte))
    (h0 : t c = ⟨LIBUSB_SUCCESS, [k.V850ESJx3L_STX]⟩)
    (h1 : t (c + 1) = ⟨LIBUSB_SUCCESS, [L]⟩)
    (ht : ∀ i, i < chunks.length → t (c + 2 + i) = ⟨LIBUSB_SUCCESS, chunks.getD i []⟩)
    (hne : ∀ ch ∈ chunks, ch ≠ [])
    (hsum : chunks.flatten.length = data_length L + 2) (hfuel : chunks.length ≤ fuel) :
    ∃ ev, receive_data_frame k t stack fuel buffer length c =
      some ⟨0, chunks.flatten.take (data_length L) ++ buffer.drop (data_length L),
        data_length L, c + 2 + chunks.length, ev⟩ := by
  have hnp : (t c).ret ≠ LIBUSB_ERROR_PIPE := by
    rw [h0]; exact fun h => pipe_ne_success h.symm
  have hnp1 : (t (c + 1)).ret ≠ LIBUSB_ERROR_PIPE := by
    rw [h1]; exact fun h => pipe_ne_success h.symm
  unfold receive_data_frame
  simp only [bulk_retry_once t ENDPOINT_IN 0 2 stack c hnp, h0, if_pos endpoint_in_reads]
  have hb0 : memcpy stack 0 [k.V850ESJx3L_STX] 0 = k.V850ESJx3L_STX := by simp [memcpy]
  rw [if_neg (by simp), if_neg (by simp [hb0]), if_pos (by simp)]
  simp only [bulk_retry_once t ENDPOINT_IN 1 1 _ (c + 1) hnp1, h1, if_pos endpoint_in_reads]
  rw [if_neg (by simp)]
  have hb1 : memcpy (memcpy stack 0 [k.V850ESJx3L_STX]) 1 [L] 1 = L := by simp [memcpy]
  have := receive_payload_chunks t fuel buffer length
    (memcpy (memcpy stack 0 [k.V850ESJx3L_STX]) 1 [L]) (c + 1 + 1)
    ([Event.bulk ENDPOINT_IN (offered ENDPOINT_IN stack 0 2) 2 V850J_TIMEOUT_MS
      LIBUSB_SUCCESS [k.V850ESJx3L_STX]] ++
      [Event.bulk ENDPOINT_IN (offered ENDPOINT_IN (memcpy stack 0 [k.V850ESJx3L_STX]) 1 1) 1
        V850J_TIMEOUT_MS LIBUSB_SUCCESS [L]]) chunks ht hne (by rw [hb1]; exact hsum) hfuel
  rw [hb1] at this
  exact this

/-- C4 on a frame with length code 3 whose header read stalls once and then
arrives in two reads, and whose five remaining bytes arrive in two chunks. -/
theorem receive_data_frame_decodes_witness :
    ∃ (L : Byte) (rest : List Byte),
      delivered
        [Event.bulk ENDPOINT_IN [] 2 4000 LIBUSB_ERROR_PIPE [9, 9], Event.clear_halt ENDPOINT_IN,
          Event.bulk ENDPOINT_IN [] 2 4000 LIBUSB_SUCCESS [2],
          Event.bulk ENDPOINT_IN [] 1 4000 LIBUSB_SUCCESS [3],
          Event.bulk ENDPOINT_IN [] 5 4000 LIBUSB_SUCCESS [6, 1],
          Event.bulk ENDPOINT_IN [] 3 4000 LIBUSB_SUCCESS [2, 244, 3]] = 0x02 :: L :: rest ∧
      3 = (if L.val = 0 then 256 else L.val) ∧ 1 ≤ 3 ∧ 3 ≤ 256 ∧ rest.length = 3 + 2 ∧
      ([6, 1, 2, 9, 9] : List Byte) = rest.take 3 ++ ([9, 9, 9, 9, 9] : List Byte).drop 3 :=
  receive_data_frame_decodes hdr
    (script [⟨LIBUSB_ERROR_PIPE, [9, 9]⟩, ⟨LIBUSB_SUCCESS, [2]⟩, ⟨LIBUSB_SUCCESS, [3]⟩,
      ⟨LIBUSB_SUCCESS, [6, 1]⟩, ⟨LIBUSB_SUCCESS, [2, 0xF4, 3]⟩])
    stack0 5 [9, 9, 9, 9, 9] 77 0
    ⟨0, [6, 1, 2, 9, 9], 3, 5,
      [Event.bulk ENDPOINT_IN [] 2 4000 LIBUSB_ERROR_PIPE [9, 9], Event.clear_halt ENDPOINT_IN,
        Event.bulk ENDPOINT_IN [] 2 4000 LIBUSB_SUCCESS [2],
        Event.bulk ENDPOINT_IN [] 1 4000 LIBUSB_SUCCESS [3],
        Event.bulk ENDPOINT_IN [] 5 4000 LIBUSB_SUCCESS [6, 1],
        Event.bulk ENDPOINT_IN [] 3 4000 LIBUSB_SUCCESS [2, 244, 3]]⟩
    (by decide) rfl (by decide)

/-- C8. Take a data frame with start marker STX, length code `L` and
`data_length L + 2` further bytes, cut in any way into non-empty chunks.
Whether the header arrives in one read of two bytes or in two reads of one
byte, and however the rest is cut, `receive_data_frame` returns 0 with the same
length and the same payload as when the header and the rest each arrive in a
single read: the length announced by `L` and the bytes that follow the header. -/
theorem reassembly (k : Header) (L : Byte) (chunks : List (List Byte))
    (hne : ∀ ch ∈ chunks, ch ≠ []) (hsum : chunks.flatten.length = data_length L + 2)
    (stack stack1 stack2 : Mem) (fuel fuel1 fuel2 : Nat) (hf : chunks.length ≤ fuel)
    (hf1 : chunks.length ≤ fuel1) (hf2 : 1 ≤ fuel2) (buffer : List Byte) (length : Nat) :
    ∃ ev ev1 ev2,
      receive_data_frame k (deliver ([k.V850ESJx3L_STX, L] :: chunks)) stack fuel buffer length 0 =
        some ⟨0, chunks.flatten.take (data_length L) ++ buffer.drop (data_length L),
          data_length L, 1 + chunks.length, ev⟩ ∧
      receive_data_frame k (deliver ([k.V850ESJx3L_STX] :: [L] :: chunks)) stack1 fuel1 buffer
          length 0 =
        some ⟨0, chunks.flatten.take (data_length L) ++ buffer.drop (data_length L),
          data_length L, 2 + chunks.length, ev1⟩ ∧
      receive_data_frame k (deliver [[k.V850ESJx3L_STX, L], chunks.flatten]) stack2 fuel2 buffer
          length 0 =
        some ⟨0, chunks.flatten.take (data_length L) ++ buffer.drop (data_length L),
          data_length L, 2, ev2⟩ := by
  obtain ⟨ev, h⟩ := receive_whole_header k (deliver ([k.V850ESJx3L_STX, L] :: chunks)) stack fuel
    buffer length 0 L chunks rfl
    (fun i hi => by rw [show 0 + 1 + i = i + 1 by omega, deliver_succ]; exact deliver_lt _ i hi)
    hne hsum hf
  obtain ⟨ev1, h1⟩ := receive_split_header k (deliver ([k.V850ESJx3L_STX] :: [L] :: chunks))
    stack1 fuel1 buffer length 0 L chunks rfl rfl
    (fun i hi => by
      rw [show 0 + 2 + i = i + 1 + 1 by omega, deliver_succ, deliver_succ]
      exact deliver_lt _ i hi)
    hne hsum hf1
  have hpos : chunks.flatten ≠ [] := by
    intro h0
    rw [h0] at hsum
    simp at hsum
  obtain ⟨ev2, h2⟩ := receive_whole_header k (deliver [[k.V850ESJx3L_STX, L], chunks.flatten])
    stack2 fuel2 buffer length 0 L [chunks.flatten] rfl
    (fun i hi => by
      rw [show 0 + 1 + i = i + 1 by omega, deliver_succ]; exact deliver_lt _ i hi)
    (fun ch hch => by
      rw [List.mem_singleton] at hch
      rw [hch]; exact hpos)
    (by simpa using hsum) (by simpa using hf2)
  simp only [List.flatten_cons, List.flatten_nil, List.append_nil, List.length_singleton,
    Nat.zero_add] at h h1 h2
  exact ⟨ev, ev1, ev2, h, h1, h2⟩

/-- C8 on a frame with length code 3: the rest arrives as 1 + 2 + 2 bytes. -/
theorem reassembly_witness :
    ∃ ev ev1 ev2,
      receive_data_frame hdr (deliver [[0x02, 3], [6], [1, 2], [0xF4, 0x03]]) stack0 3
          [9, 9, 9, 9, 9] 77 0 = some ⟨0, [6, 1, 2, 9, 9], 3, 4, ev⟩ ∧
      receive_data_frame hdr (deliver [[0x02], [3], [6], [1, 2], [0xF4, 0x03]]) stack0 3
          [9, 9, 9, 9, 9] 77 0 = some ⟨0, [6, 1, 2, 9, 9], 3, 5, ev1⟩ ∧
      receive_data_frame hdr (deliver [[0x02, 3], [6, 1, 2, 0xF4, 0x03]]) stack0 1
          [9, 9, 9, 9, 9] 77 0 = some ⟨0, [6, 1, 2, 9, 9], 3, 2, ev2⟩ :=
  reassembly hdr 3 [[6], [1, 2], [0xF4, 0x03]] (by decide) (by decide) stack0 stack0 stack0 3 3 1
    (by decide) (by decide) (by decide) [9, 9, 9, 9, 9] 77

/-- C9. If the header read succeeds, after at most four stalls, with at
least one byte, and the first byte is not STX, then `receive_data_frame`
returns -1, its last transfer is that header read, and the caller's buffer and
length are as they were. -/
theorem start_marker_checked (k : Header) (t : Transport) (stack : Mem) (fuel : Nat)
    (buffer : List Byte) (length c n : Nat) (hn : n < 5)
    (hst : ∀ i, i < n → (t (c + i)).ret = LIBUSB_ERROR_PIPE)
    (hok : (t (c + n)).ret = LIBUSB_SUCCESS)
    (b : Byte) (rest : List Byte) (hdata : (t (c + n)).data = b :: rest)
    (hb : b ≠ k.V850ESJx3L_STX) :
    ∃ r, receive_data_frame k t stack fuel buffer length c = some r ∧
      r.ret = -1 ∧ r.buffer = buffer ∧ r.length = length ∧ r.calls = c + n + 1 ∧
      r.events = retry_events t ENDPOINT_IN [] 2 c n ∧
      r.events.getLast? = some (Event.bulk ENDPOINT_IN [] 2 V850J_TIMEOUT_MS LIBUSB_SUCCESS
        (b :: rest)) := by
  refine ⟨_, receive_bad_start k t stack fuel buffer length c n hn hst hok b rest hdata hb,
    rfl, rfl, rfl, rfl, rfl, ?_⟩
  show (retry_events t ENDPOINT_IN [] 2 c n).getLast? = _
  have hlast : ∀ (j c' : Nat), (t (c' + j)).ret ≠ LIBUSB_ERROR_PIPE →
      (retry_events t ENDPOINT_IN [] 2 c' j).getLast? =
        some (Event.bulk ENDPOINT_IN [] 2 V850J_TIMEOUT_MS (t (c' + j)).ret (t (c' + j)).data) := by
    intro j
    induction j with
    | zero =>
      intro c' h
      have h' : (t c').ret ≠ LIBUSB_ERROR_PIPE := h
      simp [retry_events, attempt_events, h']
    | succ j ih =>
      intro c' h
      rw [retry_events, List.getLast?_append]
      rw [show c' + (j + 1) = c' + 1 + j by omega] at h ⊢
      rw [ih (c' + 1) h]
      rfl
  rw [hlast n c (by rw [hok]; exact fun h => pipe_ne_success h.symm), hok, hdata]

/-- C9 on a response that starts with SOH instead of STX. -/
theorem start_marker_checked_witness :
    ∃ r, receive_data_frame hdr (script [⟨LIBUSB_ERROR_PIPE, []⟩, ⟨LIBUSB_SUCCESS, [0x01, 1]⟩,
        ⟨LIBUSB_SUCCESS, [6, 0xF9, 0x03]⟩]) stack0 1 [9, 9] 77 0 = some r ∧
      r.ret = -1 ∧ r.buffer = [9, 9] ∧ r.length = 77 ∧ r.calls = 0 + 1 + 1 ∧
      r.events = retry_events (script [⟨LIBUSB_ERROR_PIPE, []⟩, ⟨LIBUSB_SUCCESS, [0x01, 1]⟩,
        ⟨LIBUSB_SUCCESS, [6, 0xF9, 0x03]⟩]) ENDPOINT_IN [] 2 0 1 ∧
      r.events.getLast? = some (Event.bulk ENDPOINT_IN [] 2 V850J_TIMEOUT_MS LIBUSB_SUCCESS
        [0x01, 1]) :=
  start_marker_checked hdr (script [⟨LIBUSB_ERROR_PIPE, []⟩, ⟨LIBUSB_SUCCESS, [0x01, 1]⟩,
    ⟨LIBUSB_SUCCESS, [6, 0xF9, 0x03]⟩]) stack0 1 [9, 9] 77 0 1 (by decide) (by decide) rfl
    0x01 [1] rfl (by decide)

/-- C10, refuted: a frame whose last byte is not ETX and whose length code,
payload and checksum byte do not sum to zero is accepted, and its payload is
copied to the caller. -/
theorem trailer_not_checked :
    (0 : Byte) ≠ hdr.V850ESJx3L_ETX ∧ (1 + 6 + 0) % 256 ≠ 0 ∧
    receive_data_frame hdr (deliver [[0x02, 1], [6, 0, 0]]) stack0 1 [] 0 0 =
      some ⟨0, [6], 1, 2,
        [Event.bulk ENDPOINT_IN [] 2 4000 LIBUSB_SUCCESS [0x02, 1],
          Event.bulk ENDPOINT_IN [] 3 4000 LIBUSB_SUCCESS [6, 0, 0]]⟩ := by
  decide

/-- C10, amended. `receive_data_frame` checks the start marker only.  A frame
that starts with STX and a length code `L`, followed by `data_length L` payload
bytes and two more bytes, is accepted whatever these two bytes are: the call
returns 0 and copies the payload to the caller.  A frame whose first byte is
not STX is refused with -1 and nothing is copied. -/
theorem only_start_marker_checked (k : Header) (L : Byte) (payload : List Byte) (cks etx : Byte)
    (hp : payload.length = data_length L) (stack : Mem) (fuel : Nat) (hf : 1 ≤ fuel)
    (buffer : List Byte) (length : Nat) :
    (∃ ev, receive_data_frame k (deliver [[k.V850ESJx3L_STX, L], payload ++ [cks, etx]]) stack
        fuel buffer length 0 =
      some ⟨0, payload ++ buffer.drop payload.length, payload.length, 2, ev⟩) ∧
    (∀ b : Byte, b ≠ k.V850ESJx3L_STX →
      ∃ ev, receive_data_frame k (deliver [[b, L], payload ++ [cks, etx]]) stack fuel buffer
        length 0 = some ⟨-1, buffer, length, 1, ev⟩) := by
  constructor
  · obtain ⟨ev, h⟩ := receive_whole_header k
      (deliver [[k.V850ESJx3L_STX, L], payload ++ [cks, etx]]) stack fuel buffer length 0 L
      [payload ++ [cks, etx]] rfl
      (fun i hi => by
        rw [show 0 + 1 + i = i + 1 by omega, deliver_succ]; exact deliver_lt _ i hi)
      (fun ch hch => by
        rw [List.mem_singleton] at hch
        rw [hch]; simp)
      (by simp [hp]) (by simpa using hf)
    refine ⟨ev, ?_⟩
    rw [h, ← hp]
    simp
  · intro b hb
    exact ⟨_, receive_bad_start k _ stack fuel buffer length 0 0 (by decide)
      (fun i hi => absurd hi (Nat.not_lt_zero i)) rfl b [L] rfl hb⟩

/-- C10 amended, on a one-byte payload followed by two zero bytes. -/
theorem only_start_marker_checked_witness :
    (∃ ev, receive_data_frame hdr (deliver [[0x02, 1], [6] ++ [0, 0]]) stack0 1 [] 0 0 =
      some ⟨0, [6] ++ ([] : List Byte).drop 1, 1, 2, ev⟩) ∧
    (∀ b : Byte, b ≠ 0x02 →
      ∃ ev, receive_data_frame hdr (deliver [[b, 1], [6] ++ [0, 0]]) stack0 1 [] 0 0 =
        some ⟨-1, [], 0, 1, ev⟩) :=
  only_start_marker_checked hdr 1 [6] 0 0 (by decide) stack0 1 (by decide) [] 0

theorem command_frame_eq (k : Header) (stack : Mem) (command : Byte) (buffer : List Byte) :
    command_frame k stack command buffer =
      k.V850ESJx3L_SOH :: (if buffer.length = 255 then 0 else u8 (buffer.length + 1)) ::
        (command :: buffer ++
          [checksum ([if buffer.length = 255 then 0 else u8 (buffer.length + 1), command]
            ++ buffer), k.V850ESJx3L_ETX]) := by
  unfold command_frame
  rw [command_frame_buf_load]
  simp

/-- Read as the length code of a data frame, the length code of a command
frame with `n ≤ 255` payload bytes announces `n + 1` bytes. -/
theorem data_length_of_command (n : Nat) (h : n ≤ 255) :
    data_length (if n = 255 then 0 else u8 (n + 1)) = n + 1 := by
  unfold data_length
  by_cases h255 : n = 255
  · simp [h255]
  · rw [if_neg h255]
    have hv : (u8 (n + 1)).val = n + 1 := by
      show (n + 1) % 256 = n + 1
      omega
    rw [hv, if_neg (by omega)]

/-- C5, refuted: the bytes of the command frame for command `0x10` with
payload `5, 6, 7`, fed to `receive_data_frame`, are not decoded; the call
returns -1 after the header read. -/
theorem command_frame_not_decoded :
    command_frame hdr stack0 0x10 [5, 6, 7] = [0x01, 4, 0x10, 5, 6, 7, 218, 0x03] ∧
    receive_data_frame hdr (deliver [[0x01, 4], [0x10, 5, 6, 7, 218, 0x03]]) stack0 1 [] 0 0 =
      some ⟨-1, [], 0, 1, [Event.bulk ENDPOINT_IN [] 2 4000 LIBUSB_SUCCESS [0x01, 4]]⟩ := by
  decide

/-- C5, amended. Feed `receive_data_frame` the bytes of the command frame
that `send_command_frame` builds for a command `c` and a payload `p` of at most
255 bytes (two header bytes, then the rest).  When the command-frame marker SOH
differs from the data-frame marker STX the frame is refused: the call returns
-1 and copies nothing.  When the two markers are the same byte the frame is
accepted, and what is decoded is the length `len(p) + 1` and the payload `c`
followed by `p`: the length code of a command frame counts the command byte. -/
theorem command_frame_as_data_frame (k : Header) (stack : Mem) (command : Byte)
    (buffer : List Byte) (h : buffer.length ≤ 255) (stack1 : Mem) (fuel : Nat) (hf : 1 ≤ fuel)
    (buf : List Byte) (length : Nat) :
    (k.V850ESJx3L_SOH ≠ k.V850ESJx3L_STX →
      ∃ ev, receive_data_frame k
          (deliver [(command_frame k stack command buffer).take 2,
            (command_frame k stack command buffer).drop 2]) stack1 fuel buf length 0 =
        some ⟨-1, buf, length, 1, ev⟩) ∧
    (k.V850ESJx3L_SOH = k.V850ESJx3L_STX →
      ∃ ev, receive_data_frame k
          (deliver [(command_frame k stack command buffer).take 2,
            (command_frame k stack command buffer).drop 2]) stack1 fuel buf length 0 =
        some ⟨0, command :: buffer ++ buf.drop (buffer.length + 1), buffer.length + 1, 2,
          ev⟩) := by
  rw [command_frame_eq]
  generalize hlc : (if buffer.length = 255 then (0 : Byte) else u8 (buffer.length + 1)) = lc
  generalize checksum ([lc, command] ++ buffer) = cks
  have hdl : data_length lc = buffer.length + 1 := by
    rw [← hlc]; exact data_length_of_command _ h
  simp only [List.take_succ_cons, List.take_zero, List.drop_succ_cons, List.drop_zero]
  constructor
  · intro hne
    exact ⟨_, receive_bad_start k _ stack1 fuel buf length 0 0 (by decide)
      (fun i hi => absurd hi (Nat.not_lt_zero i)) rfl k.V850ESJx3L_SOH [lc] rfl hne⟩
  · intro heq
    rw [heq]
    obtain ⟨ev, hr⟩ := receive_whole_header k
      (deliver [[k.V850ESJx3L_STX, lc], command :: buffer ++ [cks, k.V850ESJx3L_ETX]])
      stack1 fuel buf length 0 lc [command :: buffer ++ [cks, k.V850ESJx3L_ETX]] rfl
      (fun i hi => by
        rw [show 0 + 1 + i = i + 1 by omega, deliver_succ]; exact deliver_lt _ i hi)
      (fun ch hch => by
        rw [List.mem_singleton] at hch
        rw [hch]; simp)
      (by simp [hdl]) (by simpa using hf)
    refine ⟨ev, ?_⟩
    rw [hr, hdl]
    have ht : List.take (buffer.length + 1)
        [command :: buffer ++ [cks, k.V850ESJx3L_ETX]].flatten = command :: buffer := by
      simp
    rw [ht]
    rfl

/-- C5 amended, at command `0x10` with payload `5, 6, 7`, with the sample
markers (SOH and STX differ) and with markers that coincide. -/
theorem command_frame_as_data_frame_witness :
    (∃ ev, receive_data_frame hdr (deliver [[0x01, 4], [0x10, 5, 6, 7, 218, 0x03]]) stack0 1
        [] 0 0 = some ⟨-1, [], 0, 1, ev⟩) ∧
    (∃ ev, receive_data_frame { hdr with V850ESJx3L_SOH := 0x02 }
        (deliver [[0x02, 4], [0x10, 5, 6, 7, 218, 0x03]]) stack0 1 [] 0 0 =
      some ⟨0, [0x10, 5, 6, 7], 4, 2, ev⟩) :=
  ⟨(command_frame_as_data_frame hdr stack0 0x10 [5, 6, 7] (by decide) stack0 1 (by decide)
      [] 0).1 (by decide),
    (command_frame_as_data_frame { hdr with V850ESJx3L_SOH := 0x02 } stack0 0x10 [5, 6, 7]
      (by decide) stack0 1 (by decide) [] 0).2 rfl⟩

/-- In a command frame, the bytes between the length code and the checksum
are the command code and the payload. -/
theorem command_frame_between (k : Header) (stack : Mem) (command : Byte) (buffer : List Byte) :
    (command_frame k stack command buffer)[1]? =
      some (if buffer.length = 255 then 0 else u8 (buffer.length + 1)) ∧
    ((command_frame k stack command buffer).drop 2).take
      ((command_frame k stack command buffer).length - 4) = command :: buffer := by
  rw [command_frame_eq]
  generalize (if buffer.length = 255 then (0 : Byte) else u8 (buffer.length + 1)) = lc
  generalize checksum ([lc, command] ++ buffer) = cks
  refine ⟨rfl, ?_⟩
  simp only [List.drop_succ_cons, List.drop_zero, List.length_cons, List.length_append,
    List.length_nil]
  rw [show buffer.length + (0 + 1 + 1) + 1 + 1 + 1 - 4 = (command :: buffer).length by
    simp only [List.length_cons]; omega]
  exact List.take_left' rfl

/-- C16, refuted: the command frame of a payload of 255 bytes has length code
0, and 256 bytes, not 255, stand between the length code and the checksum. -/
theorem full_frame_holds_256 :
    (command_frame hdr stack0 0x10 (List.replicate 255 7))[1]? = some 0 ∧
    (((command_frame hdr stack0 0x10 (List.replicate 255 7)).drop 2).take
      ((command_frame hdr stack0 0x10 (List.replicate 255 7)).length - 4)).length = 256 := by
  obtain ⟨h1, h2⟩ := command_frame_between hdr stack0 0x10 (List.replicate 255 7)
  rw [h1, h2, List.length_cons, List.length_replicate]
  exact ⟨rfl, rfl⟩

/-- C16, amended. In the command frame built for a payload of at most 255
bytes, the bytes between the length code and the checksum are the command code
followed by the payload; their number is the length code when the length code
is not 0, and 256 when the length code is 0. -/
theorem length_code_counts (k : Header) (stack : Mem) (command : Byte) (buffer : List Byte)
    (h : buffer.length ≤ 255) :
    ∃ lc : Byte, (command_frame k stack command buffer)[1]? = some lc ∧
      ((command_frame k stack command buffer).drop 2).take
        ((command_frame k stack command buffer).length - 4) = command :: buffer ∧
      (lc.val ≠ 0 → (command :: buffer).length = lc.val) ∧
      (lc.val = 0 → (command :: buffer).length = 256) := by
  obtain ⟨h1, h2⟩ := command_frame_between k stack command buffer
  have hdl := data_length_of_command buffer.length h
  generalize (if buffer.length = 255 then (0 : Byte) else u8 (buffer.length + 1)) = lc
    at hdl h1
  refine ⟨lc, h1, h2, ?_, ?_⟩
  · intro hne
    unfold data_length at hdl
    rw [if_neg hne] at hdl
    simp only [List.length_cons]
    omega
  · intro h0
    unfold data_length at hdl
    rw [if_pos h0] at hdl
    simp only [List.length_cons]
    omega

/-- C16 amended, at the payload `5, 6, 7`: four bytes for the length code 4. -/
theorem length_code_counts_witness :
    ∃ lc : Byte, (command_frame hdr stack0 0x10 [5, 6, 7])[1]? = some lc ∧
      ((command_frame hdr stack0 0x10 [5, 6, 7]).drop 2).take
        ((command_frame hdr stack0 0x10 [5, 6, 7]).length - 4) = [0x10, 5, 6, 7] ∧
      (lc.val ≠ 0 → ([0x10, 5, 6, 7] : List Byte).length = lc.val) ∧
      (lc.val = 0 → ([0x10, 5, 6, 7] : List Byte).length = 256) :=
  length_code_counts hdr stack0 0x10 [5, 6, 7] (by decide)

/-- C18. Replace the first byte of the command frame built for a command `c`
and a payload `p` of at most 255 bytes by STX, and deliver the result to
`receive_data_frame`: the two header bytes in one read, the rest cut into any
non-empty chunks.  The call returns 0, the length is `len(p) + 1` and the
payload is `c` followed by `p`; for `len(p) = 255` the length code 0 of the
command frame is read as 256. -/
theorem command_frame_with_stx (k : Header) (stack : Mem) (command : Byte)
    (buffer : List Byte) (h : buffer.length ≤ 255) (chunks : List (List Byte))
    (hne : ∀ ch ∈ chunks, ch ≠ [])
    (hflat : chunks.flatten =
      (k.V850ESJx3L_STX :: (command_frame k stack command buffer).drop 1).drop 2)
    (stack1 : Mem) (fuel : Nat) (hf : chunks.length ≤ fuel) (buf : List Byte) (length : Nat) :
    ∃ ev, receive_data_frame k
        (deliver ((k.V850ESJx3L_STX :: (command_frame k stack command buffer).drop 1).take 2
          :: chunks)) stack1 fuel buf length 0 =
      some ⟨0, command :: buffer ++ buf.drop (buffer.length + 1), buffer.length + 1,
        1 + chunks.length, ev⟩ := by
  rw [command_frame_eq] at hflat ⊢
  have hdl := data_length_of_command buffer.length h
  generalize (if buffer.length = 255 then (0 : Byte) else u8 (buffer.length + 1)) = lc
    at hdl hflat ⊢
  generalize checksum ([lc, command] ++ buffer) = cks at hflat ⊢
  simp only [List.take_succ_cons, List.take_zero, List.drop_succ_cons, List.drop_zero]
    at hflat ⊢
  obtain ⟨ev, hr⟩ := receive_whole_header k (deliver ([k.V850ESJx3L_STX, lc] :: chunks))
    stack1 fuel buf length 0 lc chunks rfl
    (fun i hi => by
      rw [show 0 + 1 + i = i + 1 by omega, deliver_succ]; exact deliver_lt _ i hi)
    hne (by rw [hflat, hdl]; simp) hf
  refine ⟨ev, ?_⟩
  rw [hr, hdl, hflat]
  have ht : List.take (buffer.length + 1) (command :: buffer ++ [cks, k.V850ESJx3L_ETX]) =
      command :: buffer := List.take_left' (by simp)
  rw [ht]

/-- C18 at command `0x10` with payload `5, 6, 7`, the rest in two chunks. -/
theorem command_frame_with_stx_witness :
    ∃ ev, receive_data_frame hdr (deliver [[0x02, 4], [0x10, 5], [6, 7, 218, 0x03]]) stack0 2
        [9] 0 0 = some ⟨0, [0x10, 5, 6, 7], 4, 3, ev⟩ :=
  command_frame_with_stx hdr stack0 0x10 [5, 6, 7] (by decide) [[0x10, 5], [6, 7, 218, 0x03]]
    (by decide) (by decide) stack0 2 (by decide) [9] 0

theorem stub_lt (writes : Nat) (chunks : List (List Byte)) (i : Nat) (h : i < writes) :
    stub writes chunks i = ⟨LIBUSB_SUCCESS, []⟩ := by
  unfold stub; rw [if_pos h]

theorem stub_ge (writes : Nat) (chunks : List (List Byte)) (i : Nat) :
    stub writes chunks (writes + i) = deliver chunks i := by
  unfold stub
  rw [if_neg (by omega), Nat.add_sub_cancel_left]

theorem deliver_append_left (a b : List (List Byte)) (i : Nat) (h : i < a.length) :
    deliver (a ++ b) i = ⟨LIBUSB_SUCCESS, a.getD i []⟩ := by
  rw [deliver_lt _ i (by rw [List.length_append]; omega)]
  congr 1
  simp [List.getD_eq_getElem?_getD, List.getElem?_append_left h]

theorem deliver_append_right (a b : List (List Byte)) (i : Nat) :
    deliver (a ++ b) (a.length + i) = deliver b i := by
  induction a with
  | nil => simp
  | cons x xs ih =>
    rw [List.cons_append, List.length_cons, show xs.length + 1 + i = (xs.length + i) + 1 by omega,
      deliver_succ, ih]

/-- Decoding of a frame that the transport delivers from transfer `c` on: the
header in one read of two bytes or in two reads of one byte, the rest in
non-empty chunks. -/
theorem receive_frame_at (k : Header) (t : Transport) (stack : Mem) (fuel : Nat)
    (buffer : List Byte) (length c : Nat) (L : Byte) (hs chunks : List (List Byte))
    (hhs : hs = [[k.V850ESJx3L_STX, L]] ∨ hs = [[k.V850ESJx3L_STX], [L]])
    (ht : ∀ i, i < (hs ++ chunks).length →
      t (c + i) = ⟨LIBUSB_SUCCESS, (hs ++ chunks).getD i []⟩)
    (hne : ∀ ch ∈ chunks, ch ≠ [])
    (hsum : chunks.flatten.length = data_length L + 2) (hfuel : chunks.length ≤ fuel) :
    ∃ ev, receive_data_frame k t stack fuel buffer length c =
      some ⟨0, chunks.flatten.take (data_length L) ++ buffer.drop (data_length L),
        data_length L, c + hs.length + chunks.length, ev⟩ := by
  rcases hhs with h | h
  · subst h
    have h0 := ht 0 (by simp)
    simp only [Nat.add_zero, List.cons_append, List.getD_cons_zero] at h0
    exact receive_whole_header k t stack fuel buffer length c L chunks h0
      (fun i hi => by
        have := ht (1 + i) (by simp; omega)
        rw [show c + 1 + i = c + (1 + i) by omega, this]
        simp [Nat.add_comm 1 i])
      hne hsum hfuel
  · subst h
    have h0 := ht 0 (by simp)
    have h1 := ht 1 (by simp)
    simp only [Nat.add_zero, List.cons_append, List.getD_cons_zero] at h0
    simp only [List.cons_append, List.getD_cons_succ, List.getD_cons_zero] at h1
    exact receive_split_header k t stack fuel buffer length c L chunks h0 h1
      (fun i hi => by
        have := ht (2 + i) (by simp; omega)
        rw [show c + 2 + i = c + (2 + i) by omega, this]
        simp [Nat.add_comm 2 i])
      hne hsum hfuel

/-- A command frame that the transport accepts at the first attempt. -/
theorem send_accepted (k : Header) (t : Transport) (stack : Mem) (command : Byte)
    (buffer : List Byte) (c : Nat) (h : (t c).ret = LIBUSB_SUCCESS) :
    send_command_frame k t stack command buffer c =
      ⟨0, c + 1, [Event.bulk ENDPOINT_OUT (command_frame k stack command buffer)
        (buffer.length + 5) V850J_TIMEOUT_MS LIBUSB_SUCCESS (t c).data]⟩ := by
  have hnp : (t c).ret ≠ LIBUSB_ERROR_PIPE := by
    rw [h]; exact fun h => pipe_ne_success h.symm
  unfold send_command_frame
  simp only [bulk_retry_once t ENDPOINT_OUT 0 (buffer.length + 5) _ c hnp, h]
  rw [if_neg (by simp)]
  simp [offered, command_frame, endpoint_out_writes]

theorem send_ret (k : Header) (t : Transport) (stack : Mem) (command : Byte)
    (buffer : List Byte) (c : Nat) :
    (send_command_frame k t stack command buffer c).ret = 0 ∨
      (send_command_frame k t stack command buffer c).ret = -1 := by
  unfold send_command_frame
  dsimp only
  split
  · exact Or.inr rfl
  · exact Or.inl rfl

/-- The shape of a successful result of `receive_data_frame`: the payload
copied to the caller is read from the frame buffer behind the header, and its
first byte is what the caller finds at `buffer[0]`. -/
theorem receive_ok_shape (k : Header) (t : Transport) (stack : Mem) (fuel : Nat)
    (buffer : List Byte) (length c : Nat) (r : Recv)
    (h : receive_data_frame k t stack fuel buffer length c = some r) (hret : r.ret = 0) :
    ∃ (B : Mem), 1 ≤ r.length ∧ r.length ≤ 256 ∧
      r.buffer = load B 2 r.length ++ buffer.drop r.length ∧
      (r.buffer.take r.length).head? = some (r.buffer.getD 0 0) := by
  have key : ∀ (buf : Mem) (c' : Nat) (ev : List Event),
      receive_payload t fuel buffer length buf c' ev = some r →
      ∃ (B : Mem), 1 ≤ r.length ∧ r.length ≤ 256 ∧
        r.buffer = load B 2 r.length ++ buffer.drop r.length ∧
        (r.buffer.take r.length).head? = some (r.buffer.getD 0 0) := by
    intro buf c' ev hp
    unfold receive_payload at hp
    dsimp only at hp
    split at hp
    · exact absurd hp (by simp)
    · rename_i y _
      split at hp
      · injection hp with hp
        subst hp
        exact absurd hret (by dsimp only; decide)
      · injection hp with hp
        subst hp
        dsimp only
        have hb := data_length_bounds (buf 1)
        unfold data_length at hb
        generalize (if (buf 1).val = 0 then 256 else (buf 1).val) = len at hb ⊢
        refine ⟨y.buf, hb.1, hb.2, rfl, ?_⟩
        obtain ⟨n, rfl⟩ : ∃ n, len = n + 1 := ⟨len - 1, by omega⟩
        rw [List.take_left' (length_load _ _ _), load_cons]
        rfl
  unfold receive_data_frame at h
  dsimp only at h
  split at h
  · injection h with h
    subst h
    exact absurd hret (by dsimp only; decide)
  · split at h
    · injection h with h
      subst h
      exact absurd hret (by dsimp only; decide)
    · split at h
      · split at h
        · injection h with h
          subst h
          exact absurd hret (by dsimp only; decide)
        · exact key _ _ _ h
      · exact key _ _ _ h

/-- C11, refuted: two devices that answer the silicon-signature command with
valid frames carrying different signatures make `v850j_get_silicon_signature`
return the same value, the integer 0: the signature is not what is returned. -/
theorem signature_not_returned :
    ([0x70, 0x79, 0x10, 0x00] : List Byte) ≠ [0x71, 0x79, 0x10, 0x00] ∧
    (v850j_get_silicon_signature hdr
      (stub 1 [[0x02, 1], [0x06, 0xF9, 0x03], [0x02, 4], [0x70, 0x79, 0x10, 0x00, 0x03, 0x03]])
      stack0 stack0 stack0 [] 0 1 0).map Sent.ret = some 0 ∧
    (v850j_get_silicon_signature hdr
      (stub 1 [[0x02, 1], [0x06, 0xF9, 0x03], [0x02, 4], [0x71, 0x79, 0x10, 0x00, 0x02, 0x03]])
      stack0 stack0 stack0 [] 0 1 0).map Sent.ret = some 0 := by
  decide

/-- C11, amended. Let the device accept the command frame and then deliver a
data frame whose first payload byte is ACK, followed by a data frame with
payload `s` (each header in one or two reads, each rest in non-empty chunks).
Then the second call of `receive_data_frame` made by
`v850j_get_silicon_signature` returns 0 and leaves exactly `s`, with its
length, in the local buffer of the function, and the function returns the
integer 0 to its caller; the signature itself is not part of what it returns. -/
theorem silicon_signature_exchange (k : Header) (L1 L2 : Byte)
    (hs1 chunks1 hs2 chunks2 : List (List Byte))
    (hhs1 : hs1 = [[k.V850ESJx3L_STX, L1]] ∨ hs1 = [[k.V850ESJx3L_STX], [L1]])
    (hhs2 : hs2 = [[k.V850ESJx3L_STX, L2]] ∨ hs2 = [[k.V850ESJx3L_STX], [L2]])
    (hne1 : ∀ ch ∈ chunks1, ch ≠ []) (hne2 : ∀ ch ∈ chunks2, ch ≠ [])
    (rest1 : List Byte) (hflat1 : chunks1.flatten = k.V850ESJx3L_STATUS_ACK :: rest1)
    (hsum1 : chunks1.flatten.length = data_length L1 + 2)
    (s : List Byte) (cks etx : Byte) (hflat2 : chunks2.flatten = s ++ [cks, etx])
    (hs : s.length = data_length L2)
    (ss sr sr2 : Mem) (buf : List Byte) (len fuel : Nat)
    (hf1 : chunks1.length ≤ fuel) (hf2 : chunks2.length ≤ fuel) :
    ∃ r1 r2 ev,
      receive_data_frame k (stub 1 (hs1 ++ chunks1 ++ (hs2 ++ chunks2))) sr fuel buf len 1 =
        some r1 ∧
      receive_data_frame k (stub 1 (hs1 ++ chunks1 ++ (hs2 ++ chunks2))) sr2 fuel r1.buffer
        r1.length r1.calls = some r2 ∧
      r2.ret = 0 ∧ r2.length = s.length ∧ r2.buffer.take r2.length = s ∧
      v850j_get_silicon_signature k (stub 1 (hs1 ++ chunks1 ++ (hs2 ++ chunks2))) ss sr sr2 buf
        len fuel 0 = some ⟨0, r2.calls, ev⟩ := by
  generalize ht : stub 1 (hs1 ++ chunks1 ++ (hs2 ++ chunks2)) = t
  have hsend : (t 0).ret = LIBUSB_SUCCESS := by
    rw [← ht, stub_lt _ _ 0 (by omega)]
  obtain ⟨ev1, h1⟩ := receive_frame_at k t sr fuel buf len 1 L1 hs1 chunks1 hhs1
    (fun i hi => by rw [← ht, stub_ge, deliver_append_left _ _ i hi]) hne1 hsum1 hf1
  have hdl1 := (data_length_bounds L1).1
  have hack : (chunks1.flatten.take (data_length L1) ++ buf.drop (data_length L1)).getD 0 0 =
      k.V850ESJx3L_STATUS_ACK := by
    rw [hflat1]
    obtain ⟨n, hn⟩ : ∃ n, data_length L1 = n + 1 := ⟨data_length L1 - 1, by omega⟩
    rw [hn]
    rfl
  obtain ⟨ev2, h2⟩ := receive_frame_at k t sr2 fuel
    (chunks1.flatten.take (data_length L1) ++ buf.drop (data_length L1)) (data_length L1)
    (1 + hs1.length + chunks1.length) L2 hs2 chunks2 hhs2
    (fun i hi => by
      rw [← ht, show 1 + hs1.length + chunks1.length + i = 1 + ((hs1 ++ chunks1).length + i) by
        rw [List.length_append]; omega, stub_ge, deliver_append_right, deliver_lt _ i hi])
    hne2 (by rw [hflat2, ← hs]; simp) hf2
  have hfin : ∃ ev, v850j_get_silicon_signature k t ss sr sr2 buf len fuel 0 =
      some ⟨0, 1 + hs1.length + chunks1.length + hs2.length + chunks2.length, ev⟩ := by
    unfold v850j_get_silicon_signature
    simp only [send_accepted k t ss k.V850ESJx3L_SILICON_SIGNATURE [] 0 hsend]
    rw [if_neg (by simp)]
    simp only [Nat.zero_add, h1, h2, hack]
    rw [if_neg (by simp), if_neg (by simp), if_neg (by simp)]
    exact ⟨_, rfl⟩
  obtain ⟨ev, hfin⟩ := hfin
  refine ⟨_, _, ev, h1, h2, rfl, hs.symm, ?_, hfin⟩
  dsimp only
  rw [hflat2, ← hs, List.take_append_of_le_length (by simp), List.take_left' rfl]
  exact List.take_length s

/-- C11 amended, on the signature `70 79 10 00`: the second header arrives in
two reads and the signature frame in two chunks. -/
theorem silicon_signature_exchange_witness :
    ∃ r1 r2 ev,
      receive_data_frame hdr
        (stub 1 ([[0x02, 1]] ++ [[0x06, 0xF9, 0x03]] ++
          ([[0x02], [4]] ++ [[0x70, 0x79], [0x10, 0x00, 0x03, 0x03]])))
        stack0 2 [] 0 1 = some r1 ∧
      receive_data_frame hdr
        (stub 1 ([[0x02, 1]] ++ [[0x06, 0xF9, 0x03]] ++
          ([[0x02], [4]] ++ [[0x70, 0x79], [0x10, 0x00, 0x03, 0x03]])))
        stack0 2 r1.buffer r1.length r1.calls = some r2 ∧
      r2.ret = 0 ∧ r2.length = ([0x70, 0x79, 0x10, 0x00] : List Byte).length ∧
      r2.buffer.take r2.length = [0x70, 0x79, 0x10, 0x00] ∧
      v850j_get_silicon_signature hdr
        (stub 1 ([[0x02, 1]] ++ [[0x06, 0xF9, 0x03]] ++
          ([[0x02], [4]] ++ [[0x70, 0x79], [0x10, 0x00, 0x03, 0x03]])))
        stack0 stack0 stack0 [] 0 2 0 = some ⟨0, r2.calls, ev⟩ :=
  silicon_signature_exchange hdr 1 4 [[0x02, 1]] [[0x06, 0xF9, 0x03]] [[0x02], [4]]
    [[0x70, 0x79], [0x10, 0x00, 0x03, 0x03]] (Or.inl rfl) (Or.inr rfl) (by decide) (by decide)
    [0xF9, 0x03] rfl (by decide) [0x70, 0x79, 0x10, 0x00] 0x03 0x03 rfl (by decide)
    stack0 stack0 stack0 [] 0 2 (by decide) (by decide)

/-- C13. Let the device accept the two pulse bytes and the RESET command
frame and then deliver a data frame whose first payload byte is `b` (header in
one or two reads, the rest in non-empty chunks).  When `b` is ACK
`v850j_reset` returns 0 and reports nothing.  When `b` is any other byte it
returns -1, and the error it reports, `no ACK`, carries exactly the byte `b`. -/
theorem reset_acknowledged (k : Header) (L b : Byte) (hs chunks : List (List Byte))
    (hhs : hs = [[k.V850ESJx3L_STX, L]] ∨ hs = [[k.V850ESJx3L_STX], [L]])
    (hne : ∀ ch ∈ chunks, ch ≠ []) (rest : List Byte) (hflat : chunks.flatten = b :: rest)
    (hsum : chunks.flatten.length = data_length L + 2)
    (tCOM t12 t2C : Nat) (ss sr : Mem) (buf : List Byte) (len fuel : Nat)
    (hf : chunks.length ≤ fuel) :
    (∃ ev, v850j_reset k (stub 3 (hs ++ chunks)) tCOM t12 t2C ss sr buf len fuel 0 =
      some ⟨if b = k.V850ESJx3L_STATUS_ACK then 0 else -1, 3 + hs.length + chunks.length, ev⟩) ∧
    v850j_reset_stderr k (stub 3 (hs ++ chunks)) ss sr buf len fuel 0 =
      some (if b = k.V850ESJx3L_STATUS_ACK then [] else [Diag.no_ack b]) := by
  generalize ht : stub 3 (hs ++ chunks) = t
  have h0 : (t 0).ret = LIBUSB_SUCCESS := by rw [← ht, stub_lt _ _ 0 (by omega)]
  have h1 : (t 1).ret = LIBUSB_SUCCESS := by rw [← ht, stub_lt _ _ 1 (by omega)]
  have h2 : (t 2).ret = LIBUSB_SUCCESS := by rw [← ht, stub_lt _ _ 2 (by omega)]
  have hnp : ∀ i, (t i).ret = LIBUSB_SUCCESS → (t i).ret ≠ LIBUSB_ERROR_PIPE := by
    intro i hi; rw [hi]; exact fun h => pipe_ne_success h.symm
  obtain ⟨ev1, hr⟩ := receive_frame_at k t sr fuel buf len 3 L hs chunks hhs
    (fun i hi => by rw [← ht, stub_ge, deliver_lt _ i hi]) hne hsum hf
  have hdl := (data_length_bounds L).1
  have hb0 : (chunks.flatten.take (data_length L) ++ buf.drop (data_length L)).getD 0 0 = b := by
    rw [hflat]
    obtain ⟨n, hn⟩ : ∃ n, data_length L = n + 1 := ⟨data_length L - 1, by omega⟩
    rw [hn]
    rfl
  constructor
  · unfold v850j_reset
    simp only [bulk_retry_once t ENDPOINT_OUT 0 1 _ 0 (hnp 0 h0), h0,
      bulk_retry_once t ENDPOINT_OUT 0 1 _ (0 + 1) (hnp 1 h1), h1,
      send_accepted k t ss k.V850ESJx3L_RESET [] (0 + 1 + 1) h2, hr, hb0]
    rw [if_neg (by simp), if_neg (by simp), if_neg (by simp), if_neg (by simp)]
    by_cases hb : b = k.V850ESJx3L_STATUS_ACK
    · rw [if_neg (not_not.mpr hb), if_pos hb]
      exact ⟨_, rfl⟩
    · rw [if_pos hb, if_neg hb]
      exact ⟨_, rfl⟩
  · unfold v850j_reset_stderr
    simp only [bulk_retry_once t ENDPOINT_OUT 0 1 _ 0 (hnp 0 h0), h0,
      bulk_retry_once t ENDPOINT_OUT 0 1 _ (0 + 1) (hnp 1 h1), h1,
      send_accepted k t ss k.V850ESJx3L_RESET [] (0 + 1 + 1) h2, hr, hb0]
    rw [if_neg (by simp), if_neg (by simp), if_neg (by simp), if_neg (by simp)]
    by_cases hb : b = k.V850ESJx3L_STATUS_ACK
    · rw [if_neg (not_not.mpr hb), if_pos hb]
    · rw [if_pos hb, if_neg hb]

/-- C13 on a device that answers RESET with the status byte `0x15`. -/
theorem reset_acknowledged_witness :
    (∃ ev, v850j_reset hdr (stub 3 ([[0x02, 1]] ++ [[0x15, 0xEA, 0x03]])) 46 1500 1500
        stack0 stack0 [] 0 1 0 = some ⟨-1, 5, ev⟩) ∧
    v850j_reset_stderr hdr (stub 3 ([[0x02, 1]] ++ [[0x15, 0xEA, 0x03]])) stack0 stack0 [] 0 1 0 =
      some [Diag.no_ack 0x15] :=
  reset_acknowledged hdr 1 0x15 [[0x02, 1]] [[0x15, 0xEA, 0x03]] (Or.inl rfl) (by decide)
    [0xEA, 0x03] rfl (by decide) 46 1500 1500 stack0 stack0 [] 0 1 (by decide)

/-- A pulse write of `v850j_reset`: `j + 1` attempts, the first `j` stalled. -/
theorem pulse_run (t : Transport) (c : Nat) :
    ∃ j, j < 5 ∧ (∀ i, i < j → (t (c + i)).ret = LIBUSB_ERROR_PIPE) ∧
      bulk_retry t ENDPOINT_OUT 0 1 RETRY_MAX 0 (fun _ => 0x00) c =
        { ret := (t (c + j)).ret, transferred := (t (c + j)).data.length,
          buf := fun _ => 0x00, calls := c + j + 1,
          events := retry_events t ENDPOINT_OUT [0x00] 1 c j } := by
  obtain ⟨j, B, h1, h2, _, _, _, h6⟩ := bulk_retry_run t ENDPOINT_OUT 0 1 (fun _ => 0x00) c
  refine ⟨j, h1, h2, ?_⟩
  rw [h6, if_neg endpoint_out_writes]
  rfl

/-- The write of a command frame: `j + 1` attempts, the first `j` stalled;
the result is 0 when the last attempt succeeded and -1 otherwise. -/
theorem send_command_frame_run (k : Header) (t : Transport) (stack : Mem) (command : Byte)
    (buffer : List Byte) (c : Nat) :
    ∃ j, j < 5 ∧ (∀ i, i < j → (t (c + i)).ret = LIBUSB_ERROR_PIPE) ∧
      send_command_frame k t stack command buffer c =
        ⟨if (t (c + j)).ret = LIBUSB_SUCCESS then 0 else -1, c + j + 1,
          retry_events t ENDPOINT_OUT (command_frame k stack command buffer)
            (buffer.length + 5) c j⟩ := by
  obtain ⟨j, B, h1, h2, _, _, _, h6⟩ := bulk_retry_run t ENDPOINT_OUT 0 (buffer.length + 5)
    (command_frame_buf k stack command buffer) c
  refine ⟨j, h1, h2, ?_⟩
  unfold send_command_frame
  simp only [h6]
  have ho : offered ENDPOINT_OUT (command_frame_buf k stack command buffer) 0
      (buffer.length + 5) = command_frame k stack command buffer := by
    unfold offered command_frame
    rw [if_neg endpoint_out_writes]
  rw [ho]
  by_cases hs : (t (c + j)).ret = LIBUSB_SUCCESS
  · rw [if_neg (not_not.mpr hs), if_pos hs]
  · rw [if_pos hs, if_neg hs]

theorem read_loop_reads (t : Transport) (off length : Nat) (buf : Mem) (c : Nat) :
    ∀ e ∈ (bulk_retry t ENDPOINT_IN off length RETRY_MAX 0 buf c).events, is_read e := by
  obtain ⟨j, B, _, _, _, _, _, h6⟩ := bulk_retry_run t ENDPOINT_IN off length buf c
  rw [h6]
  intro e he
  have ho : offered ENDPOINT_IN buf off length = [] := by
    unfold offered; rw [if_pos endpoint_in_reads]
  rw [ho] at he
  rcases mem_retry_events he with he | ⟨i, _, he⟩
  · exact Or.inl he
  · exact Or.inr ⟨length, t (c + i), he⟩

theorem payload_loop_reads (t : Transport) (len : Nat) :
    ∀ (fuel received : Nat) (buf : Mem) (c : Nat) (y : Xfer),
      payload_loop t len fuel received buf c = some y → ∀ e ∈ y.events, is_read e := by
  intro fuel
  induction fuel with
  | zero => intro received buf c y h; simp [payload_loop] at h
  | succ fuel ih =>
    intro received buf c y h
    have hx := read_loop_reads t (2 + received) (len + 2 - received) buf c
    by_cases hok : (bulk_retry t ENDPOINT_IN (2 + received) (len + 2 - received) RETRY_MAX 0 buf
        c).ret = LIBUSB_SUCCESS
    · by_cases hlt : received + (bulk_retry t ENDPOINT_IN (2 + received) (len + 2 - received)
          RETRY_MAX 0 buf c).transferred < len + 2
      · rw [payload_loop_more t len fuel received buf c hok hlt] at h
        split at h
        · exact absurd h (by simp)
        · rename_i z hz
          injection h with h
          subst h
          intro e he
          rcases List.mem_append.mp he with he | he
          · exact hx e he
          · exact ih _ _ _ _ hz e he
      · rw [payload_loop_done t len fuel received buf c hok hlt] at h
        injection h with h
        subst h
        exact hx
    · rw [payload_loop_fail t len fuel received buf c hok] at h
      injection h with h
      subst h
      exact hx

/-- Every action of `receive_data_frame` is a read. -/
theorem receive_reads (k : Header) (t : Transport) (stack : Mem) (fuel : Nat)
    (buffer : List Byte) (length c : Nat) (r : Recv)
    (h : receive_data_frame k t stack fuel buffer length c = some r) :
    ∀ e ∈ r.events, is_read e := by
  have key : ∀ (buf : Mem) (c' : Nat) (ev : List Event), (∀ e ∈ ev, is_read e) →
      receive_payload t fuel buffer length buf c' ev = some r → ∀ e ∈ r.events, is_read e := by
    intro buf c' ev hev hp
    unfold receive_payload at hp
    dsimp only at hp
    split at hp
    · exact absurd hp (by simp)
    · rename_i y hy
      have hy' := payload_loop_reads t _ fuel 0 buf c' y hy
      split at hp <;>
      · injection hp with hp
        subst hp
        intro e he
        rcases List.mem_append.mp he with he | he
        · exact hev e he
        · exact hy' e he
  have hx := read_loop_reads t 0 2 stack c
  unfold receive_data_frame at h
  dsimp only at h
  split at h
  · injection h with h
    subst h
    exact hx
  · split at h
    · injection h with h
      subst h
      exact hx
    · split at h
      · have hy := read_loop_reads t 1 1 (bulk_retry t ENDPOINT_IN 0 2 RETRY_MAX 0 stack c).buf
          (bulk_retry t ENDPOINT_IN 0 2 RETRY_MAX 0 stack c).calls
        have hxy : ∀ e ∈ (bulk_retry t ENDPOINT_IN 0 2 RETRY_MAX 0 stack c).events ++
            (bulk_retry t ENDPOINT_IN 1 1 RETRY_MAX 0
              (bulk_retry t ENDPOINT_IN 0 2 RETRY_MAX 0 stack c).buf
              (bulk_retry t ENDPOINT_IN 0 2 RETRY_MAX 0 stack c).calls).events, is_read e := by
          intro e he
          rcases List.mem_append.mp he with he | he
          · exact hx e he
          · exact hy e he
        split at h
        · injection h with h
          subst h
          exact hxy
        · exact key _ _ _ hxy h
      · exact key _ _ _ hx h

/-- C14. In every run of `v850j_reset` that returns, the actions are, in
this order and with nothing else: `usleep(tCOM)`; the write of the single byte
`0x00` on the out endpoint; `usleep(t12)`; the write of the single byte `0x00`
again; `usleep(t2C)`; the write of the five bytes `SOH, 1, RESET, checksum,
ETX`; then reads on the in endpoint.  Each write is a retry loop in which only
stalled attempts are repeated.  When a write fails the function returns -1 and
the actions end with that write; when the frame read fails it returns -1. -/
theorem reset_sequencing (k : Header) (t : Transport) (tCOM t12 t2C : Nat) (ss sr : Mem)
    (buf : List Byte) (len fuel c : Nat) (R : Sent)
    (h : v850j_reset k t tCOM t12 t2C ss sr buf len fuel c = some R) :
    command_frame k ss k.V850ESJx3L_RESET [] =
      [k.V850ESJx3L_SOH, 1, k.V850ESJx3L_RESET, checksum [1, k.V850ESJx3L_RESET],
        k.V850ESJx3L_ETX] ∧
    ∃ j1 j2 j3, j1 < 5 ∧ j2 < 5 ∧ j3 < 5 ∧
      (∀ i, i < j1 → (t (c + i)).ret = LIBUSB_ERROR_PIPE) ∧
      (((t (c + j1)).ret ≠ LIBUSB_SUCCESS ∧ R = ⟨-1, c + j1 + 1, reset_stage1 t tCOM c j1⟩) ∨
       ((t (c + j1)).ret = LIBUSB_SUCCESS ∧
        (∀ i, i < j2 → (t (c + j1 + 1 + i)).ret = LIBUSB_ERROR_PIPE) ∧
        (((t (c + j1 + 1 + j2)).ret ≠ LIBUSB_SUCCESS ∧
          R = ⟨-1, c + j1 + 1 + j2 + 1, reset_stage2 t tCOM t12 c j1 j2⟩) ∨
         ((t (c + j1 + 1 + j2)).ret = LIBUSB_SUCCESS ∧
          (∀ i, i < j3 → (t (c + j1 + 1 + j2 + 1 + i)).ret = LIBUSB_ERROR_PIPE) ∧
          (((t (c + j1 + 1 + j2 + 1 + j3)).ret ≠ LIBUSB_SUCCESS ∧
            R = ⟨-1, c + j1 + 1 + j2 + 1 + j3 + 1,
              reset_stage3 k t tCOM t12 t2C ss c j1 j2 j3⟩) ∨
           ((t (c + j1 + 1 + j2 + 1 + j3)).ret = LIBUSB_SUCCESS ∧
            ∃ r, receive_data_frame k t sr fuel buf len (c + j1 + 1 + j2 + 1 + j3 + 1) =
                some r ∧
              R.events = reset_stage3 k t tCOM t12 t2C ss c j1 j2 j3 ++ r.events ∧
              R.calls = r.calls ∧ (∀ e ∈ r.events, is_read e) ∧
              (R.ret = 0 ∨ R.ret = -1) ∧ (r.ret ≠ 0 → R.ret = -1))))))) := by
  refine ⟨by rw [command_frame_eq]; rfl, ?_⟩
  obtain ⟨j1, hj1, hst1, e1⟩ := pulse_run t c
  obtain ⟨j2, hj2, hst2, e2⟩ := pulse_run t (c + j1 + 1)
  obtain ⟨j3, hj3, hst3, e3⟩ := send_command_frame_run k t ss k.V850ESJx3L_RESET []
    (c + j1 + 1 + j2 + 1)
  unfold v850j_reset at h
  simp only [e1, e2, e3] at h
  by_cases h1 : (t (c + j1)).ret = LIBUSB_SUCCESS
  · rw [if_neg (not_not.mpr h1)] at h
    by_cases h2 : (t (c + j1 + 1 + j2)).ret = LIBUSB_SUCCESS
    · rw [if_neg (not_not.mpr h2)] at h
      by_cases h3 : (t (c + j1 + 1 + j2 + 1 + j3)).ret = LIBUSB_SUCCESS
      · refine ⟨j1, j2, j3, hj1, hj2, hj3, hst1, Or.inr ⟨h1, hst2, Or.inr ⟨h2, hst3,
          Or.inr ⟨h3, ?_⟩⟩⟩⟩
        rw [if_pos h3, if_neg (by simp)] at h
        split at h
        · exact absurd h (by simp)
        · rename_i r hr
          obtain ⟨_, hrr⟩ := disciplined_receive k t sr fuel buf len _ r hr
          refine ⟨r, hr, ?_⟩
          have hreads := receive_reads k t sr fuel buf len _ r hr
          split at h
          · rename_i hne
            injection h with h
            subst h
            rcases hrr with hrr | hrr
            · exact absurd hrr hne
            · exact ⟨rfl, rfl, hreads, Or.inr hrr, fun _ => hrr⟩
          · rename_i h0
            split at h
            · injection h with h
              subst h
              exact ⟨rfl, rfl, hreads, Or.inr rfl, fun _ => rfl⟩
            · injection h with h
              subst h
              exact ⟨rfl, rfl, hreads, Or.inl rfl, fun hne => absurd (not_not.mp h0) hne⟩
      · refine ⟨j1, j2, j3, hj1, hj2, hj3, hst1, Or.inr ⟨h1, hst2, Or.inr ⟨h2, hst3,
          Or.inl ⟨h3, ?_⟩⟩⟩⟩
        rw [if_neg h3, if_pos (by decide)] at h
        injection h with h
        subst h
        rfl
    · refine ⟨j1, j2, 0, hj1, hj2, by omega, hst1, Or.inr ⟨h1, hst2, Or.inl ⟨h2, ?_⟩⟩⟩
      rw [if_pos h2] at h
      injection h with h
      subst h
      rfl
  · refine ⟨j1, 0, 0, hj1, by omega, by omega, hst1, Or.inl ⟨h1, ?_⟩⟩
    rw [if_pos h1] at h
    injection h with h
    subst h
    rfl

/-- C14 on a run in which the second pulse write stalls once and the device
then acknowledges the RESET command: the run returns 0 after six transfers,
and its command frame is `01 01 00 FF 03`. -/
theorem reset_sequencing_witness :
    v850j_reset hdr
        (script [⟨0, []⟩, ⟨-9, []⟩, ⟨0, []⟩, ⟨0, []⟩, ⟨0, [0x02, 1]⟩, ⟨0, [0x06, 0xF9, 0x03]⟩])
        46 1500 1500 stack0 stack0 [] 0 1 0 =
      some ⟨0, 6,
        [Event.usleep 46, Event.bulk 2 [0] 1 4000 0 [], Event.usleep 1500,
          Event.bulk 2 [0] 1 4000 (-9) [], Event.clear_halt 2,
          Event.bulk 2 [0] 1 4000 0 [], Event.usleep 1500,
          Event.bulk 2 [1, 1, 0, 255, 3] 5 4000 0 [],
          Event.bulk 129 [] 2 4000 0 [2, 1],
          Event.bulk 129 [] 3 4000 0 [6, 249, 3]]⟩ ∧
    command_frame hdr stack0 hdr.V850ESJx3L_RESET [] =
      [hdr.V850ESJx3L_SOH, 1, hdr.V850ESJx3L_RESET, checksum [1, hdr.V850ESJx3L_RESET],
        hdr.V850ESJx3L_ETX] :=
  ⟨by decide,
    (reset_sequencing hdr
      (script [⟨0, []⟩, ⟨-9, []⟩, ⟨0, []⟩, ⟨0, []⟩, ⟨0, [0x02, 1]⟩, ⟨0, [0x06, 0xF9, 0x03]⟩])
      46 1500 1500 stack0 stack0 [] 0 1 0
      ⟨0, 6,
        [Event.usleep 46, Event.bulk 2 [0] 1 4000 0 [], Event.usleep 1500,
          Event.bulk 2 [0] 1 4000 (-9) [], Event.clear_halt 2,
          Event.bulk 2 [0] 1 4000 0 [], Event.usleep 1500,
          Event.bulk 2 [1, 1, 0, 255, 3] 5 4000 0 [],
          Event.bulk 129 [] 2 4000 0 [2, 1],
          Event.bulk 129 [] 3 4000 0 [6, 249, 3]]⟩
      (by decide)).1⟩

/-- A retry loop makes at most `RETRY_MAX` attempts, and when it succeeds on
a transport whose successful reads deliver something, it has transferred at
least one byte. -/
theorem retry_calls_progress (t : Transport) (ep : Byte) (off length : Nat) (buf : Mem)
    (c : Nat) :
    (bulk_retry t ep off length RETRY_MAX 0 buf c).calls ≤ c + 5 ∧
    ((∀ i, (t i).ret = LIBUSB_SUCCESS → 1 ≤ (t i).data.length) →
      (bulk_retry t ep off length RETRY_MAX 0 buf c).ret = LIBUSB_SUCCESS →
      1 ≤ (bulk_retry t ep off length RETRY_MAX 0 buf c).transferred) := by
  obtain ⟨j, B, hj, _, _, _, _, h6⟩ := bulk_retry_run t ep off length buf c
  rw [h6]
  have : j < 5 := hj
  exact ⟨by show c + j + 1 ≤ c + 5; omega, fun hp hok => hp _ hok⟩

/-- The payload loop ends within as many iterations as bytes are missing,
when every successful read delivers at least one byte. -/
theorem payload_loop_terminates (t : Transport) (len : Nat)
    (hprog : ∀ i, (t i).ret = LIBUSB_SUCCESS → 1 ≤ (t i).data.length) :
    ∀ (n received : Nat) (buf : Mem) (c : Nat), received < len + 2 →
      len + 2 - received ≤ n →
      ∃ y, (∀ fuel, n ≤ fuel → payload_loop t len fuel received buf c = some y) ∧
        y.calls ≤ c + 5 * n := by
  intro n
  induction n with
  | zero => intro received buf c h1 h2; omega
  | succ n ih =>
    intro received buf c hrec hn
    obtain ⟨hcalls, hpr⟩ := retry_calls_progress t ENDPOINT_IN (2 + received)
      (len + 2 - received) buf c
    by_cases hok : (bulk_retry t ENDPOINT_IN (2 + received) (len + 2 - received) RETRY_MAX 0 buf
        c).ret = LIBUSB_SUCCESS
    · have htr := hpr hprog hok
      by_cases hlt : received + (bulk_retry t ENDPOINT_IN (2 + received) (len + 2 - received)
          RETRY_MAX 0 buf c).transferred < len + 2
      · obtain ⟨y, hy, hyc⟩ := ih _
          (bulk_retry t ENDPOINT_IN (2 + received) (len + 2 - received) RETRY_MAX 0 buf c).buf
          (bulk_retry t ENDPOINT_IN (2 + received) (len + 2 - received) RETRY_MAX 0 buf c).calls
          hlt (by omega)
        refine ⟨{ y with events := (bulk_retry t ENDPOINT_IN (2 + received)
          (len + 2 - received) RETRY_MAX 0 buf c).events ++ y.events }, ?_, ?_⟩
        · intro fuel hf
          obtain ⟨f, rfl⟩ : ∃ f, fuel = f + 1 := ⟨fuel - 1, by omega⟩
          rw [payload_loop_more t len f received buf c hok hlt, hy f (by omega)]
        · show y.calls ≤ c + 5 * (n + 1)
          omega
      · refine ⟨{ bulk_retry t ENDPOINT_IN (2 + received) (len + 2 - received) RETRY_MAX 0 buf c
          with ret := 0, transferred := received + (bulk_retry t ENDPOINT_IN (2 + received)
            (len + 2 - received) RETRY_MAX 0 buf c).transferred }, ?_, ?_⟩
        · intro fuel hf
          obtain ⟨f, rfl⟩ : ∃ f, fuel = f + 1 := ⟨fuel - 1, by omega⟩
          exact payload_loop_done t len f received buf c hok hlt
        · show (bulk_retry t ENDPOINT_IN (2 + received) (len + 2 - received) RETRY_MAX 0 buf
            c).calls ≤ c + 5 * (n + 1)
          omega
    · refine ⟨{ bulk_retry t ENDPOINT_IN (2 + received) (len + 2 - received) RETRY_MAX 0 buf c
        with ret := -1, transferred := received }, ?_, ?_⟩
      · intro fuel hf
        obtain ⟨f, rfl⟩ : ∃ f, fuel = f + 1 := ⟨fuel - 1, by omega⟩
        exact payload_loop_fail t len f received buf c hok
      · show (bulk_retry t ENDPOINT_IN (2 + received) (len + 2 - received) RETRY_MAX 0 buf
          c).calls ≤ c + 5 * (n + 1)
        omega

/-- The payload loop never ends when every read succeeds without delivering
a byte. -/
theorem payload_loop_diverges (t : Transport) (len : Nat)
    (hz : ∀ i, 1 ≤ i → t i = ⟨LIBUSB_SUCCESS, []⟩) :
    ∀ (fuel received : Nat) (buf : Mem) (c : Nat), 1 ≤ c → received < len + 2 →
      payload_loop t len fuel received buf c = none := by
  intro fuel
  induction fuel with
  | zero => intro received buf c _ _; rfl
  | succ fuel ih =>
    intro received buf c hc hrec
    have ht := hz c hc
    have hnp : (t c).ret ≠ LIBUSB_ERROR_PIPE := by
      rw [ht]; exact fun h => pipe_ne_success h.symm
    have hx := bulk_retry_once t ENDPOINT_IN (2 + received) (len + 2 - received) buf c hnp
    rw [ht] at hx
    dsimp only at hx
    have hok : (bulk_retry t ENDPOINT_IN (2 + received) (len + 2 - received) RETRY_MAX 0 buf
        c).ret = LIBUSB_SUCCESS := by rw [hx]
    have hlt : received + (bulk_retry t ENDPOINT_IN (2 + received) (len + 2 - received)
        RETRY_MAX 0 buf c).transferred < len + 2 := by
      rw [hx]; exact hrec
    rw [payload_loop_more t len fuel received buf c hok hlt, hx]
    dsimp only
    rw [List.length_nil, Nat.add_zero, ih received _ (c + 1) (by omega) hrec]

theorem receive_payload_terminates (t : Transport)
    (hprog : ∀ i, (t i).ret = LIBUSB_SUCCESS → 1 ≤ (t i).data.length)
    (buffer : List Byte) (length : Nat) (buf : Mem) (c : Nat) (ev : List Event) :
    ∃ r, (∀ fuel, 258 ≤ fuel → receive_payload t fuel buffer length buf c ev = some r) ∧
      r.calls ≤ c + 5 * 258 := by
  have hb := data_length_bounds (buf 1)
  unfold data_length at hb
  obtain ⟨y, hy, hyc⟩ := payload_loop_terminates t
    (if (buf 1).val = 0 then 256 else (buf 1).val) hprog
    ((if (buf 1).val = 0 then 256 else (buf 1).val) + 2) 0 buf c (by omega) (by omega)
  by_cases h0 : y.ret ≠ 0
  · refine ⟨⟨-1, buffer, length, y.calls, ev ++ y.events⟩, ?_, by show y.calls ≤ _; omega⟩
    intro fuel hf
    unfold receive_payload
    dsimp only
    rw [hy fuel (by omega)]
    dsimp only
    rw [if_pos h0]
  · refine ⟨⟨0, load y.buf 2 (if (buf 1).val = 0 then 256 else (buf 1).val) ++
      buffer.drop (if (buf 1).val = 0 then 256 else (buf 1).val),
      if (buf 1).val = 0 then 256 else (buf 1).val, y.calls, ev ++ y.events⟩, ?_,
      by show y.calls ≤ _; omega⟩
    intro fuel hf
    unfold receive_payload
    dsimp only
    rw [hy fuel (by omega)]
    dsimp only
    rw [if_neg h0]

/-- C19. On a transport whose successful reads each deliver at least one
byte, `receive_data_frame` terminates: 258 iterations of the payload loop are
always enough, the result does not depend on the bound once it is at least
258, and at most `5 * (2 + 258)` transfers are made.  More precisely the
payload loop started with `received` bytes ends within `len + 2 - received`
iterations, each of at most 5 attempts.  The hypothesis is needed: after a
header `STX, L`, a transport whose reads all succeed with zero bytes keeps the
payload loop running for ever. -/
theorem reassembly_terminates (k : Header) (t : Transport)
    (hprog : ∀ i, (t i).ret = LIBUSB_SUCCESS → 1 ≤ (t i).data.length)
    (stack : Mem) (buffer : List Byte) (length c : Nat) :
    (∃ r, (∀ fuel, 258 ≤ fuel → receive_data_frame k t stack fuel buffer length c = some r) ∧
      r.calls ≤ c + 5 * (2 + 258)) ∧
    (∀ (len received : Nat) (buf : Mem) (c1 : Nat), received < len + 2 →
      ∃ y, (∀ fuel, len + 2 - received ≤ fuel →
          payload_loop t len fuel received buf c1 = some y) ∧
        y.calls ≤ c1 + 5 * (len + 2 - received)) ∧
    (∀ (L : Byte) (fuel : Nat),
      receive_data_frame k
        (fun i => if i = 0 then ⟨LIBUSB_SUCCESS, [k.V850ESJx3L_STX, L]⟩
          else ⟨LIBUSB_SUCCESS, []⟩) stack fuel buffer length 0 = none) := by
  refine ⟨?_, ?_, ?_⟩
  · obtain ⟨hxc, _⟩ := retry_calls_progress t ENDPOINT_IN 0 2 stack c
    by_cases hx : (bulk_retry t ENDPOINT_IN 0 2 RETRY_MAX 0 stack c).ret ≠ LIBUSB_SUCCESS
    · refine ⟨⟨-1, buffer, length, (bulk_retry t ENDPOINT_IN 0 2 RETRY_MAX 0 stack c).calls,
        (bulk_retry t ENDPOINT_IN 0 2 RETRY_MAX 0 stack c).events⟩, ?_, by
          show (bulk_retry t ENDPOINT_IN 0 2 RETRY_MAX 0 stack c).calls ≤ _; omega⟩
      intro fuel _
      unfold receive_data_frame
      dsimp only
      rw [if_pos hx]
    · by_cases hstx : (bulk_retry t ENDPOINT_IN 0 2 RETRY_MAX 0 stack c).buf 0 ≠
          k.V850ESJx3L_STX
      · refine ⟨⟨-1, buffer, length, (bulk_retry t ENDPOINT_IN 0 2 RETRY_MAX 0 stack c).calls,
          (bulk_retry t ENDPOINT_IN 0 2 RETRY_MAX 0 stack c).events⟩, ?_, by
            show (bulk_retry t ENDPOINT_IN 0 2 RETRY_MAX 0 stack c).calls ≤ _; omega⟩
        intro fuel _
        unfold receive_data_frame
        dsimp only
        rw [if_neg hx, if_pos hstx]
      · by_cases hshort : (bulk_retry t ENDPOINT_IN 0 2 RETRY_MAX 0 stack c).transferred < 2
        · obtain ⟨hyc, _⟩ := retry_calls_progress t ENDPOINT_IN 1 1
            (bulk_retry t ENDPOINT_IN 0 2 RETRY_MAX 0 stack c).buf
            (bulk_retry t ENDPOINT_IN 0 2 RETRY_MAX 0 stack c).calls
          by_cases hy : (bulk_retry t ENDPOINT_IN 1 1 RETRY_MAX 0
              (bulk_retry t ENDPOINT_IN 0 2 RETRY_MAX 0 stack c).buf
              (bulk_retry t ENDPOINT_IN 0 2 RETRY_MAX 0 stack c).calls).ret ≠ LIBUSB_SUCCESS
          · refine ⟨⟨-1, buffer, length, (bulk_retry t ENDPOINT_IN 1 1 RETRY_MAX 0
                (bulk_retry t ENDPOINT_IN 0 2 RETRY_MAX 0 stack c).buf
                (bulk_retry t ENDPOINT_IN 0 2 RETRY_MAX 0 stack c).calls).calls,
              (bulk_retry t ENDPOINT_IN 0 2 RETRY_MAX 0 stack c).events ++
                (bulk_retry t ENDPOINT_IN 1 1 RETRY_MAX 0
                  (bulk_retry t ENDPOINT_IN 0 2 RETRY_MAX 0 stack c).buf
                  (bulk_retry t ENDPOINT_IN 0 2 RETRY_MAX 0 stack c).calls).events⟩, ?_, by
                show (bulk_retry t ENDPOINT_IN 1 1 RETRY_MAX 0 _ _).calls ≤ _; omega⟩
            intro fuel _
            unfold receive_data_frame
            dsimp only
            rw [if_neg hx, if_neg hstx, if_pos hshort, if_pos hy]
          · obtain ⟨r, hr, hrc⟩ := receive_payload_terminates t hprog buffer length
              (bulk_retry t ENDPOINT_IN 1 1 RETRY_MAX 0
                (bulk_retry t ENDPOINT_IN 0 2 RETRY_MAX 0 stack c).buf
                (bulk_retry t ENDPOINT_IN 0 2 RETRY_MAX 0 stack c).calls).buf
              (bulk_retry t ENDPOINT_IN 1 1 RETRY_MAX 0
                (bulk_retry t ENDPOINT_IN 0 2 RETRY_MAX 0 stack c).buf
                (bulk_retry t ENDPOINT_IN 0 2 RETRY_MAX 0 stack c).calls).calls
              ((bulk_retry t ENDPOINT_IN 0 2 RETRY_MAX 0 stack c).events ++
                (bulk_retry t ENDPOINT_IN 1 1 RETRY_MAX 0
                  (bulk_retry t ENDPOINT_IN 0 2 RETRY_MAX 0 stack c).buf
                  (bulk_retry t ENDPOINT_IN 0 2 RETRY_MAX 0 stack c).calls).events)
            refine ⟨r, ?_, by omega⟩
            intro fuel hf
            unfold receive_data_frame
            dsimp only
            rw [if_neg hx, if_neg hstx, if_pos hshort, if_neg hy]
            exact hr fuel hf
        · obtain ⟨r, hr, hrc⟩ := receive_payload_terminates t hprog buffer length
            (bulk_retry t ENDPOINT_IN 0 2 RETRY_MAX 0 stack c).buf
            (bulk_retry t ENDPOINT_IN 0 2 RETRY_MAX 0 stack c).calls
            (bulk_retry t ENDPOINT_IN 0 2 RETRY_MAX 0 stack c).events
          refine ⟨r, ?_, by omega⟩
          intro fuel hf
          unfold receive_data_frame
          dsimp only
          rw [if_neg hx, if_neg hstx, if_neg hshort]
          exact hr fuel hf
  · intro len received buf c1 hrec
    exact payload_loop_terminates t len hprog (len + 2 - received) received buf c1 hrec
      (Nat.le_refl _)
  · intro L fuel
    generalize ht : (fun i => if i = 0 then (⟨LIBUSB_SUCCESS, [k.V850ESJx3L_STX, L]⟩ : Resp)
      else ⟨LIBUSB_SUCCESS, []⟩) = tz
    have h0 : tz 0 = ⟨LIBUSB_SUCCESS, [k.V850ESJx3L_STX, L]⟩ := by rw [← ht]; rfl
    have hz : ∀ i, 1 ≤ i → tz i = ⟨LIBUSB_SUCCESS, []⟩ := by
      intro i hi
      rw [← ht]
      show (if i = 0 then _ else _) = _
      rw [if_neg (by omega)]
    have hnp : (tz 0).ret ≠ LIBUSB_ERROR_PIPE := by
      rw [h0]; exact fun h => pipe_ne_success h.symm
    unfold receive_data_frame
    simp only [bulk_retry_once tz ENDPOINT_IN 0 2 stack 0 hnp, h0, if_pos endpoint_in_reads]
    have hb0 : memcpy stack 0 [k.V850ESJx3L_STX, L] 0 = k.V850ESJx3L_STX := by simp [memcpy]
    rw [if_neg (by simp), if_neg (by simp [hb0]), if_neg (by simp)]
    unfold receive_payload
    dsimp only
    rw [payload_loop_diverges tz _ hz fuel 0 _ (0 + 1) (by omega) (by omega)]

/-- C19 on a device that delivers a frame byte by byte. -/
theorem reassembly_terminates_witness :
    ∃ r, (∀ fuel, 258 ≤ fuel →
        receive_data_frame hdr (deliver [[0x02], [1], [6], [0xF9], [0x03]]) stack0 fuel [] 0 0 =
          some r) ∧
      r.calls ≤ 0 + 5 * (2 + 258) :=
  (reassembly_terminates hdr (deliver [[0x02], [1], [6], [0xF9], [0x03]])
    (fun i => by
      unfold deliver script
      rcases Nat.lt_or_ge i 5 with h | h
      · interval_cases i <;> decide
      · intro hs
        rw [List.getD_eq_default _ _ (by simpa using h)] at hs
        exact absurd hs (by decide))
    stack0 [] 0 0).1

theorem stays_within_append (total : Nat) (a b : List Event) :
    ∀ pos, stays_within total pos (a ++ b) ↔
      stays_within total pos a ∧ stays_within total (pos + (delivered a).length) b := by
  induction a with
  | nil => intro pos; simp [stays_within, delivered]
  | cons e es ih =>
    intro pos
    cases e with
    | bulk ep out length tmo ret data =>
      simp only [List.cons_append, stays_within, delivered, List.append_eq, ih,
        List.length_append]
      by_cases hc : 128 ≤ ep.val ∧ ret = LIBUSB_SUCCESS
      · simp only [if_pos hc, Nat.add_assoc, and_assoc]
      · simp only [if_neg hc, List.length_nil, Nat.zero_add, and_assoc]
    | clear_halt ep =>
      simp only [List.cons_append, stays_within, delivered, List.append_eq, ih]
    | usleep n => simp only [List.cons_append, stays_within, delivered, List.append_eq, ih]

theorem stays_within_attempt (total pos length : Nat) (r : Resp) :
    stays_within total pos (attempt_events ENDPOINT_IN [] length r) ↔ pos + length ≤ total := by
  unfold attempt_events
  split <;> simp [stays_within, endpoint_in_reads]

theorem stays_within_retry (t : Transport) (total pos length : Nat) :
    ∀ (j c : Nat), (∀ i, i < j → (t (c + i)).ret = LIBUSB_ERROR_PIPE) →
      (stays_within total pos (retry_events t ENDPOINT_IN [] length c j) ↔
        pos + length ≤ total) := by
  intro j
  induction j with
  | zero => intro c _; exact stays_within_attempt total pos length (t c)
  | succ j ih =>
    intro c hst
    rw [retry_events, stays_within_append, stays_within_attempt, delivered_attempt]
    have h0 : (t c).ret = LIBUSB_ERROR_PIPE := hst 0 (by omega)
    have hne : ¬ (128 ≤ ENDPOINT_IN.val ∧ (t c).ret = LIBUSB_SUCCESS) := by
      rw [h0]; exact fun h => pipe_ne_success h.2
    rw [if_neg hne, List.length_nil, Nat.add_zero, ih (c + 1) (fun i hi => by
      have := hst (i + 1) (by omega)
      rwa [show c + (i + 1) = c + 1 + i by omega] at this)]
    exact ⟨fun h => h.1, fun h => ⟨h, h⟩⟩

/-- A read loop asks for `length` bytes at every attempt. -/
theorem stays_within_read_loop (t : Transport) (total pos off length : Nat) (buf : Mem)
    (c : Nat) :
    stays_within total pos (bulk_retry t ENDPOINT_IN off length RETRY_MAX 0 buf c).events ↔
      pos + length ≤ total := by
  obtain ⟨j, B, _, hst, _, _, _, h6⟩ := bulk_retry_run t ENDPOINT_IN off length buf c
  rw [h6]
  have ho : offered ENDPOINT_IN buf off length = [] := by
    unfold offered; rw [if_pos endpoint_in_reads]
  rw [ho]
  exact stays_within_retry t total pos length j c hst

theorem payload_loop_within (t : Transport) (len : Nat) :
    ∀ (fuel received : Nat) (buf : Mem) (c : Nat) (y : Xfer),
      payload_loop t len fuel received buf c = some y → y.ret = 0 → received < len + 2 →
      stays_within (len + 4) (2 + received) y.events := by
  intro fuel
  induction fuel with
  | zero => intro received buf c y h; simp [payload_loop] at h
  | succ fuel ih =>
    intro received buf c y h hret hrec
    have hx := (stays_within_read_loop t (len + 4) (2 + received) (2 + received)
      (len + 2 - received) buf c).mpr (by omega)
    by_cases hok : (bulk_retry t ENDPOINT_IN (2 + received) (len + 2 - received) RETRY_MAX 0 buf
        c).ret = LIBUSB_SUCCESS
    · obtain ⟨hd, _, _⟩ := read_loop_ok t (2 + received) (len + 2 - received) buf c hok
      by_cases hlt : received + (bulk_retry t ENDPOINT_IN (2 + received) (len + 2 - received)
          RETRY_MAX 0 buf c).transferred < len + 2
      · rw [payload_loop_more t len fuel received buf c hok hlt] at h
        split at h
        · exact absurd h (by simp)
        · rename_i z hz
          injection h with h
          subst h
          dsimp only at hret ⊢
          rw [stays_within_append, hd, length_load]
          refine ⟨hx, ?_⟩
          rw [show 2 + received + (bulk_retry t ENDPOINT_IN (2 + received) (len + 2 - received)
            RETRY_MAX 0 buf c).transferred = 2 + (received + (bulk_retry t ENDPOINT_IN
              (2 + received) (len + 2 - received) RETRY_MAX 0 buf c).transferred) by omega]
          exact ih _ _ _ _ hz hret hlt
      · rw [payload_loop_done t len fuel received buf c hok hlt] at h
        injection h with h
        subst h
        exact hx
    · rw [payload_loop_fail t len fuel received buf c hok] at h
      injection h with h
      subst h
      exact hx

theorem receive_payload_events (t : Transport) (fuel : Nat) (buffer : List Byte) (length : Nat)
    (buf : Mem) (c : Nat) (ev : List Event) (r : Recv)
    (h : receive_payload t fuel buffer length buf c ev = some r) :
    ∃ y, payload_loop t (data_length (buf 1)) fuel 0 buf c = some y ∧
      r.events = ev ++ y.events ∧ (r.ret = 0 → y.ret = 0 ∧ r.length = data_length (buf 1)) := by
  unfold receive_payload at h
  dsimp only at h
  split at h
  · exact absurd h (by simp)
  · rename_i y hy
    refine ⟨y, hy, ?_⟩
    split at h
    · injection h with h
      subst h
      exact ⟨rfl, fun h0 => absurd h0 (by dsimp only; decide)⟩
    · rename_i h0
      injection h with h
      subst h
      exact ⟨rfl, fun _ => ⟨not_not.mp h0, rfl⟩⟩

theorem receive_payload_within (t : Transport) (fuel : Nat) (buffer : List Byte) (length : Nat)
    (buf : Mem) (c : Nat) (ev : List Event) (r : Recv)
    (h : receive_payload t fuel buffer length buf c ev = some r) (hret : r.ret = 0)
    (hev : stays_within (data_length (buf 1) + 4) 0 ev) (hdel : (delivered ev).length = 2) :
    stays_within (r.length + 4) 0 r.events := by
  obtain ⟨y, hy, he, hr⟩ := receive_payload_events t fuel buffer length buf c ev r h
  obtain ⟨hy0, hl⟩ := hr hret
  rw [he, hl, stays_within_append, hdel]
  exact ⟨hev, payload_loop_within t _ fuel 0 buf c y hy hy0 (by omega)⟩

/-- A successful run of `receive_data_frame` on a well-behaved transport
takes exactly `length + 4` bytes from the stream and never asks for a byte
beyond them. -/
theorem receive_within (k : Header) (t : Transport) (stack : Mem) (fuel : Nat)
    (buffer : List Byte) (length c : Nat) (r : Recv)
    (h : receive_data_frame k t stack fuel buffer length c = some r) (hret : r.ret = 0)
    (hwb : ∀ e ∈ r.events, well_behaved e) :
    (delivered r.events).length = r.length + 4 ∧ stays_within (r.length + 4) 0 r.events := by
  unfold receive_data_frame at h
  dsimp only at h
  split at h
  · injection h with h
    subst h
    exact absurd hret (by dsimp only; decide)
  · rename_i hx
    have hx' : (bulk_retry t ENDPOINT_IN 0 2 RETRY_MAX 0 stack c).ret = LIBUSB_SUCCESS :=
      not_not.mp hx
    obtain ⟨hd, _, hsize⟩ := read_loop_ok t 0 2 stack c hx'
    have hwx : ∀ total, 2 ≤ total →
        stays_within total 0 (bulk_retry t ENDPOINT_IN 0 2 RETRY_MAX 0 stack c).events :=
      fun total ht => (stays_within_read_loop t total 0 0 2 stack c).mpr (by omega)
    generalize bulk_retry t ENDPOINT_IN 0 2 RETRY_MAX 0 stack c = x at *
    split at h
    · injection h with h
      subst h
      exact absurd hret (by dsimp only; decide)
    · split at h
      · rename_i hshort
        split at h
        · injection h with h
          subst h
          exact absurd hret (by dsimp only; decide)
        · rename_i hy
          have hy' : (bulk_retry t ENDPOINT_IN 1 1 RETRY_MAX 0 x.buf x.calls).ret =
              LIBUSB_SUCCESS := not_not.mp hy
          obtain ⟨hd2, _, hsize2⟩ := read_loop_ok t 1 1 x.buf x.calls hy'
          have hwy : ∀ total, 2 ≤ total → stays_within total 1
              (bulk_retry t ENDPOINT_IN 1 1 RETRY_MAX 0 x.buf x.calls).events :=
            fun total ht => (stays_within_read_loop t total 1 1 1 x.buf x.calls).mpr (by omega)
          generalize bulk_retry t ENDPOINT_IN 1 1 RETRY_MAX 0 x.buf x.calls = y at *
          obtain ⟨z, hz, he, hr⟩ := receive_payload_events t fuel buffer length _ _ _ r h
          obtain ⟨rest, h1, h2, h3, _⟩ := receive_payload_sound t fuel buffer length _ _ _ r h
            hret hwb
          have hsub : ∀ e ∈ x.events ++ y.events, well_behaved e := by
            intro e he'
            apply hwb
            rw [he]
            exact List.mem_append_left _ he'
          obtain ⟨hx1, hx2⟩ := hsize (fun e he' => hsub e (List.mem_append_left _ he'))
          obtain ⟨hy1, hy2⟩ := hsize2 (fun e he' => hsub e (List.mem_append_right _ he'))
          have hdl : (delivered (x.events ++ y.events)).length = 2 := by
            rw [delivered_append, List.length_append, hd, hd2, length_load, length_load]
            omega
          refine ⟨by rw [h1, List.length_append, hdl, h3]; omega, ?_⟩
          refine receive_payload_within t fuel buffer length _ _ _ r h hret ?_ hdl
          rw [stays_within_append, hd, length_load]
          have hxt : x.transferred = 1 := by omega
          rw [hxt]
          exact ⟨hwx _ (by omega), hwy _ (by omega)⟩
      · rename_i hfull
        obtain ⟨z, hz, he, hr⟩ := receive_payload_events t fuel buffer length _ _ _ r h
        obtain ⟨rest, h1, h2, h3, _⟩ := receive_payload_sound t fuel buffer length _ _ _ r h
          hret hwb
        have hsub : ∀ e ∈ x.events, well_behaved e := by
          intro e he'
          apply hwb
          rw [he]
          exact List.mem_append_left _ he'
        obtain ⟨hx1, hx2⟩ := hsize hsub
        have hdl : (delivered x.events).length = 2 := by
          rw [hd, length_load]
          omega
        refine ⟨by rw [h1, List.length_append, hdl, h3]; omega, ?_⟩
        exact receive_payload_within t fuel buffer length _ _ _ r h hret (hwx _ (by omega)) hdl

theorem take_payload (body buffer : List Byte) (d : Nat) (h : body.length = d + 2) :
    (body.take d ++ buffer.drop d).take d = body.take d := by
  have hl : (body.take d).length = d := by
    rw [List.length_take]; omega
  exact List.take_left' hl

/-- C17. A successful `receive_data_frame` on a transport whose successful
reads deliver between one byte and the number of bytes asked for takes exactly
`length + 4` bytes from the stream (two header bytes, the payload, the
checksum and the end marker), and none of its reads asks for a byte beyond
them.  As a result, when two data frames are delivered back to back, each
header in one or two reads and each rest cut into any non-empty chunks, and
whatever follows them, two successive calls return the payload of the first
frame and then the payload of the second, the second call starting exactly at
the first transfer of the second frame. -/
theorem frame_synchronisation (k : Header) (L1 L2 : Byte)
    (hs1 chunks1 hs2 chunks2 tail : List (List Byte))
    (hhs1 : hs1 = [[k.V850ESJx3L_STX, L1]] ∨ hs1 = [[k.V850ESJx3L_STX], [L1]])
    (hhs2 : hs2 = [[k.V850ESJx3L_STX, L2]] ∨ hs2 = [[k.V850ESJx3L_STX], [L2]])
    (hne1 : ∀ ch ∈ chunks1, ch ≠ []) (hne2 : ∀ ch ∈ chunks2, ch ≠ [])
    (hsum1 : chunks1.flatten.length = data_length L1 + 2)
    (hsum2 : chunks2.flatten.length = data_length L2 + 2)
    (stack1 stack2 : Mem) (fuel : Nat) (hf1 : chunks1.length ≤ fuel)
    (hf2 : chunks2.length ≤ fuel) (buffer1 buffer2 : List Byte) (length1 length2 : Nat) :
    (∀ (t : Transport) (stack : Mem) (fuel : Nat) (buffer : List Byte) (length c : Nat)
        (r : Recv),
      receive_data_frame k t stack fuel buffer length c = some r → r.ret = 0 →
      (∀ e ∈ r.events, well_behaved e) →
      (delivered r.events).length = r.length + 4 ∧ stays_within (r.length + 4) 0 r.events) ∧
    ∃ r1 r2,
      receive_data_frame k (deliver (hs1 ++ chunks1 ++ (hs2 ++ chunks2 ++ tail))) stack1 fuel
        buffer1 length1 0 = some r1 ∧
      r1.ret = 0 ∧ r1.length = data_length L1 ∧
      r1.buffer.take r1.length = chunks1.flatten.take (data_length L1) ∧
      r1.calls = hs1.length + chunks1.length ∧
      receive_data_frame k (deliver (hs1 ++ chunks1 ++ (hs2 ++ chunks2 ++ tail))) stack2 fuel
        buffer2 length2 r1.calls = some r2 ∧
      r2.ret = 0 ∧ r2.length = data_length L2 ∧
      r2.buffer.take r2.length = chunks2.flatten.take (data_length L2) ∧
      r2.calls = r1.calls + hs2.length + chunks2.length := by
  refine ⟨fun t stack fuel buffer length c r h hret hwb =>
    receive_within k t stack fuel buffer length c r h hret hwb, ?_⟩
  generalize ht : deliver (hs1 ++ chunks1 ++ (hs2 ++ chunks2 ++ tail)) = t
  obtain ⟨ev1, h1⟩ := receive_frame_at k t stack1 fuel buffer1 length1 0 L1 hs1 chunks1 hhs1
    (fun i hi => by rw [← ht, Nat.zero_add, deliver_append_left _ _ i hi]) hne1 hsum1 hf1
  obtain ⟨ev2, h2⟩ := receive_frame_at k t stack2 fuel buffer2 length2
    (hs1.length + chunks1.length) L2 hs2 chunks2 hhs2
    (fun i hi => by
      rw [← ht, ← List.length_append, deliver_append_right, deliver_append_left _ _ i hi])
    hne2 hsum2 hf2
  rw [Nat.zero_add] at h1
  exact ⟨_, _, h1, rfl, rfl, take_payload _ _ _ hsum1, rfl, h2, rfl, rfl,
    take_payload _ _ _ hsum2, rfl⟩

/-- C17 on two frames back to back: the first header in one read, the second
in two, and a stray byte after them. -/
theorem frame_synchronisation_witness :
    ∃ r1 r2,
      receive_data_frame hdr
        (deliver ([[0x02, 1]] ++ [[0x06], [0xF9, 0x03]] ++
          ([[0x02], [2]] ++ [[0x41, 0x42, 0x7B], [0x03]] ++ [[0xFF]])))
        stack0 2 [] 0 0 = some r1 ∧
      r1.ret = 0 ∧ r1.length = 1 ∧ r1.buffer.take r1.length = [0x06] ∧ r1.calls = 3 ∧
      receive_data_frame hdr
        (deliver ([[0x02, 1]] ++ [[0x06], [0xF9, 0x03]] ++
          ([[0x02], [2]] ++ [[0x41, 0x42, 0x7B], [0x03]] ++ [[0xFF]])))
        stack0 2 [] 0 r1.calls = some r2 ∧
      r2.ret = 0 ∧ r2.length = 2 ∧ r2.buffer.take r2.length = [0x41, 0x42] ∧
      r2.calls = r1.calls + 2 + 2 :=
  (frame_synchronisation hdr 1 2 [[0x02, 1]] [[0x06], [0xF9, 0x03]] [[0x02], [2]]
    [[0x41, 0x42, 0x7B], [0x03]] [[0xFF]] (Or.inl rfl) (Or.inr rfl) (by decide) (by decide)
    (by decide) (by decide) stack0 stack0 2 (by decide) (by decide) [] [] 0 0).2

/-- A retry loop whose attempts report no more than was asked for leaves the
bytes from `off + length` on alone, and reports at most `length` bytes. -/
theorem bulk_retry_footprint (t : Transport) (ep : Byte) (off length : Nat) :
    ∀ (fuel try_ : Nat) (buf : Mem) (calls : Nat),
      (∀ e ∈ (bulk_retry t ep off length fuel try_ buf calls).events, within_request e) →
      (∀ j, off + length ≤ j → (bulk_retry t ep off length fuel try_ buf calls).buf j = buf j) ∧
      (128 ≤ ep.val → (bulk_retry t ep off length fuel try_ buf calls).transferred ≤ length) := by
  intro fuel
  have hfirst : ∀ (buf : Mem) (calls : Nat),
      within_request (Event.bulk ep (offered ep buf off length) length V850J_TIMEOUT_MS
        (t calls).ret (t calls).data) →
      ∀ j, off + length ≤ j → (libusb_bulk_transfer t ep buf off length calls).buf j = buf j := by
    intro buf calls hw j hj
    rw [transfer_buf]
    split
    · rename_i hin
      exact memcpy_above _ _ _ _ (by have := hw hin; omega)
    · rfl
  have hstopcase : ∀ (fuel try_ : Nat) (buf : Mem) (calls : Nat),
      ¬ ((t calls).ret = LIBUSB_ERROR_PIPE ∧ try_ + 1 < RETRY_MAX) →
      (∀ e ∈ (bulk_retry t ep off length fuel try_ buf calls).events, within_request e) →
      (∀ j, off + length ≤ j → (bulk_retry t ep off length fuel try_ buf calls).buf j = buf j) ∧
      (128 ≤ ep.val →
        (bulk_retry t ep off length fuel try_ buf calls).transferred ≤ length) := by
    intro fuel try_ buf calls h hw
    rw [bulk_retry_stop _ _ _ _ _ _ _ _ h] at hw ⊢
    have hw0 : within_request (Event.bulk ep (offered ep buf off length) length
        V850J_TIMEOUT_MS (t calls).ret (t calls).data) :=
      hw _ (by simp [attempt_events])
    exact ⟨hfirst buf calls hw0, fun hin => by
      show (libusb_bulk_transfer t ep buf off length calls).transferred ≤ length
      rw [transfer_transferred]; exact hw0 hin⟩
  induction fuel with
  | zero =>
    intro try_ buf calls hw
    by_cases h : (t calls).ret = LIBUSB_ERROR_PIPE ∧ try_ + 1 < RETRY_MAX
    · -- the bound on the recursion is reached: the loop stops here
      have hb : bulk_retry t ep off length 0 try_ buf calls =
          { libusb_bulk_transfer t ep buf off length calls with
            events := attempt_events ep (offered ep buf off length) length (t calls) } := by
        rw [bulk_retry]
        simp only [transfer_ret, transfer_events, attempt_events]
        rw [if_pos h]
        simp [h.1]
      rw [hb] at hw ⊢
      have hw0 : within_request (Event.bulk ep (offered ep buf off length) length
          V850J_TIMEOUT_MS (t calls).ret (t calls).data) :=
        hw _ (by simp [attempt_events])
      exact ⟨hfirst buf calls hw0, fun hin => by
        show (libusb_bulk_transfer t ep buf off length calls).transferred ≤ length
        rw [transfer_transferred]; exact hw0 hin⟩
    · exact hstopcase 0 try_ buf calls h hw
  | succ fuel ih =>
    intro try_ buf calls hw
    by_cases h : (t calls).ret = LIBUSB_ERROR_PIPE ∧ try_ + 1 < RETRY_MAX
    · rw [bulk_retry_step _ _ _ _ _ _ _ _ h.1 h.2] at hw ⊢
      dsimp only at hw ⊢
      have hw0 : within_request (Event.bulk ep (offered ep buf off length) length
          V850J_TIMEOUT_MS (t calls).ret (t calls).data) :=
        hw _ (List.mem_append_left _ (by simp [attempt_events]))
      obtain ⟨hb, htr⟩ := ih (try_ + 1) (libusb_bulk_transfer t ep buf off length calls).buf
        (calls + 1) (fun e he => hw e (List.mem_append_right _ he))
      exact ⟨fun j hj => by rw [hb j hj]; exact hfirst buf calls hw0 j hj, htr⟩
    · exact hstopcase (fuel + 1) try_ buf calls h hw

/-- The payload loop on a transport that reports no more than was asked for:
`received` stays at most `len + 2`, and the bytes of the buffer from
`len + 4` on are left alone. -/
theorem payload_loop_bounds (t : Transport) (len : Nat) :
    ∀ (fuel received : Nat) (buf : Mem) (c : Nat) (y : Xfer),
      payload_loop t len fuel received buf c = some y →
      (∀ e ∈ y.events, within_request e) → received ≤ len + 2 →
      y.transferred ≤ len + 2 ∧ ∀ j, len + 4 ≤ j → y.buf j = buf j := by
  intro fuel
  induction fuel with
  | zero => intro received buf c y h; simp [payload_loop] at h
  | succ fuel ih =>
    intro received buf c y h hw hrec
    by_cases hok : (bulk_retry t ENDPOINT_IN (2 + received) (len + 2 - received) RETRY_MAX 0 buf
        c).ret = LIBUSB_SUCCESS
    · by_cases hlt : received + (bulk_retry t ENDPOINT_IN (2 + received) (len + 2 - received)
          RETRY_MAX 0 buf c).transferred < len + 2
      · rw [payload_loop_more t len fuel received buf c hok hlt] at h
        split at h
        · exact absurd h (by simp)
        · rename_i z hz
          injection h with h
          subst h
          dsimp only at hw ⊢
          obtain ⟨hb, _⟩ := bulk_retry_footprint t ENDPOINT_IN (2 + received)
            (len + 2 - received) RETRY_MAX 0 buf c
            (fun e he => hw e (List.mem_append_left _ he))
          obtain ⟨h1, h2⟩ := ih _ _ _ _ hz (fun e he => hw e (List.mem_append_right _ he))
            (by omega)
          exact ⟨h1, fun j hj => by rw [h2 j hj]; exact hb j (by omega)⟩
      · rw [payload_loop_done t len fuel received buf c hok hlt] at h
        injection h with h
        subst h
        dsimp only at hw ⊢
        obtain ⟨hb, htr⟩ := bulk_retry_footprint t ENDPOINT_IN (2 + received)
          (len + 2 - received) RETRY_MAX 0 buf c hw
        have := htr endpoint_in_reads
        exact ⟨by omega, fun j hj => hb j (by omega)⟩
    · rw [payload_loop_fail t len fuel received buf c hok] at h
      injection h with h
      subst h
      dsimp only at hw ⊢
      obtain ⟨hb, _⟩ := bulk_retry_footprint t ENDPOINT_IN (2 + received)
        (len + 2 - received) RETRY_MAX 0 buf c hw
      exact ⟨hrec, fun j hj => hb j (by omega)⟩

theorem receive_payload_result (t : Transport) (fuel : Nat) (buffer : List Byte) (length : Nat)
    (buf : Mem) (c : Nat) (ev : List Event) (r : Recv)
    (h : receive_payload t fuel buffer length buf c ev = some r) :
    ∃ y, payload_loop t (if (buf 1).val = 0 then 256 else (buf 1).val) fuel 0 buf c = some y ∧
      r.events = ev ++ y.events ∧
      (r.ret = 0 → r.length = (if (buf 1).val = 0 then 256 else (buf 1).val) ∧
        r.buffer = load y.buf 2 r.length ++ buffer.drop r.length) := by
  unfold receive_payload at h
  dsimp only at h
  split at h
  · exact absurd h (by simp)
  · rename_i y hy
    refine ⟨y, hy, ?_⟩
    split at h
    · injection h with h
      subst h
      exact ⟨rfl, fun h0 => absurd h0 (by dsimp only; decide)⟩
    · injection h with h
      subst h
      exact ⟨rfl, fun _ => ⟨rfl, rfl⟩⟩

/-- The frame buffer and the copy to the caller, on a transport that reports
no more than was asked for. -/
theorem receive_bounds (k : Header) (t : Transport) (stack : Mem) (fuel : Nat)
    (buffer : List Byte) (length c : Nat) (r : Recv)
    (h : receive_data_frame k t stack fuel buffer length c = some r)
    (hw : ∀ e ∈ r.events, within_request e) :
    ∃ B, receive_frame_buf k t stack fuel c = some B ∧ (∀ j, 260 ≤ j → B j = stack j) ∧
      (r.ret = 0 → r.length ≤ 256 ∧ r.buffer = load B 2 r.length ++ buffer.drop r.length ∧
        (256 ≤ buffer.length → r.buffer.length = buffer.length)) := by
  have key : ∀ (buf : Mem) (c1 : Nat) (ev : List Event),
      receive_payload t fuel buffer length buf c1 ev = some r →
      (∀ j, 260 ≤ j → buf j = stack j) →
      ∃ B, (payload_loop t (if (buf 1).val = 0 then 256 else (buf 1).val) fuel 0 buf
          c1).map Xfer.buf = some B ∧ (∀ j, 260 ≤ j → B j = stack j) ∧
        (r.ret = 0 → r.length ≤ 256 ∧ r.buffer = load B 2 r.length ++ buffer.drop r.length ∧
          (256 ≤ buffer.length → r.buffer.length = buffer.length)) := by
    intro buf c1 ev hp hbuf
    obtain ⟨y, hy, he, hr⟩ := receive_payload_result t fuel buffer length buf c1 ev r hp
    have hlen := data_length_bounds (buf 1)
    unfold data_length at hlen
    obtain ⟨_, hfoot⟩ := payload_loop_bounds t _ fuel 0 buf c1 y hy
      (fun e he' => hw e (by rw [he]; exact List.mem_append_right _ he')) (by omega)
    refine ⟨y.buf, by rw [hy]; rfl, fun j hj => by rw [hfoot j (by omega)]; exact hbuf j hj, ?_⟩
    intro h0
    obtain ⟨hl, hb⟩ := hr h0
    refine ⟨by omega, hb, fun h256 => ?_⟩
    rw [hb, List.length_append, length_load, List.length_drop]
    omega
  unfold receive_data_frame at h
  unfold receive_frame_buf
  dsimp only at h ⊢
  split at h
  · rename_i hx
    injection h with h
    subst h
    dsimp only at hw ⊢
    rw [if_pos hx]
    obtain ⟨hb, _⟩ := bulk_retry_footprint t ENDPOINT_IN 0 2 RETRY_MAX 0 stack c hw
    exact ⟨_, rfl, fun j hj => hb j (by omega), fun h0 => absurd h0 (by decide)⟩
  · rename_i hx
    rw [if_neg hx]
    split at h
    · rename_i hstx
      injection h with h
      subst h
      dsimp only at hw ⊢
      rw [if_pos hstx]
      obtain ⟨hb, _⟩ := bulk_retry_footprint t ENDPOINT_IN 0 2 RETRY_MAX 0 stack c hw
      exact ⟨_, rfl, fun j hj => hb j (by omega), fun h0 => absurd h0 (by decide)⟩
    · rename_i hstx
      rw [if_neg hstx]
      split at h
      · rename_i hshort
        rw [if_pos hshort]
        split at h
        · rename_i hy
          injection h with h
          subst h
          dsimp only at hw ⊢
          rw [if_pos hy]
          obtain ⟨hb, _⟩ := bulk_retry_footprint t ENDPOINT_IN 0 2 RETRY_MAX 0 stack c
            (fun e he => hw e (List.mem_append_left _ he))
          obtain ⟨hb2, _⟩ := bulk_retry_footprint t ENDPOINT_IN 1 1 RETRY_MAX 0 _ _
            (fun e he => hw e (List.mem_append_right _ he))
          exact ⟨_, rfl, fun j hj => by rw [hb2 j (by omega)]; exact hb j (by omega),
            fun h0 => absurd h0 (by decide)⟩
        · rename_i hy
          rw [if_neg hy]
          obtain ⟨z, _, he, _⟩ := receive_payload_result t fuel buffer length _ _ _ r h
          have hwxy : ∀ e ∈ (bulk_retry t ENDPOINT_IN 0 2 RETRY_MAX 0 stack c).events ++
              (bulk_retry t ENDPOINT_IN 1 1 RETRY_MAX 0
                (bulk_retry t ENDPOINT_IN 0 2 RETRY_MAX 0 stack c).buf
                (bulk_retry t ENDPOINT_IN 0 2 RETRY_MAX 0 stack c).calls).events,
              within_request e :=
            fun e he' => hw e (by rw [he]; exact List.mem_append_left _ he')
          obtain ⟨hb, _⟩ := bulk_retry_footprint t ENDPOINT_IN 0 2 RETRY_MAX 0 stack c
            (fun e he' => hwxy e (List.mem_append_left _ he'))
          obtain ⟨hb2, _⟩ := bulk_retry_footprint t ENDPOINT_IN 1 1 RETRY_MAX 0 _ _
            (fun e he' => hwxy e (List.mem_append_right _ he'))
          exact key _ _ _ h (fun j hj => by rw [hb2 j (by omega)]; exact hb j (by omega))
      · rename_i hfull
        rw [if_neg hfull]
        obtain ⟨z, _, he, _⟩ := receive_payload_result t fuel buffer length _ _ _ r h
        obtain ⟨hb, _⟩ := bulk_retry_footprint t ENDPOINT_IN 0 2 RETRY_MAX 0 stack c
          (fun e he' => hw e (by rw [he]; exact List.mem_append_left _ he'))
        exact key _ _ _ h (fun j hj => hb j (by omega))

theorem command_frame_buf_above (k : Header) (stack : Mem) (command : Byte)
    (buffer : List Byte) (j : Nat) (hj : buffer.length + 5 ≤ j) :
    command_frame_buf k stack command buffer j = stack j := by
  unfold command_frame_buf
  rw [store_other _ _ _ _ (by omega), store_other _ _ _ _ (by omega)]
  have hm : ∀ m : Mem, (if buffer.length > 0 then memcpy m 3 buffer else m) j = m j := by
    intro m
    split
    · exact memcpy_above _ _ _ _ (by omega)
    · rfl
  rw [hm, store_other _ _ _ _ (by omega), store_other _ _ _ _ (by omega),
    store_other _ _ _ _ (by omega)]

/-- C20. For a payload of at most 255 bytes, `send_command_frame` changes
no byte of its frame buffer at index `n + 5` or beyond and sends the `n + 5`
bytes before it, where `n + 5 ≤ 260`, the size of the buffer.  On a transport
that never reports more bytes than were asked for, the payload loop of
`receive_data_frame` keeps `received ≤ len + 2` and leaves the buffer alone
from index `len + 4` on; `receive_data_frame` as a whole changes no byte of its
260-byte frame buffer at index 260 or beyond, and when it succeeds it copies
`length ≤ 256` bytes, so that a caller's buffer of 256 bytes or more keeps its
size. -/
theorem buffer_bounds (k : Header) (t : Transport) :
    (∀ (stack : Mem) (command : Byte) (buffer : List Byte) (c : Nat), buffer.length ≤ 255 →
      buffer.length + 5 ≤ 260 ∧
      (∀ j, buffer.length + 5 ≤ j → command_frame_buf k stack command buffer j = stack j) ∧
      (command_frame k stack command buffer).length = buffer.length + 5 ∧
      (∀ e ∈ (send_command_frame k t stack command buffer c).events,
        e = Event.clear_halt ENDPOINT_OUT ∨
        ∃ r : Resp, e = Event.bulk ENDPOINT_OUT (command_frame k stack command buffer)
          (buffer.length + 5) V850J_TIMEOUT_MS r.ret r.data)) ∧
    (∀ (len fuel received : Nat) (buf : Mem) (c : Nat) (y : Xfer),
      payload_loop t len fuel received buf c = some y →
      (∀ e ∈ y.events, within_request e) → received ≤ len + 2 →
      y.transferred ≤ len + 2 ∧ ∀ j, len + 4 ≤ j → y.buf j = buf j) ∧
    (∀ (stack : Mem) (fuel : Nat) (buffer : List Byte) (length c : Nat) (r : Recv),
      receive_data_frame k t stack fuel buffer length c = some r →
      (∀ e ∈ r.events, within_request e) →
      ∃ B, receive_frame_buf k t stack fuel c = some B ∧ (∀ j, 260 ≤ j → B j = stack j) ∧
        (r.ret = 0 → r.length ≤ 256 ∧
          r.buffer = load B 2 r.length ++ buffer.drop r.length ∧
          (256 ≤ buffer.length → r.buffer.length = buffer.length))) := by
  refine ⟨?_, fun len fuel received buf c y h hw hrec =>
    payload_loop_bounds t len fuel received buf c y h hw hrec,
    fun stack fuel buffer length c r h hw => receive_bounds k t stack fuel buffer length c r h hw⟩
  intro stack command buffer c hn
  refine ⟨by omega, fun j hj => command_frame_buf_above k stack command buffer j hj, ?_, ?_⟩
  · unfold command_frame
    exact length_load _ _ _
  · intro e he
    obtain ⟨j, _, _, hj⟩ := send_command_frame_events k t stack command buffer c
    rw [hj] at he
    rcases mem_retry_events he with he | ⟨i, _, he⟩
    · exact Or.inl he
    · exact Or.inr ⟨t (c + i), he⟩

/-- C20 on a frame with a one-byte payload delivered in two reads. -/
theorem buffer_bounds_witness :
    ∃ B, receive_frame_buf hdr (deliver [[0x02, 1], [0x06, 0xF9, 0x03]]) stack0 1 0 = some B ∧
      (∀ j, 260 ≤ j → B j = stack0 j) ∧
      ((0 : Int) = 0 → 1 ≤ 256 ∧
        ([0x06, 9] : List Byte) = load B 2 1 ++ ([9, 9] : List Byte).drop 1 ∧
        (256 ≤ ([9, 9] : List Byte).length →
          ([0x06, 9] : List Byte).length = ([9, 9] : List Byte).length)) :=
  (buffer_bounds hdr (deliver [[0x02, 1], [0x06, 0xF9, 0x03]])).2.2 stack0 1 [9, 9] 0 0
    ⟨0, [0x06, 9], 1, 2,
      [Event.bulk ENDPOINT_IN [] 2 4000 LIBUSB_SUCCESS [0x02, 1],
        Event.bulk ENDPOINT_IN [] 3 4000 LIBUSB_SUCCESS [0x06, 0xF9, 0x03]]⟩
    (by decide) (by decide)

/-- A retry loop started at transfer `c` uses transfers from `c` on, at least
one and at most `RETRY_MAX`; when it succeeds on a transport whose successful
transfers from `m ≤ c` on move at least one byte, it has moved one. -/
theorem retry_progress_from (t : Transport) (ep : Byte) (off length : Nat) (buf : Mem)
    (m c : Nat) (hm : m ≤ c) :
    c < (bulk_retry t ep off length RETRY_MAX 0 buf c).calls ∧
    (bulk_retry t ep off length RETRY_MAX 0 buf c).calls ≤ c + 5 ∧
    ((∀ i, m ≤ i → (t i).ret = LIBUSB_SUCCESS → 1 ≤ (t i).data.length) →
      (bulk_retry t ep off length RETRY_MAX 0 buf c).ret = LIBUSB_SUCCESS →
      1 ≤ (bulk_retry t ep off length RETRY_MAX 0 buf c).transferred) := by
  obtain ⟨j, B, hj, _, _, _, _, h6⟩ := bulk_retry_run t ep off length buf c
  rw [h6]
  have : j < 5 := hj
  exact ⟨by show c < c + j + 1; omega, by show c + j + 1 ≤ c + 5; omega,
    fun hp hok => hp _ (by omega) hok⟩

/-- The payload loop ends within as many iterations as bytes are missing,
when every successful read from transfer `m` on delivers at least one byte. -/
theorem payload_loop_terminates_from (t : Transport) (len m : Nat)
    (hprog : ∀ i, m ≤ i → (t i).ret = LIBUSB_SUCCESS → 1 ≤ (t i).data.length) :
    ∀ (n received : Nat) (buf : Mem) (c : Nat), m ≤ c → received < len + 2 →
      len + 2 - received ≤ n →
      ∃ y, (∀ fuel, n ≤ fuel → payload_loop t len fuel received buf c = some y) ∧
        c ≤ y.calls := by
  intro n
  induction n with
  | zero => intro received buf c _ h1 h2; omega
  | succ n ih =>
    intro received buf c hm hrec hn
    obtain ⟨hlo, _, hpr⟩ := retry_progress_from t ENDPOINT_IN (2 + received)
      (len + 2 - received) buf m c hm
    by_cases hok : (bulk_retry t ENDPOINT_IN (2 + received) (len + 2 - received) RETRY_MAX 0 buf
        c).ret = LIBUSB_SUCCESS
    · have htr := hpr hprog hok
      by_cases hlt : received + (bulk_retry t ENDPOINT_IN (2 + received) (len + 2 - received)
          RETRY_MAX 0 buf c).transferred < len + 2
      · obtain ⟨y, hy, hyc⟩ := ih _
          (bulk_retry t ENDPOINT_IN (2 + received) (len + 2 - received) RETRY_MAX 0 buf c).buf
          (bulk_retry t ENDPOINT_IN (2 + received) (len + 2 - received) RETRY_MAX 0 buf c).calls
          (by omega) hlt (by omega)
        refine ⟨{ y with events := (bulk_retry t ENDPOINT_IN (2 + received)
          (len + 2 - received) RETRY_MAX 0 buf c).events ++ y.events }, ?_, ?_⟩
        · intro fuel hf
          obtain ⟨f, rfl⟩ : ∃ f, fuel = f + 1 := ⟨fuel - 1, by omega⟩
          rw [payload_loop_more t len f received buf c hok hlt, hy f (by omega)]
        · show c ≤ y.calls
          omega
      · refine ⟨{ bulk_retry t ENDPOINT_IN (2 + received) (len + 2 - received) RETRY_MAX 0 buf c
          with ret := 0, transferred := received + (bulk_retry t ENDPOINT_IN (2 + received)
            (len + 2 - received) RETRY_MAX 0 buf c).transferred }, ?_, ?_⟩
        · intro fuel hf
          obtain ⟨f, rfl⟩ : ∃ f, fuel = f + 1 := ⟨fuel - 1, by omega⟩
          exact payload_loop_done t len f received buf c hok hlt
        · show c ≤ (bulk_retry t ENDPOINT_IN (2 + received) (len + 2 - received) RETRY_MAX 0 buf
            c).calls
          omega
    · refine ⟨{ bulk_retry t ENDPOINT_IN (2 + received) (len + 2 - received) RETRY_MAX 0 buf c
        with ret := -1, transferred := received }, ?_, ?_⟩
      · intro fuel hf
        obtain ⟨f, rfl⟩ : ∃ f, fuel = f + 1 := ⟨fuel - 1, by omega⟩
        exact payload_loop_fail t len f received buf c hok
      · show c ≤ (bulk_retry t ENDPOINT_IN (2 + received) (len + 2 - received) RETRY_MAX 0 buf
          c).calls
        omega

theorem receive_payload_terminates_from (t : Transport) (m : Nat)
    (hprog : ∀ i, m ≤ i → (t i).ret = LIBUSB_SUCCESS → 1 ≤ (t i).data.length)
    (buffer : List Byte) (length : Nat) (buf : Mem) (c : Nat) (hm : m ≤ c) (ev : List Event) :
    ∃ r, (∀ fuel, 258 ≤ fuel → receive_payload t fuel buffer length buf c ev = some r) ∧
      c ≤ r.calls := by
  have hb := data_length_bounds (buf 1)
  unfold data_length at hb
  obtain ⟨y, hy, hyc⟩ := payload_loop_terminates_from t
    (if (buf 1).val = 0 then 256 else (buf 1).val) m hprog
    ((if (buf 1).val = 0 then 256 else (buf 1).val) + 2) 0 buf c hm (by omega) (by omega)
  by_cases h0 : y.ret ≠ 0
  · refine ⟨⟨-1, buffer, length, y.calls, ev ++ y.events⟩, ?_, hyc⟩
    intro fuel hf
    unfold receive_payload
    dsimp only
    rw [hy fuel (by omega)]
    dsimp only
    rw [if_pos h0]
  · refine ⟨⟨0, load y.buf 2 (if (buf 1).val = 0 then 256 else (buf 1).val) ++
      buffer.drop (if (buf 1).val = 0 then 256 else (buf 1).val),
      if (buf 1).val = 0 then 256 else (buf 1).val, y.calls, ev ++ y.events⟩, ?_, hyc⟩
    intro fuel hf
    unfold receive_payload
    dsimp only
    rw [hy fuel (by omega)]
    dsimp only
    rw [if_neg h0]

/-- When every successful read from transfer `m` on delivers at least one
byte, a call of `receive_data_frame` that starts at a transfer `c ≥ m` returns:
258 iterations of the payload loop are enough, and the result does not depend
on the bound. -/
theorem receive_terminates_from (k : Header) (t : Transport) (m : Nat)
    (hprog : ∀ i, m ≤ i → (t i).ret = LIBUSB_SUCCESS → 1 ≤ (t i).data.length)
    (stack : Mem) (buffer : List Byte) (length c : Nat) (hm : m ≤ c) :
    ∃ r, (∀ fuel, 258 ≤ fuel → receive_data_frame k t stack fuel buffer length c = some r) ∧
      c ≤ r.calls := by
  obtain ⟨hxc, _, _⟩ := retry_progress_from t ENDPOINT_IN 0 2 stack m c hm
  by_cases hx : (bulk_retry t ENDPOINT_IN 0 2 RETRY_MAX 0 stack c).ret ≠ LIBUSB_SUCCESS
  · refine ⟨⟨-1, buffer, length, (bulk_retry t ENDPOINT_IN 0 2 RETRY_MAX 0 stack c).calls,
      (bulk_retry t ENDPOINT_IN 0 2 RETRY_MAX 0 stack c).events⟩, ?_, by
        show c ≤ (bulk_retry t ENDPOINT_IN 0 2 RETRY_MAX 0 stack c).calls; omega⟩
    intro fuel _
    unfold receive_data_frame
    dsimp only
    rw [if_pos hx]
  · by_cases hstx : (bulk_retry t ENDPOINT_IN 0 2 RETRY_MAX 0 stack c).buf 0 ≠
        k.V850ESJx3L_STX
    · refine ⟨⟨-1, buffer, length, (bulk_retry t ENDPOINT_IN 0 2 RETRY_MAX 0 stack c).calls,
        (bulk_retry t ENDPOINT_IN 0 2 RETRY_MAX 0 stack c).events⟩, ?_, by
          show c ≤ (bulk_retry t ENDPOINT_IN 0 2 RETRY_MAX 0 stack c).calls; omega⟩
      intro fuel _
      unfold receive_data_frame
      dsimp only
      rw [if_neg hx, if_pos hstx]
    · by_cases hshort : (bulk_retry t ENDPOINT_IN 0 2 RETRY_MAX 0 stack c).transferred < 2
      · obtain ⟨hyc, _, _⟩ := retry_progress_from t ENDPOINT_IN 1 1
          (bulk_retry t ENDPOINT_IN 0 2 RETRY_MAX 0 stack c).buf m
          (bulk_retry t ENDPOINT_IN 0 2 RETRY_MAX 0 stack c).calls (by omega)
        by_cases hy : (bulk_retry t ENDPOINT_IN 1 1 RETRY_MAX 0
            (bulk_retry t ENDPOINT_IN 0 2 RETRY_MAX 0 stack c).buf
            (bulk_retry t ENDPOINT_IN 0 2 RETRY_MAX 0 stack c).calls).ret ≠ LIBUSB_SUCCESS
        · refine ⟨⟨-1, buffer, length, (bulk_retry t ENDPOINT_IN 1 1 RETRY_MAX 0
              (bulk_retry t ENDPOINT_IN 0 2 RETRY_MAX 0 stack c).buf
              (bulk_retry t ENDPOINT_IN 0 2 RETRY_MAX 0 stack c).calls).calls,
            (bulk_retry t ENDPOINT_IN 0 2 RETRY_MAX 0 stack c).events ++
              (bulk_retry t ENDPOINT_IN 1 1 RETRY_MAX 0
                (bulk_retry t ENDPOINT_IN 0 2 RETRY_MAX 0 stack c).buf
                (bulk_retry t ENDPOINT_IN 0 2 RETRY_MAX 0 stack c).calls).events⟩, ?_, by
              show c ≤ (bulk_retry t ENDPOINT_IN 1 1 RETRY_MAX 0 _ _).calls; omega⟩
          intro fuel _
          unfold receive_data_frame
          dsimp only
          rw [if_neg hx, if_neg hstx, if_pos hshort, if_pos hy]
        · obtain ⟨r, hr, hrc⟩ := receive_payload_terminates_from t m hprog buffer length
            (bulk_retry t ENDPOINT_IN 1 1 RETRY_MAX 0
              (bulk_retry t ENDPOINT_IN 0 2 RETRY_MAX 0 stack c).buf
              (bulk_retry t ENDPOINT_IN 0 2 RETRY_MAX 0 stack c).calls).buf
            (bulk_retry t ENDPOINT_IN 1 1 RETRY_MAX 0
              (bulk_retry t ENDPOINT_IN 0 2 RETRY_MAX 0 stack c).buf
              (bulk_retry t ENDPOINT_IN 0 2 RETRY_MAX 0 stack c).calls).calls (by omega)
            ((bulk_retry t ENDPOINT_IN 0 2 RETRY_MAX 0 stack c).events ++
              (bulk_retry t ENDPOINT_IN 1 1 RETRY_MAX 0
                (bulk_retry t ENDPOINT_IN 0 2 RETRY_MAX 0 stack c).buf
                (bulk_retry t ENDPOINT_IN 0 2 RETRY_MAX 0 stack c).calls).events)
          refine ⟨r, ?_, by omega⟩
          intro fuel hf
          unfold receive_data_frame
          dsimp only
          rw [if_neg hx, if_neg hstx, if_pos hshort, if_neg hy]
          exact hr fuel hf
      · obtain ⟨r, hr, hrc⟩ := receive_payload_terminates_from t m hprog buffer length
          (bulk_retry t ENDPOINT_IN 0 2 RETRY_MAX 0 stack c).buf
          (bulk_retry t ENDPOINT_IN 0 2 RETRY_MAX 0 stack c).calls (by omega)
          (bulk_retry t ENDPOINT_IN 0 2 RETRY_MAX 0 stack c).events
        refine ⟨r, ?_, by omega⟩
        intro fuel hf
        unfold receive_data_frame
        dsimp only
        rw [if_neg hx, if_neg hstx, if_neg hshort]
        exact hr fuel hf

/-- The payload loop never ends when, from transfer `m` on, every read
succeeds without delivering a byte. -/
theorem payload_loop_diverges_from (t : Transport) (len m : Nat)
    (hz : ∀ i, m ≤ i → t i = ⟨LIBUSB_SUCCESS, []⟩) :
    ∀ (fuel received : Nat) (buf : Mem) (c : Nat), m ≤ c → received < len + 2 →
      payload_loop t len fuel received buf c = none := by
  intro fuel
  induction fuel with
  | zero => intro received buf c _ _; rfl
  | succ fuel ih =>
    intro received buf c hc hrec
    have ht := hz c hc
    have hnp : (t c).ret ≠ LIBUSB_ERROR_PIPE := by
      rw [ht]; exact fun h => pipe_ne_success h.symm
    have hx := bulk_retry_once t ENDPOINT_IN (2 + received) (len + 2 - received) buf c hnp
    rw [ht] at hx
    dsimp only at hx
    have hok : (bulk_retry t ENDPOINT_IN (2 + received) (len + 2 - received) RETRY_MAX 0 buf
        c).ret = LIBUSB_SUCCESS := by rw [hx]
    have hlt : received + (bulk_retry t ENDPOINT_IN (2 + received) (len + 2 - received)
        RETRY_MAX 0 buf c).transferred < len + 2 := by
      rw [hx]; exact hrec
    rw [payload_loop_more t len fuel received buf c hok hlt, hx]
    dsimp only
    rw [List.length_nil, Nat.add_zero, ih received _ (c + 1) (by omega) hrec]

/-- The value of `v850j_get_silicon_signature` in terms of the values of its
three stages, when both calls of `receive_data_frame` return. -/
theorem silicon_signature_result (k : Header) (t : Transport) (ss sr sr2 : Mem)
    (buf : List Byte) (len fuel c : Nat) (r1 r2 : Recv)
    (h1 : receive_data_frame k t sr fuel buf len
      (send_command_frame k t ss k.V850ESJx3L_SILICON_SIGNATURE [] c).calls = some r1)
    (h2 : receive_data_frame k t sr2 fuel r1.buffer r1.length r1.calls = some r2) :
    v850j_get_silicon_signature k t ss sr sr2 buf len fuel c =
      some (
        if (send_command_frame k t ss k.V850ESJx3L_SILICON_SIGNATURE [] c).ret ≠ 0 then
          ⟨-1, (send_command_frame k t ss k.V850ESJx3L_SILICON_SIGNATURE [] c).calls,
            (send_command_frame k t ss k.V850ESJx3L_SILICON_SIGNATURE [] c).events⟩
        else if r1.ret ≠ 0 ∨ r1.buffer.getD 0 0 ≠ k.V850ESJx3L_STATUS_ACK then
          ⟨-1, r1.calls,
            (send_command_frame k t ss k.V850ESJx3L_SILICON_SIGNATURE [] c).events ++ r1.events⟩
        else
          ⟨if r2.ret = 0 then 0 else -1, r2.calls,
            (send_command_frame k t ss k.V850ESJx3L_SILICON_SIGNATURE [] c).events ++ r1.events ++
              r2.events⟩) := by
  have hs := send_ret k t ss k.V850ESJx3L_SILICON_SIGNATURE [] c
  have hr1 := (disciplined_receive k t sr fuel buf len _ r1 h1).2
  have hr2 := (disciplined_receive k t sr2 fuel _ _ _ r2 h2).2
  unfold v850j_get_silicon_signature
  dsimp only
  rw [h1]
  dsimp only
  rw [h2]
  dsimp only
  generalize send_command_frame k t ss k.V850ESJx3L_SILICON_SIGNATURE [] c = s at *
  by_cases hs0 : s.ret ≠ 0
  · rw [if_pos hs0, if_pos hs0]
    rcases hs with hs | hs
    · exact absurd hs hs0
    · rw [hs]
  · rw [if_neg hs0, if_neg hs0]
    by_cases h10 : r1.ret ≠ 0
    · rw [if_pos h10, if_pos (Or.inl h10)]
      rcases hr1 with hr1 | hr1
      · exact absurd hr1 h10
      · rw [hr1]
    · rw [if_neg h10]
      by_cases hack : r1.buffer.getD 0 0 ≠ k.V850ESJx3L_STATUS_ACK
      · rw [if_pos hack, if_pos (Or.inr hack)]
      · rw [if_neg hack, if_neg (show ¬ (r1.ret ≠ 0 ∨ r1.buffer.getD 0 0 ≠ k.V850ESJx3L_STATUS_ACK)
          from fun h => h.elim h10 hack)]
        by_cases h20 : r2.ret ≠ 0
        · rw [if_pos h20, if_neg h20]
          rcases hr2 with hr2 | hr2
          · exact absurd hr2 h20
          · rw [hr2]
        · rw [if_neg h20, if_pos (not_not.mp h20)]

/-- C12, refuted: the device `silent_after_header` accepts the command frame
(the send returns 0) and delivers the header `STX, 1`; every later read
succeeds with no byte, so the first decode never completes and
`v850j_get_silicon_signature` returns nothing, whatever the number of
iterations allowed: the first frame is not decoded, and yet no non-zero value
is returned. -/
theorem silicon_signature_hangs :
    send_command_frame hdr silent_after_header stack0 hdr.V850ESJx3L_SILICON_SIGNATURE [] 0 =
      ⟨0, 1, [Event.bulk ENDPOINT_OUT [0x01, 1, 0xC0, 63, 0x03] 5 4000 LIBUSB_SUCCESS
        [0, 0, 0, 0, 0]]⟩ ∧
    (¬ ∃ fuel r1, receive_data_frame hdr silent_after_header stack0 fuel [] 0 1 = some r1) ∧
    ¬ ∃ fuel R, v850j_get_silicon_signature hdr silent_after_header stack0 stack0 stack0 [] 0
      fuel 0 = some R := by
  have hz : ∀ i, 2 ≤ i → silent_after_header i = ⟨LIBUSB_SUCCESS, []⟩ := by
    intro i hi
    unfold silent_after_header
    rw [if_neg (by omega), if_neg (by omega)]
  have h1 : silent_after_header 1 = ⟨LIBUSB_SUCCESS, [0x02, 1]⟩ := rfl
  have hnp : (silent_after_header 1).ret ≠ LIBUSB_ERROR_PIPE := by decide
  have hrecv : ∀ fuel, receive_data_frame hdr silent_after_header stack0 fuel [] 0 1 = none := by
    intro fuel
    unfold receive_data_frame
    simp only [bulk_retry_once silent_after_header ENDPOINT_IN 0 2 stack0 1 hnp, h1,
      if_pos endpoint_in_reads]
    have hb0 : memcpy stack0 0 [0x02, 1] 0 = hdr.V850ESJx3L_STX := by decide
    rw [if_neg (by simp), if_neg (by simp [hb0]), if_neg (by simp)]
    unfold receive_payload
    dsimp only
    rw [payload_loop_diverges_from silent_after_header _ 2 hz fuel 0 _ (1 + 1) (by omega)
      (by omega)]
  have hsend : send_command_frame hdr silent_after_header stack0
      hdr.V850ESJx3L_SILICON_SIGNATURE [] 0 =
      ⟨0, 1, [Event.bulk ENDPOINT_OUT [0x01, 1, 0xC0, 63, 0x03] 5 4000 LIBUSB_SUCCESS
        [0, 0, 0, 0, 0]]⟩ := by decide
  refine ⟨hsend, ?_, ?_⟩
  · rintro ⟨fuel, r1, h⟩
    rw [hrecv fuel] at h
    exact absurd h (by simp)
  · rintro ⟨fuel, R, h⟩
    unfold v850j_get_silicon_signature at h
    simp only [hsend] at h
    rw [if_neg (by simp), hrecv fuel] at h
    exact absurd h (by simp)

/-- C12, amended. Let every successful read made by
`v850j_get_silicon_signature` deliver at least one byte (the reads are the
transfers that follow those of the send), and allow the payload loops 258
iterations or more.  Then the call returns, it returns 0 or -1, and it returns
0 exactly when the command frame `SOH, 1, SILICON_SIGNATURE, checksum, ETX` was
sent successfully, a first data frame was decoded successfully with first
payload byte ACK, and a second data frame was decoded successfully.  After a
failed send nothing is read; after a failed first decode, or a status byte
other than ACK, no second frame is read; otherwise the call ends with the
second decode. -/
theorem no_partial_success (k : Header) (t : Transport) (ss sr sr2 : Mem) (buf : List Byte)
    (len fuel c : Nat)
    (hprog : ∀ i, (send_command_frame k t ss k.V850ESJx3L_SILICON_SIGNATURE [] c).calls ≤ i →
      (t i).ret = LIBUSB_SUCCESS → 1 ≤ (t i).data.length)
    (hfuel : 258 ≤ fuel) :
    command_frame k ss k.V850ESJx3L_SILICON_SIGNATURE [] =
      [k.V850ESJx3L_SOH, 1, k.V850ESJx3L_SILICON_SIGNATURE,
        checksum [1, k.V850ESJx3L_SILICON_SIGNATURE], k.V850ESJx3L_ETX] ∧
    (∀ e ∈ (send_command_frame k t ss k.V850ESJx3L_SILICON_SIGNATURE [] c).events,
      e = Event.clear_halt ENDPOINT_OUT ∨
      ∃ r : Resp, e = Event.bulk ENDPOINT_OUT
        (command_frame k ss k.V850ESJx3L_SILICON_SIGNATURE []) 5 V850J_TIMEOUT_MS r.ret r.data) ∧
    ∃ R, v850j_get_silicon_signature k t ss sr sr2 buf len fuel c = some R ∧
      (R.ret = 0 ∨ R.ret = -1) ∧
      (R.ret = 0 ↔
        (send_command_frame k t ss k.V850ESJx3L_SILICON_SIGNATURE [] c).ret = 0 ∧
        ∃ r1, receive_data_frame k t sr fuel buf len
            (send_command_frame k t ss k.V850ESJx3L_SILICON_SIGNATURE [] c).calls = some r1 ∧
          r1.ret = 0 ∧ (r1.buffer.take r1.length).head? = some k.V850ESJx3L_STATUS_ACK ∧
          ∃ r2, receive_data_frame k t sr2 fuel r1.buffer r1.length r1.calls = some r2 ∧
            r2.ret = 0) ∧
      ((send_command_frame k t ss k.V850ESJx3L_SILICON_SIGNATURE [] c).ret ≠ 0 →
        R.calls = (send_command_frame k t ss k.V850ESJx3L_SILICON_SIGNATURE [] c).calls ∧
        R.events = (send_command_frame k t ss k.V850ESJx3L_SILICON_SIGNATURE [] c).events) ∧
      (∀ r1, (send_command_frame k t ss k.V850ESJx3L_SILICON_SIGNATURE [] c).ret = 0 →
        receive_data_frame k t sr fuel buf len
          (send_command_frame k t ss k.V850ESJx3L_SILICON_SIGNATURE [] c).calls = some r1 →
        (r1.ret ≠ 0 ∨ (r1.buffer.take r1.length).head? ≠ some k.V850ESJx3L_STATUS_ACK) →
        R.calls = r1.calls ∧
        R.events =
          (send_command_frame k t ss k.V850ESJx3L_SILICON_SIGNATURE [] c).events ++ r1.events) ∧
      (∀ r1 r2, (send_command_frame k t ss k.V850ESJx3L_SILICON_SIGNATURE [] c).ret = 0 →
        receive_data_frame k t sr fuel buf len
          (send_command_frame k t ss k.V850ESJx3L_SILICON_SIGNATURE [] c).calls = some r1 →
        r1.ret = 0 → (r1.buffer.take r1.length).head? = some k.V850ESJx3L_STATUS_ACK →
        receive_data_frame k t sr2 fuel r1.buffer r1.length r1.calls = some r2 →
        R.calls = r2.calls ∧
        R.events =
          (send_command_frame k t ss k.V850ESJx3L_SILICON_SIGNATURE [] c).events ++ r1.events ++
            r2.events) := by
  have hframe : command_frame k ss k.V850ESJx3L_SILICON_SIGNATURE [] =
      [k.V850ESJx3L_SOH, 1, k.V850ESJx3L_SILICON_SIGNATURE,
        checksum [1, k.V850ESJx3L_SILICON_SIGNATURE], k.V850ESJx3L_ETX] := by
    rw [command_frame_eq]; rfl
  have hev : ∀ e ∈ (send_command_frame k t ss k.V850ESJx3L_SILICON_SIGNATURE [] c).events,
      e = Event.clear_halt ENDPOINT_OUT ∨
      ∃ r : Resp, e = Event.bulk ENDPOINT_OUT
        (command_frame k ss k.V850ESJx3L_SILICON_SIGNATURE []) 5 V850J_TIMEOUT_MS r.ret
          r.data := by
    intro e he
    obtain ⟨j, _, _, hj⟩ := send_command_frame_events k t ss k.V850ESJx3L_SILICON_SIGNATURE [] c
    rw [hj] at he
    rcases mem_retry_events he with he | ⟨i, _, he⟩
    · exact Or.inl he
    · exact Or.inr ⟨t (c + i), he⟩
  refine ⟨hframe, hev, ?_⟩
  clear hev
  -- both decodes return, whether or not the call gets to them
  obtain ⟨r1, hr1, hc1⟩ := receive_terminates_from k t _ hprog sr buf len _ (Nat.le_refl _)
  obtain ⟨r2, hr2, _⟩ := receive_terminates_from k t _ hprog sr2 r1.buffer r1.length r1.calls hc1
  have h1 := hr1 fuel hfuel
  have h2 := hr2 fuel hfuel
  have H := silicon_signature_result k t ss sr sr2 buf len fuel c r1 r2 h1 h2
  -- the status byte found at `buf[0]` is the first payload byte
  have hhead : r1.ret = 0 →
      (r1.buffer.take r1.length).head? = some (r1.buffer.getD 0 0) := by
    intro h0
    obtain ⟨_, _, _, _, hh⟩ := receive_ok_shape k t sr fuel buf len _ r1 h1 h0
    exact hh
  have hr2ret := (disciplined_receive k t sr2 fuel _ _ _ r2 h2).2
  generalize send_command_frame k t ss k.V850ESJx3L_SILICON_SIGNATURE [] c = s at *
  refine ⟨_, H, ?_⟩
  clear H
  by_cases hs0 : s.ret ≠ 0
  · rw [if_pos hs0]
    dsimp only
    refine ⟨Or.inr rfl, ⟨fun h => absurd h (by decide), fun h => absurd h.1 hs0⟩,
      fun _ => ⟨rfl, rfl⟩, fun _ h0 => absurd h0 hs0, fun _ _ h0 => absurd h0 hs0⟩
  · rw [if_neg hs0]
    have hs0' : s.ret = 0 := not_not.mp hs0
    by_cases hbad : r1.ret ≠ 0 ∨ r1.buffer.getD 0 0 ≠ k.V850ESJx3L_STATUS_ACK
    · rw [if_pos hbad]
      dsimp only
      have hno : ¬ (r1.ret = 0 ∧
          (r1.buffer.take r1.length).head? = some k.V850ESJx3L_STATUS_ACK) := by
        rintro ⟨h0, ha⟩
        rcases hbad with hb | hb
        · exact hb h0
        · rw [hhead h0] at ha
          injection ha with ha
          exact hb ha
      refine ⟨Or.inr rfl, ⟨fun h => absurd h (by decide), ?_⟩, fun h => absurd hs0' h, ?_, ?_⟩
      · rintro ⟨_, r1', h1', h0, ha, _⟩
        rw [h1] at h1'
        injection h1' with h1'
        subst h1'
        exact (hno ⟨h0, ha⟩).elim
      · intro r1' _ h1' _
        rw [h1] at h1'
        injection h1' with h1'
        subst h1'
        exact ⟨rfl, rfl⟩
      · intro r1' r2' _ h1' h0 ha _
        rw [h1] at h1'
        injection h1' with h1'
        subst h1'
        exact absurd ⟨h0, ha⟩ hno
    · rw [if_neg hbad]
      dsimp only
      have h10 : r1.ret = 0 := by
        by_contra h
        exact hbad (Or.inl h)
      have hack : r1.buffer.getD 0 0 = k.V850ESJx3L_STATUS_ACK := by
        by_contra h
        exact hbad (Or.inr h)
      refine ⟨?_, ⟨?_, ?_⟩, fun h => absurd hs0' h, ?_, ?_⟩
      · by_cases h20 : r2.ret = 0
        · rw [if_pos h20]; exact Or.inl rfl
        · rw [if_neg h20]; exact Or.inr rfl
      · intro h
        refine ⟨hs0', r1, h1, h10, by rw [hhead h10, hack], r2, h2, ?_⟩
        by_contra h20
        rw [if_neg h20] at h
        exact absurd h (by decide)
      · rintro ⟨_, r1', h1', _, _, r2', h2', h20⟩
        rw [h1] at h1'
        injection h1' with h1'
        subst h1'
        rw [h2] at h2'
        injection h2' with h2'
        subst h2'
        rw [if_pos h20]
      · intro r1' _ h1' hb
        rw [h1] at h1'
        injection h1' with h1'
        subst h1'
        rcases hb with hb | hb
        · exact absurd h10 hb
        · exact absurd (by rw [hhead h10, hack]) hb
      · intro r1' r2' _ h1' _ _ h2'
        rw [h1] at h1'
        injection h1' with h1'
        subst h1'
        rw [h2] at h2'
        injection h2' with h2'
        subst h2'
        exact ⟨rfl, rfl⟩

/-- C12 amended, on a device that answers the command with the status byte
`0x15`: the call returns -1 after the first frame, in three transfers, and
the second frame is not read. -/
theorem no_partial_success_witness :
    (258 ≤ 258) ∧
    ∃ R, v850j_get_silicon_signature hdr
        (stub 1 [[0x02, 1], [0x15, 0xEA, 0x03], [0x02, 4], [0x70, 0x79, 0x10, 0x00, 0x03, 0x03]])
        stack0 stack0 stack0 [] 0 258 0 = some R ∧
      (R.ret = 0 ∨ R.ret = -1) ∧ R.ret ≠ 0 ∧ R.calls = 3 :=
  ⟨by decide,
    let ⟨R, hR, hret, _⟩ := (no_partial_success hdr
      (stub 1 [[0x02, 1], [0x15, 0xEA, 0x03], [0x02, 4], [0x70, 0x79, 0x10, 0x00, 0x03, 0x03]])
      stack0 stack0 stack0 [] 0 258 0
      (fun i => by
        unfold stub deliver script
        rcases Nat.lt_or_ge i 5 with h | h
        · interval_cases i <;> decide
        · intro _ hs
          rw [if_neg (by omega), List.getD_eq_default _ _ (by simp; omega)] at hs
          exact absurd hs (by decide))
      (by decide)).2.2
    ⟨R, hR, hret,
      by
        have h : v850j_get_silicon_signature hdr
            (stub 1 [[0x02, 1], [0x15, 0xEA, 0x03], [0x02, 4],
              [0x70, 0x79, 0x10, 0x00, 0x03, 0x03]])
            stack0 stack0 stack0 [] 0 258 0 =
            some ⟨-1, 3, [Event.bulk ENDPOINT_OUT [0x01, 1, 0xC0, 63, 0x03] 5 4000
                LIBUSB_SUCCESS [],
              Event.bulk ENDPOINT_IN [] 2 4000 LIBUSB_SUCCESS [0x02, 1],
              Event.bulk ENDPOINT_IN [] 3 4000 LIBUSB_SUCCESS [0x15, 0xEA, 0x03]]⟩ := by decide
        rw [h] at hR
        injection hR with hR
        subst hR
        exact ⟨by decide, rfl⟩⟩⟩

/-- C15. The three delays that `v850j_reset` computes in lines 141-146, in
binary64 arithmetic with every operation rounded to nearest-even and the result
truncated to `useconds_t`, are `tCOM = 46`, `t12 = 1500` and `t2C = 1500`
microseconds.  They are the values of the formula
`(cycles / (4 * base_frequency)) * 1_000_000` evaluated exactly and truncated,
with `base_frequency = 5000000` and `cycles = 620, 30000, 30000`, and 15
microseconds added to the first only; the rounding of the quotients
(`620.0 / fxx` is not a binary64 number) does not show in the results.  These
are the delays of the three `usleep` calls of `v850j_reset`. -/
theorem reset_timing :
    fx = 5000000 ∧ fxx = 4 * 5000000 ∧
    Double.div (Double.ofNat 620) (Double.ofNat fxx) = ⟨4574792530279969, 2 ^ 67⟩ ∧
    Double.mul (Double.div (Double.ofNat 620) (Double.ofNat fxx)) (Double.ofNat 1000000) =
      ⟨31 * 2 ^ 48, 2 ^ 48⟩ ∧
    Double.mul (Double.div (Double.ofNat 30000) (Double.ofNat fxx)) (Double.ofNat 1000000) =
      ⟨1500 * 2 ^ 42, 2 ^ 42⟩ ∧
    tCOM = 46 ∧ t12 = 1500 ∧ t2C = 1500 ∧
    tCOM = delay_formula 620 5000000 15 ∧
    t12 = delay_formula 30000 5000000 0 ∧
    t2C = delay_formula 30000 5000000 0 ∧
    (∀ (k : Header) (t : Transport) (ss sr : Mem) (buf : List Byte) (len fuel c : Nat),
      v850j_reset k t tCOM t12 t2C ss sr buf len fuel c =
        v850j_reset k t 46 1500 1500 ss sr buf len fuel c) := by
  have h1 : tCOM = 46 := by decide
  have h2 : t12 = 1500 := by decide
  have h3 : t2C = 1500 := by decide
  refine ⟨rfl, by decide, by decide, by decide, by decide, h1, h2, h3, ?_, ?_, ?_, ?_⟩
  · rw [h1]; decide
  · rw [h2]; decide
  · rw [h3]; decide
  · intro k t ss sr buf len fuel c
    rw [h1, h2, h3]

end V850J
